import Mathlib

/-!
# toy80/vmd : the VMD motion-file decoder (`vmd.go`)

A shallow embedding of `Decode` and of the stage decoders it runs, followed by
theorems about them.

Modelling conventions.

* An `io.Reader` is the list of bytes it has not yet delivered (`Reader`); every
  operation returns the reader it leaves behind, so consumption is observable.
  The reader is a finite byte stream: it raises no error other than end of input.
* A Go `string` is its byte sequence (`List Byte`); slicing, `HasPrefix` and `==`
  act on bytes, as they do in Go.
* A `float32` is represented by its 32-bit pattern (a `Nat`), a fixed-size array
  by a list of that length. An element of a float array is stored by reflection,
  which quiets a signalling NaN (`float32RoundTrip`); a scalar float keeps its bits.
* A Go `error` is a `GoError`; `nil` is `none` of `Option GoError`.
* A run-time panic (slice bounds out of range) is the outcome `Run.fault`.
* `make` always succeeds (memory is not modelled).
* The Shift-JIS decoder of `golang.org/x/text` is an argument `conv` of every
  function that converts text; `shiftJisDecoder` is the model of the library's
  decoder, with the JIS X 0208 table as a parameter.
-/

namespace Vmd

abbrev Byte := UInt8

/-- The bytes a stream has not yet delivered. -/
abbrev Reader := List Byte

/-- Go error values that `vmd.go` can produce: the two sentinels of package `io`,
`errors.New` and the `%w` wrapper of `fmt.Errorf`. -/
inductive GoError where
  | EOF : GoError
  | ErrUnexpectedEOF : GoError
  | errorString (s : String) : GoError
  | wrapError (msg : String) (err : GoError) : GoError
  deriving DecidableEq, Repr

namespace GoError

/-- Method `Error()`. -/
def Error : GoError → String
  | EOF => "EOF"
  | ErrUnexpectedEOF => "unexpected EOF"
  | errorString s => s
  | wrapError msg _ => msg

/-- Function `errors.Unwrap`. -/
def Unwrap : GoError → Option GoError
  | wrapError _ err => some err
  | _ => none

end GoError

/-- Call `errors.New(text)`. -/
def errorsNew (text : String) : GoError := GoError.errorString text

/-- Call `fmt.Errorf(label + "%w", err)`: the message is the label followed by the
message of the cause, and the cause is kept for `Unwrap`. -/
def Errorf (label : String) (err : GoError) : GoError :=
  GoError.wrapError (label ++ err.Error) err

/-- Outcome of a call that may panic. -/
inductive Run (α : Type) where
  | fault : Run α
  | ret (a : α) : Run α
  deriving DecidableEq, Repr

/-- The bytes of an ASCII string literal. -/
def ascii (s : String) : List Byte := s.toList.map (fun c => UInt8.ofNat c.toNat)

/-! ## Data model (`vmd.go` lines 18-64) -/

structure Header where
  Version : Nat
  Model : List Byte
  deriving DecidableEq, Repr

structure BoneFrame where
  Bone : List Byte
  Time : Nat
  Translate : List Nat
  RotateQuat : List Nat
  XCurve : List Byte
  YCurve : List Byte
  ZCurve : List Byte
  RCurve : List Byte
  deriving DecidableEq, Repr

structure MorphFrame where
  Morph : List Byte
  Time : Nat
  Weight : Nat
  deriving DecidableEq, Repr

structure CameraFrame where
  Time : Nat
  Distance : Nat
  Translate : List Nat
  RotateXyz : List Nat
  Curve : List Byte
  ViewAngle : Nat
  Ortho : Byte
  deriving DecidableEq, Repr

structure LightFrame where
  Time : Nat
  Color : List Nat
  Direction : List Nat
  deriving DecidableEq, Repr

structure VMD extends Header where
  BoneFrames : List BoneFrame
  MorphFrames : List MorphFrame
  CameraFrames : List CameraFrame
  LightFrames : List LightFrame
  deriving DecidableEq, Repr

/-- Zero value of `BoneFrame`, the element `make` fills a slice with. -/
def BoneFrame.zero : BoneFrame :=
  { Bone := [], Time := 0, Translate := List.replicate 3 0, RotateQuat := List.replicate 4 0,
    XCurve := List.replicate 16 0, YCurve := List.replicate 16 0,
    ZCurve := List.replicate 16 0, RCurve := List.replicate 16 0 }

/-- Zero value of `MorphFrame`. -/
def MorphFrame.zero : MorphFrame := { Morph := [], Time := 0, Weight := 0 }

/-- Zero value of `CameraFrame`. -/
def CameraFrame.zero : CameraFrame :=
  { Time := 0, Distance := 0, Translate := List.replicate 3 0, RotateXyz := List.replicate 3 0,
    Curve := List.replicate 24 0, ViewAngle := 0, Ortho := 0 }

/-- Zero value of `LightFrame`. -/
def LightFrame.zero : LightFrame :=
  { Time := 0, Color := List.replicate 3 0, Direction := List.replicate 3 0 }

/-- The document `new(VMD)` allocates. -/
def VMD.new : VMD :=
  { Version := 0, Model := [], BoneFrames := [], MorphFrames := [], CameraFrames := [],
    LightFrames := [] }

/-! ## Reading primitives (`io.ReadFull`, `binary.Read`, `bytes.IndexByte`) -/

/-- Call `io.ReadFull(r, buf)` with `len(buf) = n` on a finite stream: the next `n`
bytes, or `io.EOF` when the stream is already at its end, or `io.ErrUnexpectedEOF`
when it ends inside the buffer. A failed read has consumed what was left. -/
def ReadFull (r : Reader) (n : Nat) : Except GoError (List Byte) × Reader :=
  if n ≤ r.length then (Except.ok (r.take n), r.drop n)
  else if r.length = 0 then (Except.error GoError.EOF, [])
  else (Except.error GoError.ErrUnexpectedEOF, [])

/-- Function `binary.LittleEndian.Uint32` on a 4-byte buffer. -/
def Uint32 : List Byte → Nat
  | [b0, b1, b2, b3] =>
      (b0.toNat ||| (b1.toNat <<< 8) ||| (b2.toNat <<< 16) ||| (b3.toNat <<< 24)) % 2 ^ 32
  | _ => 0

/-- Call `binary.Read(r, binary.LittleEndian, &x)` for `x` of type `uint32` or
`float32`, both on the fast path of `binary.Read`: the float is
`math.Float32frombits` of the word, kept as its bit pattern. -/
def readUint32 (r : Reader) : Except GoError Nat × Reader :=
  match ReadFull r 4 with
  | (Except.ok bs, r1) => (Except.ok (Uint32 bs), r1)
  | (Except.error e, r1) => (Except.error e, r1)

/-- The `k` consecutive little-endian 32-bit words of a buffer of `4*k` bytes. -/
def words32 : Nat → List Byte → List Nat
  | 0, _ => []
  | k + 1, bs => Uint32 (bs.take 4) :: words32 k (bs.drop 4)

/-- Conversion `float32(float64(math.Float32frombits(u)))` on the bit pattern `u`.
A pointer to an array is not on the fast path of `binary.Read`: each element is stored
through `reflect.Value.SetFloat`, that is widened to `float64` and narrowed again. The
round trip returns every number and infinity unchanged and a NaN (exponent bits all
set, fraction not zero) with its quiet bit 0x00400000 set. -/
def float32RoundTrip (u : Nat) : Nat :=
  if u / 0x800000 % 0x100 = 0xFF ∧ u % 0x800000 ≠ 0 then u ||| 0x400000 else u

/-- The `k` elements `binary.Read` stores into a `[k]float32` from `4*k` bytes: the
little-endian words, each through the `float64` round trip. -/
def float32Array (k : Nat) (bs : List Byte) : List Nat :=
  (words32 k bs).map float32RoundTrip

/-- Call `binary.Read(r, binary.LittleEndian, &x)` for `x` of type `[k]float32`:
one read of `4*k` bytes, then `k` elements set by reflection. -/
def readFloat32s (r : Reader) (k : Nat) : Except GoError (List Nat) × Reader :=
  match ReadFull r (4 * k) with
  | (Except.ok bs, r1) => (Except.ok (float32Array k bs), r1)
  | (Except.error e, r1) => (Except.error e, r1)

/-- Call `binary.Read(r, binary.LittleEndian, &x)` for `x` of type `[k]byte`. -/
def readBytes (r : Reader) (k : Nat) : Except GoError (List Byte) × Reader :=
  ReadFull r k

/-- Call `binary.Read(r, binary.LittleEndian, &x)` for `x` of type `byte`. -/
def readByte (r : Reader) : Except GoError Byte × Reader :=
  match ReadFull r 1 with
  | (Except.ok bs, r1) => (Except.ok (bs.headD 0), r1)
  | (Except.error e, r1) => (Except.error e, r1)

/-- Function `bytes.IndexByte`: index of the first occurrence of `c`, `none` for -1. -/
def IndexByte : List Byte → Byte → Option Nat
  | [], _ => none
  | b :: bs, c => if b = c then some 0 else (IndexByte bs c).map (fun i => i + 1)

/-! ## The Shift-JIS decoder of `golang.org/x/text/encoding/japanese` -/

/-- Function `utf8.EncodeRune` (`|` of disjoint bit fields written as a sum). -/
def EncodeRune (r : Nat) : List Byte :=
  if r < 0x80 then [UInt8.ofNat r]
  else if r < 0x800 then [UInt8.ofNat (0xC0 + r / 64), UInt8.ofNat (0x80 + r % 64)]
  else if 0x10FFFF < r ∨ (0xD800 ≤ r ∧ r ≤ 0xDFFF) then [0xEF, 0xBF, 0xBD]
  else if r < 0x10000 then
    [UInt8.ofNat (0xE0 + r / 4096), UInt8.ofNat (0x80 + r / 64 % 64), UInt8.ofNat (0x80 + r % 64)]
  else
    [UInt8.ofNat (0xF0 + r / 262144), UInt8.ofNat (0x80 + r / 4096 % 64),
     UInt8.ofNat (0x80 + r / 64 % 64), UInt8.ofNat (0x80 + r % 64)]

/-- The table lookup of the two-byte case: rune `jis0208Decode[c0*94+c1]`, or U+FFFD
when the index is outside the table or the entry is 0. -/
def jisLookup (tbl : List UInt16) (c0 c1 : Nat) : Nat :=
  match tbl.get? (c0 * 94 + c1) with
  | some x => if x.toNat = 0 then 0xfffd else x.toNat
  | none => 0xfffd

/-- The two-byte case of `shiftJISDecoder.Transform` with lead byte `c0` and next
byte `c1`: the rune written and the number of source bytes consumed. -/
def sjisDouble (tbl : List UInt16) (c0 c1 : Nat) : Nat × Nat :=
  let c0 := if c0 ≤ 0x9f then c0 - 0x70 else c0 - 0xb0
  let c0 := 2 * c0 - 0x21
  if c1 < 0x40 then (0xfffd, 1)
  else if c1 < 0x7f then (jisLookup tbl (c0 - 1) (c1 - 0x40), 2)
  else if c1 = 0x7f then (0xfffd, 1)
  else if c1 < 0x9f then (jisLookup tbl (c0 - 1) (c1 - 0x41), 2)
  else if c1 < 0xfd then (jisLookup tbl c0 (c1 - 0x9f), 2)
  else (0xfffd, 2)

/-- The one-byte cases of `shiftJISDecoder.Transform`, and a lead byte that ends the
input: the rune written for source byte `c0`. -/
def sjisSingle (c0 : Nat) : Nat :=
  if c0 < 0x80 then c0
  else if 0xa1 ≤ c0 ∧ c0 < 0xe0 then c0 + (0xff61 - 0xa1)
  else if (0x81 ≤ c0 ∧ c0 < 0xa0) ∨ (0xe0 ≤ c0 ∧ c0 < 0xfd) then 0xfffd
  else if c0 = 0x80 then 0x80
  else 0xfffd

/-- Whether `c0` is the lead byte of a two-byte character. -/
def sjisLead (c0 : Nat) : Bool :=
  decide ((0x81 ≤ c0 ∧ c0 < 0xa0) ∨ (0xe0 ≤ c0 ∧ c0 < 0xfd))

/-- Method `shiftJISDecoder.Transform` run over a whole source (`atEOF = true`, a
destination large enough): the UTF-8 text. -/
def shiftJISTransform (tbl : List UInt16) : List Byte → List Byte
  | [] => []
  | [b0] => EncodeRune (sjisSingle b0.toNat)
  | b0 :: b1 :: rest =>
      if sjisLead b0.toNat then
        if (sjisDouble tbl b0.toNat b1.toNat).2 = 1 then
          EncodeRune (sjisDouble tbl b0.toNat b1.toNat).1 ++ shiftJISTransform tbl (b1 :: rest)
        else
          EncodeRune (sjisDouble tbl b0.toNat b1.toNat).1 ++ shiftJISTransform tbl rest
      else EncodeRune (sjisSingle b0.toNat) ++ shiftJISTransform tbl (b1 :: rest)

/-- Call `transform.String(shiftJisDecoder, src)`: the decoder replaces what it cannot
map by U+FFFD and reports no error. -/
def shiftJisDecoder (tbl : List UInt16) (src : List Byte) : Except GoError (List Byte) :=
  Except.ok (shiftJISTransform tbl src)

/-! ## `decodeString` (lines 66-83) and `decodeHeader` (lines 85-107) -/

/-- Lines 74-76 of `decodeString`:
`if i := bytes.IndexByte(buf, 0); i != -1 { buf = buf[:i] }`. -/
def truncateAtNull (buf : List Byte) : List Byte :=
  match IndexByte buf 0 with
  | some i => buf.take i
  | none => buf

/-- Function `decodeString(r, n)`: text, error and the reader left behind. When the
conversion reports an error the truncated bytes themselves are the text. -/
def decodeString (conv : List Byte → Except GoError (List Byte)) (r : Reader) (n : Nat) :
    List Byte × Option GoError × Reader :=
  if n = 0 then ([], none, r)
  else
    match ReadFull r n with
    | (Except.error e, r1) => ([], some e, r1)
    | (Except.ok buf, r1) =>
        match conv (truncateAtNull buf) with
        | Except.ok s => (s, none, r1)
        | Except.error _ => (truncateAtNull buf, none, r1)

/-- Function `strings.HasPrefix`. -/
def HasPrefix (s pre : List Byte) : Bool := pre.isPrefixOf s

/-- The last statement of `decodeHeader`: `vm.Model, err = decodeString(r, vm.Version*10)`. -/
def decodeModel (conv : List Byte → Except GoError (List Byte)) (vm : VMD) (r : Reader) :
    VMD × Option GoError × Reader :=
  match decodeString conv r (vm.Version * 10) with
  | (s, err, r1) => ({ vm with Model := s }, err, r1)

/-- Method `(*VMD).decodeHeader`. The slice expression `magicStr[:25]` panics when the
decoded text is shorter than 25 bytes. -/
def decodeHeader (conv : List Byte → Except GoError (List Byte)) (vm : VMD) (r : Reader) :
    Run (VMD × Option GoError × Reader) :=
  match decodeString conv r 30 with
  | (_, some e, r1) => Run.ret (vm, some e, r1)
  | (magicStr, none, r1) =>
      if magicStr.length < 25 then Run.fault
      else
        let magicStr := magicStr.take 25
        if HasPrefix magicStr (ascii "Vocaloid Motion Data") then
          if magicStr = ascii "Vocaloid Motion Data file" then
            Run.ret (decodeModel conv { vm with Version := 1 } r1)
          else if magicStr = ascii "Vocaloid Motion Data 0002" then
            Run.ret (decodeModel conv { vm with Version := 2 } r1)
          else Run.ret (vm, some (errorsNew "unsupported vmd version"), r1)
        else Run.ret (vm, some (errorsNew "not a vmd format file"), r1)

/-! ## The four frame-array decoders (lines 109-222) -/

/-- Body of the loop of `decodeBoneFrames` on the slice element `f`: the element as
the body leaves it (fields read before a failure stay assigned), the error, the reader. -/
def decodeBoneFrame (conv : List Byte → Except GoError (List Byte)) (f : BoneFrame)
    (r : Reader) : BoneFrame × Option GoError × Reader :=
  match decodeString conv r 15 with
  | (s, some e, r1) => ({ f with Bone := s }, some e, r1)
  | (s, none, r1) =>
    let f := { f with Bone := s }
    match readUint32 r1 with
    | (Except.error e, r2) => (f, some e, r2)
    | (Except.ok t, r2) =>
      let f := { f with Time := t }
      match readFloat32s r2 3 with
      | (Except.error e, r3) => (f, some e, r3)
      | (Except.ok tr, r3) =>
        let f := { f with Translate := tr }
        match readFloat32s r3 4 with
        | (Except.error e, r4) => (f, some e, r4)
        | (Except.ok q, r4) =>
          let f := { f with RotateQuat := q }
          match readBytes r4 16 with
          | (Except.error e, r5) => (f, some e, r5)
          | (Except.ok x, r5) =>
            let f := { f with XCurve := x }
            match readBytes r5 16 with
            | (Except.error e, r6) => (f, some e, r6)
            | (Except.ok y, r6) =>
              let f := { f with YCurve := y }
              match readBytes r6 16 with
              | (Except.error e, r7) => (f, some e, r7)
              | (Except.ok z, r7) =>
                let f := { f with ZCurve := z }
                match readBytes r7 16 with
                | (Except.error e, r8) => (f, some e, r8)
                | (Except.ok rc, r8) => ({ f with RCurve := rc }, none, r8)

/-- Loop `for i := range vm.BoneFrames` over the allocated slice: elements are
filled in order and the loop returns at the first error. -/
def decodeBoneLoop (conv : List Byte → Except GoError (List Byte)) :
    List BoneFrame → Reader → List BoneFrame × Option GoError × Reader
  | [], r => ([], none, r)
  | f :: fs, r =>
    match decodeBoneFrame conv f r with
    | (g, some e, r1) => (g :: fs, some e, r1)
    | (g, none, r1) =>
      match decodeBoneLoop conv fs r1 with
      | (gs, err, r2) => (g :: gs, err, r2)

/-- Method `(*VMD).decodeBoneFrames`. -/
def decodeBoneFrames (conv : List Byte → Except GoError (List Byte)) (vm : VMD) (r : Reader) :
    VMD × Option GoError × Reader :=
  match readUint32 r with
  | (Except.error e, r1) => (vm, some e, r1)
  | (Except.ok numFrames, r1) =>
    if numFrames > 0 then
      match decodeBoneLoop conv (List.replicate numFrames BoneFrame.zero) r1 with
      | (fs, err, r2) => ({ vm with BoneFrames := fs }, err, r2)
    else (vm, none, r1)

/-- Body of the loop of `decodeMorphFrames`. -/
def decodeMorphFrame (conv : List Byte → Except GoError (List Byte)) (f : MorphFrame)
    (r : Reader) : MorphFrame × Option GoError × Reader :=
  match decodeString conv r 15 with
  | (s, some e, r1) => ({ f with Morph := s }, some e, r1)
  | (s, none, r1) =>
    let f := { f with Morph := s }
    match readUint32 r1 with
    | (Except.error e, r2) => (f, some e, r2)
    | (Except.ok t, r2) =>
      let f := { f with Time := t }
      match readUint32 r2 with
      | (Except.error e, r3) => (f, some e, r3)
      | (Except.ok w, r3) => ({ f with Weight := w }, none, r3)

/-- Loop `for i := range vm.MorphFrames`. -/
def decodeMorphLoop (conv : List Byte → Except GoError (List Byte)) :
    List MorphFrame → Reader → List MorphFrame × Option GoError × Reader
  | [], r => ([], none, r)
  | f :: fs, r =>
    match decodeMorphFrame conv f r with
    | (g, some e, r1) => (g :: fs, some e, r1)
    | (g, none, r1) =>
      match decodeMorphLoop conv fs r1 with
      | (gs, err, r2) => (g :: gs, err, r2)

/-- Method `(*VMD).decodeMorphFrames`. -/
def decodeMorphFrames (conv : List Byte → Except GoError (List Byte)) (vm : VMD) (r : Reader) :
    VMD × Option GoError × Reader :=
  match readUint32 r with
  | (Except.error e, r1) => (vm, some e, r1)
  | (Except.ok numFrames, r1) =>
    if numFrames > 0 then
      match decodeMorphLoop conv (List.replicate numFrames MorphFrame.zero) r1 with
      | (fs, err, r2) => ({ vm with MorphFrames := fs }, err, r2)
    else (vm, none, r1)

/-- Body of the loop of `decodeCameraFrames`. -/
def decodeCameraFrame (f : CameraFrame) (r : Reader) :
    CameraFrame × Option GoError × Reader :=
  match readUint32 r with
  | (Except.error e, r1) => (f, some e, r1)
  | (Except.ok t, r1) =>
    let f := { f with Time := t }
    match readUint32 r1 with
    | (Except.error e, r2) => (f, some e, r2)
    | (Except.ok d, r2) =>
      let f := { f with Distance := d }
      match readFloat32s r2 3 with
      | (Except.error e, r3) => (f, some e, r3)
      | (Except.ok tr, r3) =>
        let f := { f with Translate := tr }
        match readFloat32s r3 3 with
        | (Except.error e, r4) => (f, some e, r4)
        | (Except.ok ro, r4) =>
          let f := { f with RotateXyz := ro }
          match readBytes r4 24 with
          | (Except.error e, r5) => (f, some e, r5)
          | (Except.ok c, r5) =>
            let f := { f with Curve := c }
            match readUint32 r5 with
            | (Except.error e, r6) => (f, some e, r6)
            | (Except.ok a, r6) =>
              let f := { f with ViewAngle := a }
              match readByte r6 with
              | (Except.error e, r7) => (f, some e, r7)
              | (Except.ok o, r7) => ({ f with Ortho := o }, none, r7)

/-- Loop `for i := range vm.CameraFrames`. -/
def decodeCameraLoop : List CameraFrame → Reader → List CameraFrame × Option GoError × Reader
  | [], r => ([], none, r)
  | f :: fs, r =>
    match decodeCameraFrame f r with
    | (g, some e, r1) => (g :: fs, some e, r1)
    | (g, none, r1) =>
      match decodeCameraLoop fs r1 with
      | (gs, err, r2) => (g :: gs, err, r2)

/-- Method `(*VMD).decodeCameraFrames`. -/
def decodeCameraFrames (vm : VMD) (r : Reader) : VMD × Option GoError × Reader :=
  match readUint32 r with
  | (Except.error e, r1) => (vm, some e, r1)
  | (Except.ok numFrames, r1) =>
    if numFrames > 0 then
      match decodeCameraLoop (List.replicate numFrames CameraFrame.zero) r1 with
      | (fs, err, r2) => ({ vm with CameraFrames := fs }, err, r2)
    else (vm, none, r1)

/-- Body of the loop of `decodeLightFrames`. -/
def decodeLightFrame (f : LightFrame) (r : Reader) : LightFrame × Option GoError × Reader :=
  match readUint32 r with
  | (Except.error e, r1) => (f, some e, r1)
  | (Except.ok t, r1) =>
    let f := { f with Time := t }
    match readFloat32s r1 3 with
    | (Except.error e, r2) => (f, some e, r2)
    | (Except.ok c, r2) =>
      let f := { f with Color := c }
      match readFloat32s r2 3 with
      | (Except.error e, r3) => (f, some e, r3)
      | (Except.ok d, r3) => ({ f with Direction := d }, none, r3)

/-- Loop `for i := range vm.LightFrames`. -/
def decodeLightLoop : List LightFrame → Reader → List LightFrame × Option GoError × Reader
  | [], r => ([], none, r)
  | f :: fs, r =>
    match decodeLightFrame f r with
    | (g, some e, r1) => (g :: fs, some e, r1)
    | (g, none, r1) =>
      match decodeLightLoop fs r1 with
      | (gs, err, r2) => (g :: gs, err, r2)

/-- Method `(*VMD).decodeLightFrames`. -/
def decodeLightFrames (vm : VMD) (r : Reader) : VMD × Option GoError × Reader :=
  match readUint32 r with
  | (Except.error e, r1) => (vm, some e, r1)
  | (Except.ok numFrames, r1) =>
    if numFrames > 0 then
      match decodeLightLoop (List.replicate numFrames LightFrame.zero) r1 with
      | (fs, err, r2) => ({ vm with LightFrames := fs }, err, r2)
    else (vm, none, r1)

/-! ## `Decode` (lines 224-255) -/

/-- The deferred function of `Decode`: `if err != nil { vm = nil }`, applied to the
named results when the function returns. -/
def deferred (vm : VMD) (err : Option GoError) : Option VMD × Option GoError :=
  match err with
  | some e => (none, some e)
  | none => (some vm, none)

/-- A `return` of `Decode` with named results `vm`, `err` and the reader as the
stages left it. -/
def returns (vm : VMD) (err : Option GoError) (r : Reader) :
    Run (Option VMD × Option GoError × Reader) :=
  Run.ret ((deferred vm err).1, (deferred vm err).2, r)

/-- Function `Decode`: the document, the error and the bytes the stages left unread;
`Run.fault` when the header stage panics. -/
def Decode (conv : List Byte → Except GoError (List Byte)) (r : Reader) :
    Run (Option VMD × Option GoError × Reader) :=
  match decodeHeader conv VMD.new r with
  | Run.fault => Run.fault
  | Run.ret (vm, some e, r1) => returns vm (some (Errorf "vmd: error decoding header: " e)) r1
  | Run.ret (vm, none, r1) =>
    match decodeBoneFrames conv vm r1 with
    | (vm, some e, r2) => returns vm (some (Errorf "vmd: error decoding bone frames: " e)) r2
    | (vm, none, r2) =>
      match decodeMorphFrames conv vm r2 with
      | (vm, some e, r3) => returns vm (some (Errorf "vmd: error decoding morph frames: " e)) r3
      | (vm, none, r3) =>
        match decodeCameraFrames vm r3 with
        | (vm, some e, r4) =>
          returns vm (some (Errorf "vmd: error decoding camera frames: " e)) r4
        | (vm, none, r4) =>
          match decodeLightFrames vm r4 with
          | (vm, some e, r5) =>
            returns vm (some (Errorf "vmd: error decoding light frames: " e)) r5
          | (vm, none, r5) => returns vm none r5

/-! ## The layout as the specification states it (sections 4.1, 4.3 and 6)

These definitions follow the words of the specification, not the code; the theorems
compare the decoders with them. The decoders agree with them except on the elements
of float arrays that are NaN patterns (see `float32RoundTrip`). -/

/-- Conversion of a byte sequence to text with the fallback of section 4.1: the bytes
themselves when the conversion reports an error. -/
def convertText (conv : List Byte → Except GoError (List Byte)) (bs : List Byte) :
    List Byte :=
  match conv bs with
  | Except.ok s => s
  | Except.error _ => bs

/-- Text of a null-padded name field (section 4.1): the bytes before the first null
byte, converted; those bytes themselves when the conversion reports an error. -/
def fieldText (conv : List Byte → Except GoError (List Byte)) (field : List Byte) :
    List Byte :=
  match conv (field.takeWhile (fun b => b != 0)) with
  | Except.ok s => s
  | Except.error _ => field.takeWhile (fun b => b != 0)

/-- Unsigned 32-bit little-endian value of four bytes in stream order. -/
def le32 : List Byte → Nat
  | [b0, b1, b2, b3] => b0.toNat + 256 * b1.toNat + 65536 * b2.toNat + 16777216 * b3.toNat
  | _ => 0

/-- The `k` little-endian 32-bit values of `4*k` bytes. -/
def le32s : Nat → List Byte → List Nat
  | 0, _ => []
  | k + 1, bs => le32 (bs.take 4) :: le32s k (bs.drop 4)

/-- The field of `len` bytes at offset `off` of a record. -/
def fieldAt (record : List Byte) (off len : Nat) : List Byte := (record.drop off).take len

/-- Bone record of 111 bytes (section 6): 15-byte name, u32 time, 12-byte translate,
16-byte quaternion, four 16-byte curves. -/
def specBoneFrame (conv : List Byte → Except GoError (List Byte)) (record : List Byte) :
    BoneFrame :=
  { Bone := fieldText conv (fieldAt record 0 15)
    Time := le32 (fieldAt record 15 4)
    Translate := le32s 3 (fieldAt record 19 12)
    RotateQuat := le32s 4 (fieldAt record 31 16)
    XCurve := fieldAt record 47 16
    YCurve := fieldAt record 63 16
    ZCurve := fieldAt record 79 16
    RCurve := fieldAt record 95 16 }

/-- Morph record of 23 bytes (section 6): 15-byte name, u32 time, float weight. -/
def specMorphFrame (conv : List Byte → Except GoError (List Byte)) (record : List Byte) :
    MorphFrame :=
  { Morph := fieldText conv (fieldAt record 0 15)
    Time := le32 (fieldAt record 15 4)
    Weight := le32 (fieldAt record 19 4) }

/-- Camera record of 61 bytes (section 6): u32 time, float distance, 12-byte translate,
12-byte rotation, 24-byte curve, float view angle, 1-byte orthographic flag. -/
def specCameraFrame (record : List Byte) : CameraFrame :=
  { Time := le32 (fieldAt record 0 4)
    Distance := le32 (fieldAt record 4 4)
    Translate := le32s 3 (fieldAt record 8 12)
    RotateXyz := le32s 3 (fieldAt record 20 12)
    Curve := fieldAt record 32 24
    ViewAngle := le32 (fieldAt record 56 4)
    Ortho := (fieldAt record 60 1).headD 0 }

/-- Light record of 28 bytes (section 6): u32 time, 12-byte color, 12-byte direction. -/
def specLightFrame (record : List Byte) : LightFrame :=
  { Time := le32 (fieldAt record 0 4)
    Color := le32s 3 (fieldAt record 4 12)
    Direction := le32s 3 (fieldAt record 16 12) }

/-- The frames of `n` consecutive records of `size` bytes, in file order. -/
def specFrames {α : Type} (frame : List Byte → α) (size : Nat) : Nat → List Byte → List α
  | 0, _ => []
  | n + 1, bs => frame (bs.take size) :: specFrames frame size n (bs.drop size)

/-! ## A record as the decoders store it

The same layout, with the elements of the float arrays as `binary.Read` stores them. -/

/-- The bone frame decoded from a 111-byte record. -/
def boneRecord (conv : List Byte → Except GoError (List Byte)) (record : List Byte) :
    BoneFrame :=
  { Bone := fieldText conv (fieldAt record 0 15)
    Time := le32 (fieldAt record 15 4)
    Translate := float32Array 3 (fieldAt record 19 12)
    RotateQuat := float32Array 4 (fieldAt record 31 16)
    XCurve := fieldAt record 47 16
    YCurve := fieldAt record 63 16
    ZCurve := fieldAt record 79 16
    RCurve := fieldAt record 95 16 }

/-- The camera frame decoded from a 61-byte record. -/
def cameraRecord (record : List Byte) : CameraFrame :=
  { Time := le32 (fieldAt record 0 4)
    Distance := le32 (fieldAt record 4 4)
    Translate := float32Array 3 (fieldAt record 8 12)
    RotateXyz := float32Array 3 (fieldAt record 20 12)
    Curve := fieldAt record 32 24
    ViewAngle := le32 (fieldAt record 56 4)
    Ortho := (fieldAt record 60 1).headD 0 }

/-- The light frame decoded from a 28-byte record. -/
def lightRecord (record : List Byte) : LightFrame :=
  { Time := le32 (fieldAt record 0 4)
    Color := float32Array 3 (fieldAt record 4 12)
    Direction := float32Array 3 (fieldAt record 16 12) }

end Vmd

/-! ## Theorems -/

namespace Vmd

/-! ### Reading primitives -/

theorem ReadFull_ok (r : Reader) (n : Nat) (h : n ≤ r.length) :
    ReadFull r n = (Except.ok (r.take n), r.drop n) := by
  simp [ReadFull, h]

theorem ReadFull_append (a b : List Byte) (n : Nat) (h : a.length = n) :
    ReadFull (a ++ b) n = (Except.ok a, b) := by
  subst h
  simp [ReadFull]

theorem ReadFull_short (r : Reader) (n : Nat) (h : r.length < n) :
    ∃ e, (e = GoError.EOF ∨ e = GoError.ErrUnexpectedEOF) ∧
      ReadFull r n = (Except.error e, []) := by
  unfold ReadFull
  rw [if_neg (by omega)]
  by_cases h0 : r.length = 0
  · exact ⟨GoError.EOF, Or.inl rfl, by rw [if_pos h0]⟩
  · exact ⟨GoError.ErrUnexpectedEOF, Or.inr rfl, by rw [if_neg h0]⟩

/-! ### The result pair of `Decode` -/

theorem returns_none (vm : VMD) (r : Reader) :
    returns vm none r = Run.ret (some vm, none, r) := rfl

theorem returns_some (vm : VMD) (e : GoError) (r : Reader) :
    returns vm (some e) r = Run.ret (none, some e, r) := rfl

/-- Whenever `Decode` returns, the document is nil exactly when the error is not: on
every input stream `Decode` ends in one of three ways, the header stage panics, or it
returns a document and a nil error, or it returns a nil document and an error (the
deferred function discards the document every stage has been filling in). -/
theorem Decode_all_or_nothing (conv : List Byte → Except GoError (List Byte)) (r : Reader) :
    Decode conv r = Run.fault ∨
      (∃ d rest, Decode conv r = Run.ret (some d, none, rest)) ∨
      (∃ e rest, Decode conv r = Run.ret (none, some e, rest)) := by
  unfold Decode
  repeat' split
  all_goals simp [returns_none, returns_some]

/-- C1. On the stream of 30 null bytes `Decode` returns no result pair at all, neither
a document nor an error: the header stage panics at `magicStr[:25]` before the deferred
function has an error to act on. -/
theorem Decode_no_result_pair (tbl : List UInt16) :
    Decode (shiftJisDecoder tbl) (List.replicate 30 0) = Run.fault ∧
    ¬ ∃ (vm : Option VMD) (err : Option GoError) (rest : Reader),
      Decode (shiftJisDecoder tbl) (List.replicate 30 0) = Run.ret (vm, err, rest) := by
  have hf : Decode (shiftJisDecoder tbl) (List.replicate 30 0) = Run.fault := rfl
  refine ⟨hf, ?_⟩
  rintro ⟨vm, err, rest, h⟩
  rw [hf] at h
  exact Run.noConfusion h

/-- C2. The header stage panics on a stream of 30 bytes and more: when the 30-byte
block holds a null byte early, the decoded magic text is shorter than 25 bytes and
`magicStr[:25]` is out of range. Two such streams: 30 null bytes, and the 20-byte
signature followed by 10 null bytes. -/
theorem Decode_fault_short_magic (tbl : List UInt16) :
    Decode (shiftJisDecoder tbl) (List.replicate 30 0) = Run.fault ∧
      Decode (shiftJisDecoder tbl) (ascii "Vocaloid Motion Data" ++ List.replicate 10 0)
        = Run.fault := by
  constructor <;> rfl

/-! ### Stages leave the header alone -/

theorem decodeBoneFrames_toHeader (conv : List Byte → Except GoError (List Byte)) (vm : VMD)
    (r : Reader) : (decodeBoneFrames conv vm r).1.toHeader = vm.toHeader := by
  unfold decodeBoneFrames
  repeat' split
  all_goals rfl

theorem decodeMorphFrames_toHeader (conv : List Byte → Except GoError (List Byte)) (vm : VMD)
    (r : Reader) : (decodeMorphFrames conv vm r).1.toHeader = vm.toHeader := by
  unfold decodeMorphFrames
  repeat' split
  all_goals rfl

theorem decodeCameraFrames_toHeader (vm : VMD) (r : Reader) :
    (decodeCameraFrames vm r).1.toHeader = vm.toHeader := by
  unfold decodeCameraFrames
  repeat' split
  all_goals rfl

theorem decodeLightFrames_toHeader (vm : VMD) (r : Reader) :
    (decodeLightFrames vm r).1.toHeader = vm.toHeader := by
  unfold decodeLightFrames
  repeat' split
  all_goals rfl

theorem decodeHeader_version (conv : List Byte → Except GoError (List Byte)) (vm vm1 : VMD)
    (r r1 : Reader) (h : decodeHeader conv vm r = Run.ret (vm1, none, r1)) :
    vm1.Version = 1 ∨ vm1.Version = 2 := by
  unfold decodeHeader at h
  split at h
  · simp at h
  · split at h
    · simp at h
    · simp only [decodeModel] at h
      repeat' split at h
      all_goals simp at h
      · left; rw [← h.1]
      · right; rw [← h.1]

/-- A successful `Decode` is a successful run of the five stages in a row. -/
theorem Decode_ok_inv (conv : List Byte → Except GoError (List Byte)) (r : Reader) (d : VMD)
    (rest : Reader) (h : Decode conv r = Run.ret (some d, none, rest)) :
    ∃ vm1 r1 vm2 r2 vm3 r3 vm4 r4,
      decodeHeader conv VMD.new r = Run.ret (vm1, none, r1) ∧
      decodeBoneFrames conv vm1 r1 = (vm2, none, r2) ∧
      decodeMorphFrames conv vm2 r2 = (vm3, none, r3) ∧
      decodeCameraFrames vm3 r3 = (vm4, none, r4) ∧
      decodeLightFrames vm4 r4 = (d, none, rest) := by
  unfold Decode at h
  split at h
  · simp at h
  · simp [returns_some] at h
  · rename_i vm1 r1 h1
    split at h
    · simp [returns_some] at h
    · rename_i vm2 r2 h2
      split at h
      · simp [returns_some] at h
      · rename_i vm3 r3 h3
        split at h
        · simp [returns_some] at h
        · rename_i vm4 r4 h4
          split at h
          · simp [returns_some] at h
          · rename_i vm5 r5 h5
            simp only [returns_none, Run.ret.injEq, Prod.mk.injEq, Option.some.injEq,
              true_and] at h
            obtain ⟨hd, hr⟩ := h
            subst hd hr
            exact ⟨vm1, r1, vm2, r2, vm3, r3, vm4, r4, h1, h2, h3, h4, h5⟩

/-- C6. Whenever `Decode` succeeds, the version of the document is 1 or 2. -/
theorem Decode_version_one_or_two (conv : List Byte → Except GoError (List Byte))
    (r : Reader) (d : VMD) (rest : Reader)
    (h : Decode conv r = Run.ret (some d, none, rest)) :
    d.Version = 1 ∨ d.Version = 2 := by
  obtain ⟨vm1, r1, vm2, r2, vm3, r3, vm4, r4, h1, h2, h3, h4, h5⟩ :=
    Decode_ok_inv conv r d rest h
  have e2 := decodeBoneFrames_toHeader conv vm1 r1
  have e3 := decodeMorphFrames_toHeader conv vm2 r2
  have e4 := decodeCameraFrames_toHeader vm3 r3
  have e5 := decodeLightFrames_toHeader vm4 r4
  rw [h2] at e2
  rw [h3] at e3
  rw [h4] at e4
  rw [h5] at e5
  have hd : d.toHeader = vm1.toHeader := by
    simp only at e2 e3 e4 e5
    rw [e5, e4, e3, e2]
  have hv := decodeHeader_version conv _ _ _ _ h1
  show d.toHeader.Version = 1 ∨ d.toHeader.Version = 2
  rw [hd]
  exact hv

/-- Witness of C6: the version-1 signature, null padding, a null model field and four
zero counts decode to a document of version 1. -/
theorem Decode_version_one_or_two_witness :
    Decode (shiftJisDecoder [])
        (ascii "Vocaloid Motion Data file" ++ List.replicate 31 0)
      = Run.ret (some ⟨⟨1, []⟩, [], [], [], []⟩, none, []) ∧
    ((⟨⟨1, []⟩, [], [], [], []⟩ : VMD).Version = 1 ∨
      (⟨⟨1, []⟩, [], [], [], []⟩ : VMD).Version = 2) :=
  ⟨by decide, Decode_version_one_or_two (shiftJisDecoder [])
    (ascii "Vocaloid Motion Data file" ++ List.replicate 31 0) ⟨⟨1, []⟩, [], [], [], []⟩ []
    (by decide)⟩

/-- C7. When `Decode` returns an error, the document is nil and the error wraps a
cause `c` that `errors.Unwrap` gives back; `c` is the error of the first stage that
failed in the order header, bone, morph, camera, light (every stage before it
returned nil), the message is that stage's label followed by the message of `c`, and
the stream is left where the failing stage left it: no later stage has read from it. -/
theorem Decode_first_failing_stage (conv : List Byte → Except GoError (List Byte))
    (r : Reader) (vm : Option VMD) (e : GoError) (rest : Reader)
    (h : Decode conv r = Run.ret (vm, some e, rest)) :
    vm = none ∧ ∃ c, e.Unwrap = some c ∧
      ((∃ vm1, decodeHeader conv VMD.new r = Run.ret (vm1, some c, rest) ∧
          e = Errorf "vmd: error decoding header: " c ∧
          e.Error = "vmd: error decoding header: " ++ c.Error) ∨
       (∃ vm1 r1 vm2, decodeHeader conv VMD.new r = Run.ret (vm1, none, r1) ∧
          decodeBoneFrames conv vm1 r1 = (vm2, some c, rest) ∧
          e = Errorf "vmd: error decoding bone frames: " c ∧
          e.Error = "vmd: error decoding bone frames: " ++ c.Error) ∨
       (∃ vm1 r1 vm2 r2 vm3, decodeHeader conv VMD.new r = Run.ret (vm1, none, r1) ∧
          decodeBoneFrames conv vm1 r1 = (vm2, none, r2) ∧
          decodeMorphFrames conv vm2 r2 = (vm3, some c, rest) ∧
          e = Errorf "vmd: error decoding morph frames: " c ∧
          e.Error = "vmd: error decoding morph frames: " ++ c.Error) ∨
       (∃ vm1 r1 vm2 r2 vm3 r3 vm4, decodeHeader conv VMD.new r = Run.ret (vm1, none, r1) ∧
          decodeBoneFrames conv vm1 r1 = (vm2, none, r2) ∧
          decodeMorphFrames conv vm2 r2 = (vm3, none, r3) ∧
          decodeCameraFrames vm3 r3 = (vm4, some c, rest) ∧
          e = Errorf "vmd: error decoding camera frames: " c ∧
          e.Error = "vmd: error decoding camera frames: " ++ c.Error) ∨
       (∃ vm1 r1 vm2 r2 vm3 r3 vm4 r4 vm5,
          decodeHeader conv VMD.new r = Run.ret (vm1, none, r1) ∧
          decodeBoneFrames conv vm1 r1 = (vm2, none, r2) ∧
          decodeMorphFrames conv vm2 r2 = (vm3, none, r3) ∧
          decodeCameraFrames vm3 r3 = (vm4, none, r4) ∧
          decodeLightFrames vm4 r4 = (vm5, some c, rest) ∧
          e = Errorf "vmd: error decoding light frames: " c ∧
          e.Error = "vmd: error decoding light frames: " ++ c.Error)) := by
  unfold Decode at h
  split at h
  · simp at h
  · rename_i vm1 c r1 h1
    simp only [returns_some, Run.ret.injEq, Prod.mk.injEq, Option.some.injEq] at h
    obtain ⟨hv, he, hr⟩ := h
    subst hv he hr
    exact ⟨rfl, c, rfl, Or.inl ⟨vm1, h1, rfl, rfl⟩⟩
  · rename_i vm1 r1 h1
    split at h
    · rename_i vm2 c r2 h2
      simp only [returns_some, Run.ret.injEq, Prod.mk.injEq, Option.some.injEq] at h
      obtain ⟨hv, he, hr⟩ := h
      subst hv he hr
      exact ⟨rfl, c, rfl, Or.inr (Or.inl ⟨vm1, r1, vm2, h1, h2, rfl, rfl⟩)⟩
    · rename_i vm2 r2 h2
      split at h
      · rename_i vm3 c r3 h3
        simp only [returns_some, Run.ret.injEq, Prod.mk.injEq, Option.some.injEq] at h
        obtain ⟨hv, he, hr⟩ := h
        subst hv he hr
        exact ⟨rfl, c, rfl, Or.inr (Or.inr (Or.inl ⟨vm1, r1, vm2, r2, vm3, h1, h2, h3, rfl, rfl⟩))⟩
      · rename_i vm3 r3 h3
        split at h
        · rename_i vm4 c r4 h4
          simp only [returns_some, Run.ret.injEq, Prod.mk.injEq, Option.some.injEq] at h
          obtain ⟨hv, he, hr⟩ := h
          subst hv he hr
          exact ⟨rfl, c, rfl, Or.inr (Or.inr (Or.inr (Or.inl
            ⟨vm1, r1, vm2, r2, vm3, r3, vm4, h1, h2, h3, h4, rfl, rfl⟩)))⟩
        · rename_i vm4 r4 h4
          split at h
          · rename_i vm5 c r5 h5
            simp only [returns_some, Run.ret.injEq, Prod.mk.injEq, Option.some.injEq] at h
            obtain ⟨hv, he, hr⟩ := h
            subst hv he hr
            exact ⟨rfl, c, rfl, Or.inr (Or.inr (Or.inr (Or.inr
              ⟨vm1, r1, vm2, r2, vm3, r3, vm4, r4, vm5, h1, h2, h3, h4, h5, rfl, rfl⟩)))⟩
          · simp [returns_none] at h

/-- Witness of C7: a version-1 header and a zero bone count followed by two bytes make
the morph stage the first to fail, with `io.ErrUnexpectedEOF` as the cause. -/
theorem Decode_first_failing_stage_witness :
    Decode (shiftJisDecoder [])
        (ascii "Vocaloid Motion Data file" ++ List.replicate 19 0 ++ [1, 2])
      = Run.ret (none, some (Errorf "vmd: error decoding morph frames: "
          GoError.ErrUnexpectedEOF), []) ∧
    (Errorf "vmd: error decoding morph frames: " GoError.ErrUnexpectedEOF).Error
      = "vmd: error decoding morph frames: unexpected EOF" ∧
    ∃ c, (Errorf "vmd: error decoding morph frames: " GoError.ErrUnexpectedEOF).Unwrap
      = some c :=
  ⟨by decide, by decide,
    (Decode_first_failing_stage (shiftJisDecoder [])
      (ascii "Vocaloid Motion Data file" ++ List.replicate 19 0 ++ [1, 2]) none
      (Errorf "vmd: error decoding morph frames: " GoError.ErrUnexpectedEOF) []
      (by decide)).2.imp (fun _ hc => hc.1)⟩

/-- C8. When the count a frame-array decoder reads is 0, the decoder returns nil, leaves
the document as it was, so that a sequence that was empty when the decoder was called
(as it is in `Decode`, which starts from `new(VMD)`) is empty afterwards, and leaves
the stream at the byte right after the 4-byte count. -/
theorem zero_count_section (conv : List Byte → Except GoError (List Byte)) (vm : VMD)
    (r : Reader) (hlen : 4 ≤ r.length) (hzero : Uint32 (r.take 4) = 0) :
    (decodeBoneFrames conv vm r = (vm, none, r.drop 4) ∧
      (vm.BoneFrames = [] → (decodeBoneFrames conv vm r).1.BoneFrames = [])) ∧
    (decodeMorphFrames conv vm r = (vm, none, r.drop 4) ∧
      (vm.MorphFrames = [] → (decodeMorphFrames conv vm r).1.MorphFrames = [])) ∧
    (decodeCameraFrames vm r = (vm, none, r.drop 4) ∧
      (vm.CameraFrames = [] → (decodeCameraFrames vm r).1.CameraFrames = [])) ∧
    (decodeLightFrames vm r = (vm, none, r.drop 4) ∧
      (vm.LightFrames = [] → (decodeLightFrames vm r).1.LightFrames = [])) := by
  have hr : readUint32 r = (Except.ok 0, r.drop 4) := by
    simp only [readUint32, ReadFull_ok r 4 hlen, hzero]
  have h1 : decodeBoneFrames conv vm r = (vm, none, r.drop 4) := by
    simp [decodeBoneFrames, hr]
  have h2 : decodeMorphFrames conv vm r = (vm, none, r.drop 4) := by
    simp [decodeMorphFrames, hr]
  have h3 : decodeCameraFrames vm r = (vm, none, r.drop 4) := by
    simp [decodeCameraFrames, hr]
  have h4 : decodeLightFrames vm r = (vm, none, r.drop 4) := by
    simp [decodeLightFrames, hr]
  refine ⟨⟨h1, ?_⟩, ⟨h2, ?_⟩, ⟨h3, ?_⟩, ⟨h4, ?_⟩⟩
  · rw [h1]; exact id
  · rw [h2]; exact id
  · rw [h3]; exact id
  · rw [h4]; exact id

/-- Witness of C8: a zero count followed by two more bytes, read into a fresh document. -/
theorem zero_count_section_witness :
    decodeBoneFrames (shiftJisDecoder []) VMD.new [0, 0, 0, 0, 7, 9] = (VMD.new, none, [7, 9]) ∧
    decodeLightFrames VMD.new [0, 0, 0, 0, 7, 9] = (VMD.new, none, [7, 9]) :=
  have h := zero_count_section (shiftJisDecoder []) VMD.new [0, 0, 0, 0, 7, 9]
    (by decide) (by decide)
  ⟨h.1.1, h.2.2.2.1⟩

/-! ### The Shift-JIS decoder on ASCII and on other bytes -/

theorem UInt8_ofNat_toNat (b : UInt8) : UInt8.ofNat b.toNat = b := by
  apply UInt8.ext
  show (UInt8.ofNat b.toNat).toNat = b.toNat
  rw [UInt8.toNat_ofNat_of_lt b.toNat_lt]

theorem UInt8_toNat_ofNat (n : Nat) : (UInt8.ofNat n).toNat = n % 256 := rfl

theorem sjisSingle_ascii (c : Nat) (h : c < 0x80) : sjisSingle c = c := by
  simp [sjisSingle, h]

theorem sjisLead_ascii (c : Nat) (h : c < 0x80) : sjisLead c = false := by
  simp only [sjisLead, decide_eq_false_iff_not]
  omega

theorem EncodeRune_ascii (b : Byte) (h : b.toNat < 0x80) : EncodeRune b.toNat = [b] := by
  simp only [EncodeRune, if_pos h, UInt8_ofNat_toNat]

theorem shiftJISTransform_ascii_cons (tbl : List UInt16) (b : Byte) (rest : List Byte)
    (h : b.toNat < 0x80) :
    shiftJISTransform tbl (b :: rest) = b :: shiftJISTransform tbl rest := by
  cases rest with
  | nil => simp [shiftJISTransform, sjisSingle_ascii _ h, EncodeRune_ascii b h]
  | cons b1 rest =>
    rw [shiftJISTransform, sjisLead_ascii _ h]
    simp [sjisSingle_ascii _ h, EncodeRune_ascii b h]

theorem shiftJISTransform_ascii_append (tbl : List UInt16) (p rest : List Byte)
    (h : ∀ b ∈ p, b.toNat < 0x80) :
    shiftJISTransform tbl (p ++ rest) = p ++ shiftJISTransform tbl rest := by
  induction p with
  | nil => rfl
  | cons b p ih =>
    rw [List.cons_append, shiftJISTransform_ascii_cons tbl b _ (h b (List.mem_cons_self _ _)),
      ih (fun x hx => h x (List.mem_cons_of_mem _ hx)), List.cons_append]

theorem EncodeRune_head (r : Nat) (h : 0x80 ≤ r) :
    ∃ b t, EncodeRune r = b :: t ∧ 0x80 ≤ b.toNat := by
  unfold EncodeRune
  rw [if_neg (by omega)]
  split
  · exact ⟨_, _, rfl, by rw [UInt8_toNat_ofNat]; omega⟩
  · split
    · exact ⟨_, _, rfl, by decide⟩
    · split
      · exact ⟨_, _, rfl, by rw [UInt8_toNat_ofNat]; omega⟩
      · exact ⟨_, _, rfl, by rw [UInt8_toNat_ofNat]; omega⟩

theorem sjisSingle_ge (c : Nat) (h : 0x80 ≤ c) : 0x80 ≤ sjisSingle c := by
  unfold sjisSingle
  repeat' split
  all_goals omega

theorem jisLookup_ge (tbl : List UInt16) (h : ∀ x ∈ tbl, x.toNat = 0 ∨ 0x80 ≤ x.toNat)
    (c0 c1 : Nat) : 0x80 ≤ jisLookup tbl c0 c1 := by
  unfold jisLookup
  split
  · rename_i x hx
    have hm : x ∈ tbl := List.get?_mem hx
    split
    · omega
    · rcases h x hm with h0 | h1
      · contradiction
      · exact h1
  · omega

theorem sjisDouble_ge (tbl : List UInt16) (h : ∀ x ∈ tbl, x.toNat = 0 ∨ 0x80 ≤ x.toNat)
    (c0 c1 : Nat) : 0x80 ≤ (sjisDouble tbl c0 c1).1 := by
  unfold sjisDouble
  simp only
  repeat' split
  all_goals first | exact jisLookup_ge tbl h _ _ | (simp)

theorem shiftJISTransform_head_ge (tbl : List UInt16)
    (h : ∀ x ∈ tbl, x.toNat = 0 ∨ 0x80 ≤ x.toNat) (b : Byte) (rest : List Byte)
    (hb : 0x80 ≤ b.toNat) :
    ∃ x t, shiftJISTransform tbl (b :: rest) = x :: t ∧ 0x80 ≤ x.toNat := by
  cases rest with
  | nil =>
    obtain ⟨x, t, e, hx⟩ := EncodeRune_head _ (sjisSingle_ge _ hb)
    exact ⟨x, t, by rw [shiftJISTransform, e], hx⟩
  | cons b1 rest =>
    rw [shiftJISTransform]
    split
    · obtain ⟨x, t, e, hx⟩ := EncodeRune_head _ (sjisDouble_ge tbl h b.toNat b1.toNat)
      split
      · exact ⟨x, t ++ _, by rw [e, List.cons_append], hx⟩
      · exact ⟨x, t ++ _, by rw [e, List.cons_append], hx⟩
    · obtain ⟨x, t, e, hx⟩ := EncodeRune_head _ (sjisSingle_ge _ hb)
      exact ⟨x, t ++ _, by rw [e, List.cons_append], hx⟩

/-- Where the converted text starts with `k` ASCII bytes, the source starts with the
same `k` bytes. -/
theorem shiftJISTransform_take_ascii (tbl : List UInt16)
    (h : ∀ x ∈ tbl, x.toNat = 0 ∨ 0x80 ≤ x.toNat) :
    ∀ (k : Nat) (s : List Byte), k ≤ (shiftJISTransform tbl s).length →
      (∀ b ∈ (shiftJISTransform tbl s).take k, b.toNat < 0x80) →
      s.take k = (shiftJISTransform tbl s).take k := by
  intro k
  induction k with
  | zero => intro s _ _; simp
  | succ k ih =>
    intro s hlen hall
    cases s with
    | nil => simp [shiftJISTransform] at hlen
    | cons b rest =>
      by_cases hb : b.toNat < 0x80
      · rw [shiftJISTransform_ascii_cons tbl b rest hb] at hlen hall ⊢
        simp only [List.take_succ_cons, List.length_cons] at hlen hall ⊢
        rw [ih rest (by omega) (fun x hx => hall x (List.mem_cons_of_mem _ hx))]
      · exfalso
        obtain ⟨x, t, e, hx⟩ := shiftJISTransform_head_ge tbl h b rest (by omega)
        rw [e] at hall
        have := hall x (by simp)
        omega

/-! ### `decodeString` -/

theorem truncateAtNull_eq_takeWhile (buf : List Byte) :
    truncateAtNull buf = buf.takeWhile (fun b => b != 0) := by
  unfold truncateAtNull
  induction buf with
  | nil => rfl
  | cons b bs ih =>
    by_cases hb : b = 0
    · simp [IndexByte, hb]
    · simp only [IndexByte, if_neg hb]
      cases hi : IndexByte bs 0 with
      | none =>
        simp only [hi] at ih
        simp [List.takeWhile_cons, hb, ← ih]
      | some i =>
        simp only [hi] at ih
        simp [List.takeWhile_cons, hb, ← ih]

theorem truncateAtNull_isPrefix (buf : List Byte) : truncateAtNull buf <+: buf := by
  rw [truncateAtNull_eq_takeWhile]
  exact List.takeWhile_prefix _

theorem truncateAtNull_append (p rest : List Byte) (h : ∀ b ∈ p, b ≠ 0) :
    truncateAtNull (p ++ rest) = p ++ truncateAtNull rest := by
  rw [truncateAtNull_eq_takeWhile, truncateAtNull_eq_takeWhile,
    List.takeWhile_append_of_pos (by simpa using h)]

theorem decodeString_zero (conv : List Byte → Except GoError (List Byte)) (r : Reader) :
    decodeString conv r 0 = ([], none, r) := by
  simp [decodeString]

theorem decodeString_short (conv : List Byte → Except GoError (List Byte)) (r : Reader)
    (n : Nat) (h : r.length < n) :
    ∃ e, (e = GoError.EOF ∨ e = GoError.ErrUnexpectedEOF) ∧
      decodeString conv r n = ([], some e, []) := by
  obtain ⟨e, he, hr⟩ := ReadFull_short r n h
  refine ⟨e, he, ?_⟩
  unfold decodeString
  rw [if_neg (by omega), hr]

theorem decodeString_ok (conv : List Byte → Except GoError (List Byte)) (r : Reader)
    (n : Nat) (h : n ≤ r.length) :
    ∃ s, decodeString conv r n = (s, none, r.drop n) := by
  unfold decodeString
  by_cases hn : n = 0
  · subst hn; exact ⟨[], by simp⟩
  · rw [if_neg hn, ReadFull_ok r n h]
    simp only
    split
    · exact ⟨_, rfl⟩
    · exact ⟨_, rfl⟩

theorem decodeString_shiftJis (tbl : List UInt16) (r : Reader) (n : Nat) (hn : n ≠ 0)
    (h : n ≤ r.length) :
    decodeString (shiftJisDecoder tbl) r n
      = (shiftJISTransform tbl (truncateAtNull (r.take n)), none, r.drop n) := by
  unfold decodeString
  rw [if_neg hn, ReadFull_ok r n h]
  simp [shiftJisDecoder]

theorem take_eq_of_isPrefix (a l : List Byte) (h : a <+: l) (k : Nat) (hk : k ≤ a.length) :
    a.take k = l.take k := by
  obtain ⟨t, rfl⟩ := h
  rw [List.take_append_of_le_length hk]

/-- Where the text decoded from an `n`-byte field starts with `k` ASCII bytes, the
stream starts with the same `k` bytes. -/
theorem take_eq_of_ascii_text (tbl : List UInt16)
    (htbl : ∀ x ∈ tbl, x.toNat = 0 ∨ 0x80 ≤ x.toNat) (inp : List Byte) (n k : Nat)
    (hk : k ≤ (shiftJISTransform tbl (truncateAtNull (inp.take n))).length)
    (hall : ∀ b ∈ (shiftJISTransform tbl (truncateAtNull (inp.take n))).take k,
      b.toNat < 0x80) :
    inp.take k = (shiftJISTransform tbl (truncateAtNull (inp.take n))).take k := by
  have e1 := shiftJISTransform_take_ascii tbl htbl k _ hk hall
  have hlen : k ≤ (truncateAtNull (inp.take n)).length := by
    have := congrArg List.length e1
    simp only [List.length_take] at this
    omega
  have hp : truncateAtNull (inp.take n) <+: inp :=
    (truncateAtNull_isPrefix _).trans (List.take_prefix n inp)
  rw [← e1, take_eq_of_isPrefix _ _ hp k hlen]

theorem decodeHeader_shiftJis (tbl : List UInt16) (vm : VMD) (inp : List Byte)
    (h30 : 30 ≤ inp.length) :
    decodeHeader (shiftJisDecoder tbl) vm inp =
      if (shiftJISTransform tbl (truncateAtNull (inp.take 30))).length < 25 then Run.fault
      else
        if HasPrefix ((shiftJISTransform tbl (truncateAtNull (inp.take 30))).take 25)
            (ascii "Vocaloid Motion Data") then
          if (shiftJISTransform tbl (truncateAtNull (inp.take 30))).take 25
              = ascii "Vocaloid Motion Data file" then
            Run.ret (decodeModel (shiftJisDecoder tbl) { vm with Version := 1 } (inp.drop 30))
          else if (shiftJISTransform tbl (truncateAtNull (inp.take 30))).take 25
              = ascii "Vocaloid Motion Data 0002" then
            Run.ret (decodeModel (shiftJisDecoder tbl) { vm with Version := 2 } (inp.drop 30))
          else Run.ret (vm, some (errorsNew "unsupported vmd version"), inp.drop 30)
        else Run.ret (vm, some (errorsNew "not a vmd format file"), inp.drop 30) := by
  unfold decodeHeader
  rw [decodeString_shiftJis tbl inp 30 (by decide) h30]

theorem decodeHeader_short (conv : List Byte → Except GoError (List Byte)) (vm : VMD)
    (inp : List Byte) (h : inp.length < 30) :
    ∃ e, (e = GoError.EOF ∨ e = GoError.ErrUnexpectedEOF) ∧
      decodeHeader conv vm inp = Run.ret (vm, some e, []) := by
  obtain ⟨e, he, hs⟩ := decodeString_short conv inp 30 h
  exact ⟨e, he, by unfold decodeHeader; rw [hs]⟩

/-- The text decoded from a 30-byte block that starts with the 20-byte signature
starts with the signature. -/
theorem magic_text_signature (tbl : List UInt16) (inp : List Byte)
    (hpre : inp.take 20 = ascii "Vocaloid Motion Data") :
    ∃ w, shiftJISTransform tbl (truncateAtNull (inp.take 30))
      = ascii "Vocaloid Motion Data" ++ w := by
  have e : inp.take 30 = ascii "Vocaloid Motion Data" ++ (inp.take 30).drop 20 := by
    have h := (List.take_append_drop 20 (inp.take 30)).symm
    rw [List.take_take] at h
    simp only [Nat.reduceLeDiff, min_eq_left] at h
    rw [hpre] at h
    exact h
  rw [e, truncateAtNull_append _ _ (by decide), shiftJISTransform_ascii_append _ _ _ (by decide)]
  exact ⟨_, rfl⟩

/-- Counterexample to C4 as stated: a 29-byte stream that starts with the signature and
continues with " 0003" ends inside the 30-byte block, and `Decode` returns the read
error of the header stage, not the unsupported-version error. -/
theorem Decode_unsupported_version_counterexample :
    (ascii "Vocaloid Motion Data 0003" ++ [0, 0, 0, 0]).take 20
      = ascii "Vocaloid Motion Data" ∧
    ((ascii "Vocaloid Motion Data 0003" ++ [0, 0, 0, 0]).drop 20).take 5 ≠ ascii " file" ∧
    ((ascii "Vocaloid Motion Data 0003" ++ [0, 0, 0, 0]).drop 20).take 5 ≠ ascii " 0002" ∧
    Decode (shiftJisDecoder []) (ascii "Vocaloid Motion Data 0003" ++ [0, 0, 0, 0])
      = Run.ret (none, some (Errorf "vmd: error decoding header: " GoError.ErrUnexpectedEOF),
          []) ∧
    Errorf "vmd: error decoding header: " GoError.ErrUnexpectedEOF
      ≠ Errorf "vmd: error decoding header: " (errorsNew "unsupported vmd version") := by
  decide

/-- C4, amended. For a stream of at least 30 bytes whose first 20 bytes are the
signature, whose bytes 20-24 are neither " file" nor " 0002", and whose decoded magic
text (the 30-byte block cut at its first null byte and converted) has at least 25
bytes, `Decode` returns no document and the error "unsupported vmd version" wrapped
with the label of the header stage. The conversion table has no ASCII entry. -/
theorem Decode_unsupported_version (tbl : List UInt16)
    (htbl : ∀ x ∈ tbl, x.toNat = 0 ∨ 0x80 ≤ x.toNat) (inp : List Byte)
    (hlen : 30 ≤ inp.length)
    (htext : 25 ≤ (decodeString (shiftJisDecoder tbl) inp 30).1.length)
    (hpre : inp.take 20 = ascii "Vocaloid Motion Data")
    (h1 : (inp.drop 20).take 5 ≠ ascii " file")
    (h2 : (inp.drop 20).take 5 ≠ ascii " 0002") :
    Decode (shiftJisDecoder tbl) inp
      = Run.ret (none, some (Errorf "vmd: error decoding header: "
          (errorsNew "unsupported vmd version")), inp.drop 30) := by
  rw [decodeString_shiftJis tbl inp 30 (by decide) hlen] at htext
  simp only at htext
  have h25 : inp.take 25 = ascii "Vocaloid Motion Data" ++ (inp.drop 20).take 5 := by
    rw [← hpre]
    exact List.take_add inp 20 5
  have hsig : HasPrefix ((shiftJISTransform tbl (truncateAtNull (inp.take 30))).take 25)
      (ascii "Vocaloid Motion Data") = true := by
    obtain ⟨w, hw⟩ := magic_text_signature tbl inp hpre
    rw [hw, HasPrefix, List.isPrefixOf_iff_prefix, List.prefix_take_iff]
    exact ⟨List.prefix_append _ _, by decide⟩
  have hne : ∀ sfx : List Byte, (∀ b ∈ ascii "Vocaloid Motion Data" ++ sfx, b.toNat < 0x80) →
      (inp.drop 20).take 5 ≠ sfx →
      (shiftJISTransform tbl (truncateAtNull (inp.take 30))).take 25
        ≠ ascii "Vocaloid Motion Data" ++ sfx := by
    intro sfx hsfx hx heq
    have e := take_eq_of_ascii_text tbl htbl inp 30 25 htext (by rw [heq]; exact hsfx)
    rw [heq, h25] at e
    exact hx (List.append_cancel_left e)
  have hn1 := hne (ascii " file") (by decide) h1
  have hn2 := hne (ascii " 0002") (by decide) h2
  rw [show ascii "Vocaloid Motion Data" ++ ascii " file" = ascii "Vocaloid Motion Data file"
    by decide] at hn1
  rw [show ascii "Vocaloid Motion Data" ++ ascii " 0002" = ascii "Vocaloid Motion Data 0002"
    by decide] at hn2
  have hh : decodeHeader (shiftJisDecoder tbl) VMD.new inp
      = Run.ret (VMD.new, some (errorsNew "unsupported vmd version"), inp.drop 30) := by
    rw [decodeHeader_shiftJis tbl VMD.new inp hlen, if_neg (by omega), if_pos hsig,
      if_neg hn1, if_neg hn2]
  unfold Decode
  rw [hh]
  rfl

/-- Witness of the amended C4: the signature followed by " 0003" and five null bytes. -/
theorem Decode_unsupported_version_witness :
    Decode (shiftJisDecoder []) (ascii "Vocaloid Motion Data 0003" ++ List.replicate 5 0)
      = Run.ret (none, some (Errorf "vmd: error decoding header: "
          (errorsNew "unsupported vmd version")),
          (ascii "Vocaloid Motion Data 0003" ++ List.replicate 5 0).drop 30) :=
  Decode_unsupported_version [] (by simp)
    (ascii "Vocaloid Motion Data 0003" ++ List.replicate 5 0)
    (by decide) (by decide) (by decide) (by decide) (by decide)

/-- Counterexample to C5 as stated: a 14-byte stream that does not start with the
signature ends inside the 30-byte block, and `Decode` returns the read error of the
header stage, not the not-this-format error. -/
theorem Decode_not_vmd_counterexample :
    (ascii "not a vmd file").take 20 ≠ ascii "Vocaloid Motion Data" ∧
    Decode (shiftJisDecoder []) (ascii "not a vmd file")
      = Run.ret (none, some (Errorf "vmd: error decoding header: " GoError.ErrUnexpectedEOF),
          []) ∧
    Errorf "vmd: error decoding header: " GoError.ErrUnexpectedEOF
      ≠ Errorf "vmd: error decoding header: " (errorsNew "not a vmd format file") := by
  decide

/-- C5, amended. For a stream of at least 30 bytes that does not start with the 20-byte
signature and whose decoded magic text (the 30-byte block cut at its first null byte
and converted) has at least 25 bytes, `Decode` returns no document and the error
"not a vmd format file" wrapped with the label of the header stage. The conversion
table has no ASCII entry. -/
theorem Decode_not_vmd (tbl : List UInt16)
    (htbl : ∀ x ∈ tbl, x.toNat = 0 ∨ 0x80 ≤ x.toNat) (inp : List Byte)
    (hlen : 30 ≤ inp.length)
    (htext : 25 ≤ (decodeString (shiftJisDecoder tbl) inp 30).1.length)
    (hpre : inp.take 20 ≠ ascii "Vocaloid Motion Data") :
    Decode (shiftJisDecoder tbl) inp
      = Run.ret (none, some (Errorf "vmd: error decoding header: "
          (errorsNew "not a vmd format file")), inp.drop 30) := by
  rw [decodeString_shiftJis tbl inp 30 (by decide) hlen] at htext
  simp only at htext
  have hsig : ¬ HasPrefix ((shiftJISTransform tbl (truncateAtNull (inp.take 30))).take 25)
      (ascii "Vocaloid Motion Data") = true := by
    intro hp
    rw [HasPrefix, List.isPrefixOf_iff_prefix, List.prefix_take_iff] at hp
    have e20 : (shiftJISTransform tbl (truncateAtNull (inp.take 30))).take 20
        = ascii "Vocaloid Motion Data" := (List.prefix_iff_eq_take.mp hp.1).symm
    have e := take_eq_of_ascii_text tbl htbl inp 30 20 (by omega) (by rw [e20]; decide)
    exact hpre (e.trans e20)
  have hh : decodeHeader (shiftJisDecoder tbl) VMD.new inp
      = Run.ret (VMD.new, some (errorsNew "not a vmd format file"), inp.drop 30) := by
    rw [decodeHeader_shiftJis tbl VMD.new inp hlen, if_neg (by omega), if_neg hsig]
  unfold Decode
  rw [hh]
  rfl

/-- Witness of the amended C5: thirty bytes of text that is not the signature. -/
theorem Decode_not_vmd_witness :
    Decode (shiftJisDecoder []) (ascii "this is not a motion data file")
      = Run.ret (none, some (Errorf "vmd: error decoding header: "
          (errorsNew "not a vmd format file")),
          (ascii "this is not a motion data file").drop 30) :=
  Decode_not_vmd [] (by simp) (ascii "this is not a motion data file")
    (by decide) (by decide) (by decide)

/-! ### Frame records that are present in full -/

theorem readUint32_ok (r : Reader) (h : 4 ≤ r.length) :
    readUint32 r = (Except.ok (Uint32 (r.take 4)), r.drop 4) := by
  simp only [readUint32, ReadFull_ok r 4 h]

theorem readFloat32s_ok (r : Reader) (k : Nat) (h : 4 * k ≤ r.length) :
    readFloat32s r k = (Except.ok (float32Array k (r.take (4 * k))), r.drop (4 * k)) := by
  simp only [readFloat32s, ReadFull_ok r (4 * k) h]

theorem readBytes_ok (r : Reader) (k : Nat) (h : k ≤ r.length) :
    readBytes r k = (Except.ok (r.take k), r.drop k) := by
  simp only [readBytes, ReadFull_ok r k h]

theorem readByte_ok (r : Reader) (h : 1 ≤ r.length) :
    readByte r = (Except.ok ((r.take 1).headD 0), r.drop 1) := by
  simp only [readByte, ReadFull_ok r 1 h]

theorem decodeBoneFrame_ok (conv : List Byte → Except GoError (List Byte)) (f : BoneFrame)
    (r : Reader) (h : 111 ≤ r.length) :
    ∃ g, decodeBoneFrame conv f r = (g, none, r.drop 111) := by
  obtain ⟨s, hs⟩ := decodeString_ok conv r 15 (by omega)
  unfold decodeBoneFrame
  rw [hs]
  simp only
  rw [readUint32_ok _ (by rw [List.length_drop]; omega)]
  simp only [List.drop_drop]
  rw [readFloat32s_ok _ 3 (by rw [List.length_drop]; omega)]
  simp only [List.drop_drop]
  rw [readFloat32s_ok _ 4 (by rw [List.length_drop]; omega)]
  simp only [List.drop_drop]
  rw [readBytes_ok _ 16 (by rw [List.length_drop]; omega)]
  simp only [List.drop_drop]
  rw [readBytes_ok _ 16 (by rw [List.length_drop]; omega)]
  simp only [List.drop_drop]
  rw [readBytes_ok _ 16 (by rw [List.length_drop]; omega)]
  simp only [List.drop_drop]
  rw [readBytes_ok _ 16 (by rw [List.length_drop]; omega)]
  simp only [List.drop_drop]
  exact ⟨_, rfl⟩

theorem decodeMorphFrame_ok (conv : List Byte → Except GoError (List Byte)) (f : MorphFrame)
    (r : Reader) (h : 23 ≤ r.length) :
    ∃ g, decodeMorphFrame conv f r = (g, none, r.drop 23) := by
  obtain ⟨s, hs⟩ := decodeString_ok conv r 15 (by omega)
  unfold decodeMorphFrame
  rw [hs]
  simp only
  rw [readUint32_ok _ (by rw [List.length_drop]; omega)]
  simp only [List.drop_drop]
  rw [readUint32_ok _ (by rw [List.length_drop]; omega)]
  simp only [List.drop_drop]
  exact ⟨_, rfl⟩

theorem decodeCameraFrame_ok (f : CameraFrame) (r : Reader) (h : 61 ≤ r.length) :
    ∃ g, decodeCameraFrame f r = (g, none, r.drop 61) := by
  unfold decodeCameraFrame
  rw [readUint32_ok _ (by omega)]
  simp only
  rw [readUint32_ok _ (by rw [List.length_drop]; omega)]
  simp only [List.drop_drop]
  rw [readFloat32s_ok _ 3 (by rw [List.length_drop]; omega)]
  simp only [List.drop_drop]
  rw [readFloat32s_ok _ 3 (by rw [List.length_drop]; omega)]
  simp only [List.drop_drop]
  rw [readBytes_ok _ 24 (by rw [List.length_drop]; omega)]
  simp only [List.drop_drop]
  rw [readUint32_ok _ (by rw [List.length_drop]; omega)]
  simp only [List.drop_drop]
  rw [readByte_ok _ (by rw [List.length_drop]; omega)]
  simp only [List.drop_drop]
  exact ⟨_, rfl⟩

theorem decodeLightFrame_ok (f : LightFrame) (r : Reader) (h : 28 ≤ r.length) :
    ∃ g, decodeLightFrame f r = (g, none, r.drop 28) := by
  unfold decodeLightFrame
  rw [readUint32_ok _ (by omega)]
  simp only
  rw [readFloat32s_ok _ 3 (by rw [List.length_drop]; omega)]
  simp only [List.drop_drop]
  rw [readFloat32s_ok _ 3 (by rw [List.length_drop]; omega)]
  simp only [List.drop_drop]
  exact ⟨_, rfl⟩

theorem decodeBoneLoop_ok (conv : List Byte → Except GoError (List Byte)) :
    ∀ (fs : List BoneFrame) (r : Reader), 111 * fs.length ≤ r.length →
      ∃ gs, gs.length = fs.length ∧
        decodeBoneLoop conv fs r = (gs, none, r.drop (111 * fs.length)) := by
  intro fs
  induction fs with
  | nil => intro r _; exact ⟨[], rfl, by simp [decodeBoneLoop]⟩
  | cons f fs ih =>
    intro r h
    rw [List.length_cons] at h
    obtain ⟨g, hg⟩ := decodeBoneFrame_ok conv f r (by omega)
    obtain ⟨gs, hl, hgs⟩ := ih (r.drop 111) (by rw [List.length_drop]; omega)
    refine ⟨g :: gs, by simp [hl], ?_⟩
    rw [decodeBoneLoop, hg]
    simp only [hgs, List.drop_drop, List.length_cons]
    congr 3
    omega

theorem decodeMorphLoop_ok (conv : List Byte → Except GoError (List Byte)) :
    ∀ (fs : List MorphFrame) (r : Reader), 23 * fs.length ≤ r.length →
      ∃ gs, gs.length = fs.length ∧
        decodeMorphLoop conv fs r = (gs, none, r.drop (23 * fs.length)) := by
  intro fs
  induction fs with
  | nil => intro r _; exact ⟨[], rfl, by simp [decodeMorphLoop]⟩
  | cons f fs ih =>
    intro r h
    rw [List.length_cons] at h
    obtain ⟨g, hg⟩ := decodeMorphFrame_ok conv f r (by omega)
    obtain ⟨gs, hl, hgs⟩ := ih (r.drop 23) (by rw [List.length_drop]; omega)
    refine ⟨g :: gs, by simp [hl], ?_⟩
    rw [decodeMorphLoop, hg]
    simp only [hgs, List.drop_drop, List.length_cons]
    congr 3
    omega

theorem decodeCameraLoop_ok :
    ∀ (fs : List CameraFrame) (r : Reader), 61 * fs.length ≤ r.length →
      ∃ gs, gs.length = fs.length ∧
        decodeCameraLoop fs r = (gs, none, r.drop (61 * fs.length)) := by
  intro fs
  induction fs with
  | nil => intro r _; exact ⟨[], rfl, by simp [decodeCameraLoop]⟩
  | cons f fs ih =>
    intro r h
    rw [List.length_cons] at h
    obtain ⟨g, hg⟩ := decodeCameraFrame_ok f r (by omega)
    obtain ⟨gs, hl, hgs⟩ := ih (r.drop 61) (by rw [List.length_drop]; omega)
    refine ⟨g :: gs, by simp [hl], ?_⟩
    rw [decodeCameraLoop, hg]
    simp only [hgs, List.drop_drop, List.length_cons]
    congr 3
    omega

theorem decodeLightLoop_ok :
    ∀ (fs : List LightFrame) (r : Reader), 28 * fs.length ≤ r.length →
      ∃ gs, gs.length = fs.length ∧
        decodeLightLoop fs r = (gs, none, r.drop (28 * fs.length)) := by
  intro fs
  induction fs with
  | nil => intro r _; exact ⟨[], rfl, by simp [decodeLightLoop]⟩
  | cons f fs ih =>
    intro r h
    rw [List.length_cons] at h
    obtain ⟨g, hg⟩ := decodeLightFrame_ok f r (by omega)
    obtain ⟨gs, hl, hgs⟩ := ih (r.drop 28) (by rw [List.length_drop]; omega)
    refine ⟨g :: gs, by simp [hl], ?_⟩
    rw [decodeLightLoop, hg]
    simp only [hgs, List.drop_drop, List.length_cons]
    congr 3
    omega

/-! ### Stages on well-formed input -/

theorem readUint32_append (c rest : List Byte) (hc : c.length = 4) :
    readUint32 (c ++ rest) = (Except.ok (Uint32 c), rest) := by
  simp only [readUint32, ReadFull_append c rest 4 hc]

theorem decodeBoneFrames_ok (conv : List Byte → Except GoError (List Byte))
    (c recs rest : List Byte) (hc : c.length = 4) (hrecs : recs.length = 111 * Uint32 c) :
    ∃ gs, gs.length = Uint32 c ∧ ∀ vm : VMD,
      decodeBoneFrames conv vm (c ++ (recs ++ rest))
        = ({ vm with BoneFrames := if 0 < Uint32 c then gs else vm.BoneFrames }, none,
            rest) := by
  by_cases hn : 0 < Uint32 c
  · obtain ⟨gs, hl, hgs⟩ := decodeBoneLoop_ok conv (List.replicate (Uint32 c) BoneFrame.zero)
      (recs ++ rest) (by simp [hrecs])
    rw [List.length_replicate] at hl hgs
    rw [List.drop_left' hrecs] at hgs
    refine ⟨gs, hl, fun vm => ?_⟩
    unfold decodeBoneFrames
    rw [readUint32_append c _ hc]
    simp only [gt_iff_lt, hn, if_true, hgs]
  · have h0 : recs = [] := List.eq_nil_of_length_eq_zero (by rw [hrecs]; simp; omega)
    subst h0
    refine ⟨[], by simp; omega, fun vm => ?_⟩
    unfold decodeBoneFrames
    rw [readUint32_append c _ hc]
    simp only [gt_iff_lt, hn, if_false, List.nil_append]

theorem decodeMorphFrames_ok (conv : List Byte → Except GoError (List Byte))
    (c recs rest : List Byte) (hc : c.length = 4) (hrecs : recs.length = 23 * Uint32 c) :
    ∃ gs, gs.length = Uint32 c ∧ ∀ vm : VMD,
      decodeMorphFrames conv vm (c ++ (recs ++ rest))
        = ({ vm with MorphFrames := if 0 < Uint32 c then gs else vm.MorphFrames }, none,
            rest) := by
  by_cases hn : 0 < Uint32 c
  · obtain ⟨gs, hl, hgs⟩ := decodeMorphLoop_ok conv (List.replicate (Uint32 c) MorphFrame.zero)
      (recs ++ rest) (by simp [hrecs])
    rw [List.length_replicate] at hl hgs
    rw [List.drop_left' hrecs] at hgs
    refine ⟨gs, hl, fun vm => ?_⟩
    unfold decodeMorphFrames
    rw [readUint32_append c _ hc]
    simp only [gt_iff_lt, hn, if_true, hgs]
  · have h0 : recs = [] := List.eq_nil_of_length_eq_zero (by rw [hrecs]; simp; omega)
    subst h0
    refine ⟨[], by simp; omega, fun vm => ?_⟩
    unfold decodeMorphFrames
    rw [readUint32_append c _ hc]
    simp only [gt_iff_lt, hn, if_false, List.nil_append]

theorem decodeCameraFrames_ok 
    (c recs rest : List Byte) (hc : c.length = 4) (hrecs : recs.length = 61 * Uint32 c) :
    ∃ gs, gs.length = Uint32 c ∧ ∀ vm : VMD,
      decodeCameraFrames vm (c ++ (recs ++ rest))
        = ({ vm with CameraFrames := if 0 < Uint32 c then gs else vm.CameraFrames }, none,
            rest) := by
  by_cases hn : 0 < Uint32 c
  · obtain ⟨gs, hl, hgs⟩ := decodeCameraLoop_ok (List.replicate (Uint32 c) CameraFrame.zero)
      (recs ++ rest) (by simp [hrecs])
    rw [List.length_replicate] at hl hgs
    rw [List.drop_left' hrecs] at hgs
    refine ⟨gs, hl, fun vm => ?_⟩
    unfold decodeCameraFrames
    rw [readUint32_append c _ hc]
    simp only [gt_iff_lt, hn, if_true, hgs]
  · have h0 : recs = [] := List.eq_nil_of_length_eq_zero (by rw [hrecs]; simp; omega)
    subst h0
    refine ⟨[], by simp; omega, fun vm => ?_⟩
    unfold decodeCameraFrames
    rw [readUint32_append c _ hc]
    simp only [gt_iff_lt, hn, if_false, List.nil_append]

theorem decodeLightFrames_ok 
    (c recs rest : List Byte) (hc : c.length = 4) (hrecs : recs.length = 28 * Uint32 c) :
    ∃ gs, gs.length = Uint32 c ∧ ∀ vm : VMD,
      decodeLightFrames vm (c ++ (recs ++ rest))
        = ({ vm with LightFrames := if 0 < Uint32 c then gs else vm.LightFrames }, none,
            rest) := by
  by_cases hn : 0 < Uint32 c
  · obtain ⟨gs, hl, hgs⟩ := decodeLightLoop_ok (List.replicate (Uint32 c) LightFrame.zero)
      (recs ++ rest) (by simp [hrecs])
    rw [List.length_replicate] at hl hgs
    rw [List.drop_left' hrecs] at hgs
    refine ⟨gs, hl, fun vm => ?_⟩
    unfold decodeLightFrames
    rw [readUint32_append c _ hc]
    simp only [gt_iff_lt, hn, if_true, hgs]
  · have h0 : recs = [] := List.eq_nil_of_length_eq_zero (by rw [hrecs]; simp; omega)
    subst h0
    refine ⟨[], by simp; omega, fun vm => ?_⟩
    unfold decodeLightFrames
    rw [readUint32_append c _ hc]
    simp only [gt_iff_lt, hn, if_false, List.nil_append]

/-- The header stage on a 30-byte block that starts with one of the two magic strings,
followed by a model field of 10 times the version bytes. -/
theorem decodeHeader_valid (tbl : List UInt16) (vm : VMD) (m pad model rest : List Byte)
    (v : Nat)
    (hm : (m = ascii "Vocaloid Motion Data file" ∧ v = 1) ∨
      (m = ascii "Vocaloid Motion Data 0002" ∧ v = 2))
    (hpad : pad.length = 5) (hmodel : model.length = 10 * v) :
    decodeHeader (shiftJisDecoder tbl) vm (m ++ (pad ++ (model ++ rest)))
      = Run.ret ({ vm with Version := v,
                           Model := shiftJISTransform tbl (truncateAtNull model) },
          none, rest) := by
  have hmlen : m.length = 25 := by
    rcases hm with ⟨rfl, _⟩ | ⟨rfl, _⟩ <;> rfl
  have hnull : ∀ b ∈ m, b ≠ 0 := by
    rcases hm with ⟨rfl, _⟩ | ⟨rfl, _⟩ <;> decide
  have hasc : ∀ b ∈ m, b.toNat < 0x80 := by
    rcases hm with ⟨rfl, _⟩ | ⟨rfl, _⟩ <;> decide
  have h30 : (m ++ pad).length = 30 := by rw [List.length_append, hmlen, hpad]
  have hin : m ++ (pad ++ (model ++ rest)) = (m ++ pad) ++ (model ++ rest) := by
    rw [List.append_assoc]
  have hmod : ∀ vm1 : VMD, vm1.Version = v →
      decodeModel (shiftJisDecoder tbl) vm1 (model ++ rest)
        = ({ vm1 with Model := shiftJISTransform tbl (truncateAtNull model) }, none, rest) := by
    intro vm1 hv
    unfold decodeModel
    rw [decodeString_shiftJis tbl (model ++ rest) (vm1.Version * 10)
      (by rcases hm with ⟨_, rfl⟩ | ⟨_, rfl⟩ <;> omega) (by simp [hv, hmodel]; omega)]
    rw [List.take_left' (by rw [hmodel, hv]; omega), List.drop_left' (by rw [hmodel, hv]; omega)]
  rw [decodeHeader_shiftJis tbl vm _ (by rw [hin, List.length_append, h30]; omega), hin,
    List.take_left' h30, List.drop_left' h30, truncateAtNull_append m pad hnull,
    shiftJISTransform_ascii_append tbl m _ hasc, List.take_left' hmlen,
    if_neg (by rw [List.length_append, hmlen]; omega)]
  rcases hm with ⟨rfl, rfl⟩ | ⟨rfl, rfl⟩
  · rw [if_pos (by decide), if_pos rfl, hmod _ rfl]
  · rw [if_pos (by decide), if_neg (by decide), if_pos rfl, hmod _ rfl]

/-- `Decode` on a well-formed stream: a valid header, then four sections, each a
4-byte count followed by that many records of 111, 23, 61 and 28 bytes, then `tail`. -/
theorem Decode_wellformed (tbl : List UInt16)
    (m pad model c1 s1 c2 s2 c3 s3 c4 s4 tail : List Byte) (v : Nat)
    (hm : (m = ascii "Vocaloid Motion Data file" ∧ v = 1) ∨
      (m = ascii "Vocaloid Motion Data 0002" ∧ v = 2))
    (hpad : pad.length = 5) (hmodel : model.length = 10 * v)
    (hc1 : c1.length = 4) (hs1 : s1.length = 111 * Uint32 c1)
    (hc2 : c2.length = 4) (hs2 : s2.length = 23 * Uint32 c2)
    (hc3 : c3.length = 4) (hs3 : s3.length = 61 * Uint32 c3)
    (hc4 : c4.length = 4) (hs4 : s4.length = 28 * Uint32 c4) :
    ∃ d, Decode (shiftJisDecoder tbl)
          (m ++ (pad ++ (model ++ (c1 ++ (s1 ++ (c2 ++ (s2 ++ (c3 ++ (s3 ++ (c4 ++ (s4 ++
            tail)))))))))))
        = Run.ret (some d, none, tail) ∧
      d.Version = v ∧ d.Model = shiftJISTransform tbl (truncateAtNull model) ∧
      d.BoneFrames.length = Uint32 c1 ∧ d.MorphFrames.length = Uint32 c2 ∧
      d.CameraFrames.length = Uint32 c3 ∧ d.LightFrames.length = Uint32 c4 := by
  have hh := decodeHeader_valid tbl VMD.new m pad model
    (c1 ++ (s1 ++ (c2 ++ (s2 ++ (c3 ++ (s3 ++ (c4 ++ (s4 ++ tail)))))))) v hm hpad hmodel
  obtain ⟨g1, hl1, hg1⟩ := decodeBoneFrames_ok (shiftJisDecoder tbl)
    c1 s1 (c2 ++ (s2 ++ (c3 ++ (s3 ++ (c4 ++ (s4 ++ tail)))))) hc1 hs1
  obtain ⟨g2, hl2, hg2⟩ := decodeMorphFrames_ok (shiftJisDecoder tbl)
    c2 s2 (c3 ++ (s3 ++ (c4 ++ (s4 ++ tail)))) hc2 hs2
  obtain ⟨g3, hl3, hg3⟩ := decodeCameraFrames_ok c3 s3 (c4 ++ (s4 ++ tail)) hc3 hs3
  obtain ⟨g4, hl4, hg4⟩ := decodeLightFrames_ok c4 s4 tail hc4 hs4
  unfold Decode
  rw [hh]
  simp only
  rw [hg1]
  simp only
  rw [hg2]
  simp only
  rw [hg3]
  simp only
  rw [hg4]
  simp only [returns_none]
  refine ⟨_, rfl, rfl, rfl, ?_, ?_, ?_, ?_⟩
  · show (if 0 < Uint32 c1 then g1 else []).length = Uint32 c1
    split
    · exact hl1
    · simp; omega
  · show (if 0 < Uint32 c2 then g2 else []).length = Uint32 c2
    split
    · exact hl2
    · simp; omega
  · show (if 0 < Uint32 c3 then g3 else []).length = Uint32 c3
    split
    · exact hl3
    · simp; omega
  · show (if 0 < Uint32 c4 then g4 else []).length = Uint32 c4
    split
    · exact hl4
    · simp; omega

/-- C3. On a valid stream (a 30-byte block, a model field of 10 times the version
bytes, and four counted sections present in full) whose bytes 0-24 are exactly
"Vocaloid Motion Data file", `Decode` succeeds with version 1; when they are exactly
"Vocaloid Motion Data 0002", it succeeds with version 2. -/
theorem Decode_version_of_magic (tbl : List UInt16)
    (pad model1 model2 c1 s1 c2 s2 c3 s3 c4 s4 tail : List Byte)
    (hpad : pad.length = 5) (hmodel1 : model1.length = 10) (hmodel2 : model2.length = 20)
    (hc1 : c1.length = 4) (hs1 : s1.length = 111 * Uint32 c1)
    (hc2 : c2.length = 4) (hs2 : s2.length = 23 * Uint32 c2)
    (hc3 : c3.length = 4) (hs3 : s3.length = 61 * Uint32 c3)
    (hc4 : c4.length = 4) (hs4 : s4.length = 28 * Uint32 c4) :
    (∃ d, Decode (shiftJisDecoder tbl)
          (ascii "Vocaloid Motion Data file" ++ pad ++ model1
            ++ c1 ++ s1 ++ c2 ++ s2 ++ c3 ++ s3 ++ c4 ++ s4 ++ tail)
        = Run.ret (some d, none, tail) ∧ d.Version = 1) ∧
    (∃ d, Decode (shiftJisDecoder tbl)
          (ascii "Vocaloid Motion Data 0002" ++ pad ++ model2
            ++ c1 ++ s1 ++ c2 ++ s2 ++ c3 ++ s3 ++ c4 ++ s4 ++ tail)
        = Run.ret (some d, none, tail) ∧ d.Version = 2) := by
  simp only [List.append_assoc]
  constructor
  · obtain ⟨d, hd, hv, _⟩ := Decode_wellformed tbl (ascii "Vocaloid Motion Data file") pad
      model1 c1 s1 c2 s2 c3 s3 c4 s4 tail 1 (Or.inl ⟨rfl, rfl⟩) hpad hmodel1
      hc1 hs1 hc2 hs2 hc3 hs3 hc4 hs4
    exact ⟨d, hd, hv⟩
  · obtain ⟨d, hd, hv, _⟩ := Decode_wellformed tbl (ascii "Vocaloid Motion Data 0002") pad
      model2 c1 s1 c2 s2 c3 s3 c4 s4 tail 2 (Or.inr ⟨rfl, rfl⟩) hpad hmodel2
      hc1 hs1 hc2 hs2 hc3 hs3 hc4 hs4
    exact ⟨d, hd, hv⟩

/-- Witness of C3: padding and model fields of bytes 0x41, two morph records, the other
counts zero, and three trailing bytes. -/
theorem Decode_version_of_magic_witness :
    (∃ d, Decode (shiftJisDecoder [])
          (ascii "Vocaloid Motion Data file" ++ List.replicate 5 0x41 ++ List.replicate 10 0x41
            ++ [0, 0, 0, 0] ++ [] ++ [2, 0, 0, 0] ++ List.replicate 46 9 ++ [0, 0, 0, 0] ++ []
            ++ [0, 0, 0, 0] ++ [] ++ [1, 2, 3])
        = Run.ret (some d, none, [1, 2, 3]) ∧ d.Version = 1) ∧
    (∃ d, Decode (shiftJisDecoder [])
          (ascii "Vocaloid Motion Data 0002" ++ List.replicate 5 0x41 ++ List.replicate 20 0x41
            ++ [0, 0, 0, 0] ++ [] ++ [2, 0, 0, 0] ++ List.replicate 46 9 ++ [0, 0, 0, 0] ++ []
            ++ [0, 0, 0, 0] ++ [] ++ [1, 2, 3])
        = Run.ret (some d, none, [1, 2, 3]) ∧ d.Version = 2) :=
  Decode_version_of_magic [] (List.replicate 5 0x41) (List.replicate 10 0x41)
    (List.replicate 20 0x41) [0, 0, 0, 0] [] [2, 0, 0, 0] (List.replicate 46 9) [0, 0, 0, 0] []
    [0, 0, 0, 0] [] [1, 2, 3] (by decide) (by decide) (by decide) (by decide) (by decide)
    (by decide) (by decide) (by decide) (by decide) (by decide) (by decide)

/-- C9. On a well-formed stream (a 30-byte block whose first 25 bytes are one of the
two magic strings followed by 5 padding bytes, a model field of 10 times the version
bytes, then four sections, each a little-endian 32-bit count followed by exactly that
many records of 111, 23, 61 and 28 bytes) `Decode` succeeds, the version is the one of
the magic string and the bone, morph, camera and light sequences have exactly the
counted lengths. -/
theorem Decode_sequence_lengths (tbl : List UInt16)
    (m pad model c1 s1 c2 s2 c3 s3 c4 s4 tail : List Byte) (v : Nat)
    (hm : (m = ascii "Vocaloid Motion Data file" ∧ v = 1) ∨
      (m = ascii "Vocaloid Motion Data 0002" ∧ v = 2))
    (hpad : pad.length = 5) (hmodel : model.length = 10 * v)
    (hc1 : c1.length = 4) (hs1 : s1.length = 111 * Uint32 c1)
    (hc2 : c2.length = 4) (hs2 : s2.length = 23 * Uint32 c2)
    (hc3 : c3.length = 4) (hs3 : s3.length = 61 * Uint32 c3)
    (hc4 : c4.length = 4) (hs4 : s4.length = 28 * Uint32 c4) :
    ∃ d, Decode (shiftJisDecoder tbl)
          (m ++ pad ++ model ++ c1 ++ s1 ++ c2 ++ s2 ++ c3 ++ s3 ++ c4 ++ s4 ++ tail)
        = Run.ret (some d, none, tail) ∧
      d.Version = v ∧
      d.BoneFrames.length = Uint32 c1 ∧ d.MorphFrames.length = Uint32 c2 ∧
      d.CameraFrames.length = Uint32 c3 ∧ d.LightFrames.length = Uint32 c4 := by
  simp only [List.append_assoc]
  obtain ⟨d, hd, hv, _, h1, h2, h3, h4⟩ := Decode_wellformed tbl m pad model c1 s1 c2 s2
    c3 s3 c4 s4 tail v hm hpad hmodel hc1 hs1 hc2 hs2 hc3 hs3 hc4 hs4
  exact ⟨d, hd, hv, h1, h2, h3, h4⟩

/-- Witness of C9, the scenario of the specification: the version-1 magic string,
counts (1, 0, 0, 0) and one 111-byte bone record give version 1, exactly one bone
frame and three empty sequences. -/
theorem Decode_sequence_lengths_witness :
    ∃ d, Decode (shiftJisDecoder [])
          (ascii "Vocaloid Motion Data file" ++ List.replicate 5 0 ++ List.replicate 10 0x41
            ++ [1, 0, 0, 0] ++ List.replicate 111 7 ++ [0, 0, 0, 0] ++ [] ++ [0, 0, 0, 0] ++ []
            ++ [0, 0, 0, 0] ++ [] ++ [])
        = Run.ret (some d, none, []) ∧
      d.Version = 1 ∧
      d.BoneFrames.length = 1 ∧ d.MorphFrames.length = 0 ∧
      d.CameraFrames.length = 0 ∧ d.LightFrames.length = 0 :=
  Decode_sequence_lengths [] (ascii "Vocaloid Motion Data file") (List.replicate 5 0)
    (List.replicate 10 0x41) [1, 0, 0, 0] (List.replicate 111 7) [0, 0, 0, 0] [] [0, 0, 0, 0] []
    [0, 0, 0, 0] [] [] 1 (Or.inl ⟨rfl, rfl⟩) (by decide) (by decide) (by decide) (by decide)
    (by decide) (by decide) (by decide) (by decide) (by decide) (by decide)

/-! ### Frame records cut short by the end of the stream -/

theorem readUint32_short (r : Reader) (h : r.length < 4) :
    ∃ e, (e = GoError.EOF ∨ e = GoError.ErrUnexpectedEOF) ∧
      readUint32 r = (Except.error e, []) := by
  obtain ⟨e, he, hr⟩ := ReadFull_short r 4 h
  exact ⟨e, he, by simp only [readUint32, hr]⟩

theorem readFloat32s_short (r : Reader) (k : Nat) (h : r.length < 4 * k) :
    ∃ e, (e = GoError.EOF ∨ e = GoError.ErrUnexpectedEOF) ∧
      readFloat32s r k = (Except.error e, []) := by
  obtain ⟨e, he, hr⟩ := ReadFull_short r (4 * k) h
  exact ⟨e, he, by simp only [readFloat32s, hr]⟩

theorem readBytes_short (r : Reader) (k : Nat) (h : r.length < k) :
    ∃ e, (e = GoError.EOF ∨ e = GoError.ErrUnexpectedEOF) ∧
      readBytes r k = (Except.error e, []) := by
  obtain ⟨e, he, hr⟩ := ReadFull_short r k h
  exact ⟨e, he, by simp only [readBytes, hr]⟩

theorem readByte_short (r : Reader) (h : r.length < 1) :
    ∃ e, (e = GoError.EOF ∨ e = GoError.ErrUnexpectedEOF) ∧
      readByte r = (Except.error e, []) := by
  obtain ⟨e, he, hr⟩ := ReadFull_short r 1 h
  exact ⟨e, he, by simp only [readByte, hr]⟩

theorem decodeBoneFrame_short (conv : List Byte → Except GoError (List Byte)) (f : BoneFrame)
    (r : Reader) (h : r.length < 111) :
    ∃ g e, (e = GoError.EOF ∨ e = GoError.ErrUnexpectedEOF) ∧
      decodeBoneFrame conv f r = (g, some e, []) := by
  unfold decodeBoneFrame
  by_cases h1 : (r).length < 15
  · obtain ⟨e, he, hs⟩ := decodeString_short conv (r) 15 h1
    rw [hs]
    exact ⟨_, e, he, rfl⟩
  · obtain ⟨s, hs⟩ := decodeString_ok conv (r) 15 (by omega)
    rw [hs]
    simp only
    by_cases h2 : (List.drop 15 (r)).length < 4
    · obtain ⟨e, he, hs⟩ := readUint32_short (List.drop 15 (r)) h2
      rw [hs]
      exact ⟨_, e, he, rfl⟩
    · rw [readUint32_ok (List.drop 15 (r)) (by omega)]
      simp only
      by_cases h3 : (List.drop 4 (List.drop 15 (r))).length < 4 * 3
      · obtain ⟨e, he, hs⟩ := readFloat32s_short (List.drop 4 (List.drop 15 (r))) 3 h3
        rw [hs]
        exact ⟨_, e, he, rfl⟩
      · rw [readFloat32s_ok (List.drop 4 (List.drop 15 (r))) 3 (by omega)]
        simp only
        by_cases h4 : (List.drop (4 * 3) (List.drop 4 (List.drop 15 (r)))).length < 4 * 4
        · obtain ⟨e, he, hs⟩ := readFloat32s_short (List.drop (4 * 3) (List.drop 4 (List.drop 15 (r)))) 4 h4
          rw [hs]
          exact ⟨_, e, he, rfl⟩
        · rw [readFloat32s_ok (List.drop (4 * 3) (List.drop 4 (List.drop 15 (r)))) 4 (by omega)]
          simp only
          by_cases h5 : (List.drop (4 * 4) (List.drop (4 * 3) (List.drop 4 (List.drop 15 (r))))).length < 16
          · obtain ⟨e, he, hs⟩ := readBytes_short (List.drop (4 * 4) (List.drop (4 * 3) (List.drop 4 (List.drop 15 (r))))) 16 h5
            rw [hs]
            exact ⟨_, e, he, rfl⟩
          · rw [readBytes_ok (List.drop (4 * 4) (List.drop (4 * 3) (List.drop 4 (List.drop 15 (r))))) 16 (by omega)]
            simp only
            by_cases h6 : (List.drop 16 (List.drop (4 * 4) (List.drop (4 * 3) (List.drop 4 (List.drop 15 (r)))))).length < 16
            · obtain ⟨e, he, hs⟩ := readBytes_short (List.drop 16 (List.drop (4 * 4) (List.drop (4 * 3) (List.drop 4 (List.drop 15 (r)))))) 16 h6
              rw [hs]
              exact ⟨_, e, he, rfl⟩
            · rw [readBytes_ok (List.drop 16 (List.drop (4 * 4) (List.drop (4 * 3) (List.drop 4 (List.drop 15 (r)))))) 16 (by omega)]
              simp only
              by_cases h7 : (List.drop 16 (List.drop 16 (List.drop (4 * 4) (List.drop (4 * 3) (List.drop 4 (List.drop 15 (r))))))).length < 16
              · obtain ⟨e, he, hs⟩ := readBytes_short (List.drop 16 (List.drop 16 (List.drop (4 * 4) (List.drop (4 * 3) (List.drop 4 (List.drop 15 (r))))))) 16 h7
                rw [hs]
                exact ⟨_, e, he, rfl⟩
              · rw [readBytes_ok (List.drop 16 (List.drop 16 (List.drop (4 * 4) (List.drop (4 * 3) (List.drop 4 (List.drop 15 (r))))))) 16 (by omega)]
                simp only
                obtain ⟨e, he, hs⟩ := readBytes_short (List.drop 16 (List.drop 16 (List.drop 16 (List.drop (4 * 4) (List.drop (4 * 3) (List.drop 4 (List.drop 15 (r)))))))) 16
                  (by simp only [List.length_drop] at h1 h2 h3 h4 h5 h6 h7 ⊢; omega)
                rw [hs]
                exact ⟨_, e, he, rfl⟩

theorem decodeMorphFrame_short (conv : List Byte → Except GoError (List Byte)) (f : MorphFrame)
    (r : Reader) (h : r.length < 23) :
    ∃ g e, (e = GoError.EOF ∨ e = GoError.ErrUnexpectedEOF) ∧
      decodeMorphFrame conv f r = (g, some e, []) := by
  unfold decodeMorphFrame
  by_cases h1 : (r).length < 15
  · obtain ⟨e, he, hs⟩ := decodeString_short conv (r) 15 h1
    rw [hs]
    exact ⟨_, e, he, rfl⟩
  · obtain ⟨s, hs⟩ := decodeString_ok conv (r) 15 (by omega)
    rw [hs]
    simp only
    by_cases h2 : (List.drop 15 (r)).length < 4
    · obtain ⟨e, he, hs⟩ := readUint32_short (List.drop 15 (r)) h2
      rw [hs]
      exact ⟨_, e, he, rfl⟩
    · rw [readUint32_ok (List.drop 15 (r)) (by omega)]
      simp only
      obtain ⟨e, he, hs⟩ := readUint32_short (List.drop 4 (List.drop 15 (r)))
        (by simp only [List.length_drop] at h1 h2 ⊢; omega)
      rw [hs]
      exact ⟨_, e, he, rfl⟩

theorem decodeCameraFrame_short (f : CameraFrame)
    (r : Reader) (h : r.length < 61) :
    ∃ g e, (e = GoError.EOF ∨ e = GoError.ErrUnexpectedEOF) ∧
      decodeCameraFrame f r = (g, some e, []) := by
  unfold decodeCameraFrame
  by_cases h1 : (r).length < 4
  · obtain ⟨e, he, hs⟩ := readUint32_short (r) h1
    rw [hs]
    exact ⟨_, e, he, rfl⟩
  · rw [readUint32_ok (r) (by omega)]
    simp only
    by_cases h2 : (List.drop 4 (r)).length < 4
    · obtain ⟨e, he, hs⟩ := readUint32_short (List.drop 4 (r)) h2
      rw [hs]
      exact ⟨_, e, he, rfl⟩
    · rw [readUint32_ok (List.drop 4 (r)) (by omega)]
      simp only
      by_cases h3 : (List.drop 4 (List.drop 4 (r))).length < 4 * 3
      · obtain ⟨e, he, hs⟩ := readFloat32s_short (List.drop 4 (List.drop 4 (r))) 3 h3
        rw [hs]
        exact ⟨_, e, he, rfl⟩
      · rw [readFloat32s_ok (List.drop 4 (List.drop 4 (r))) 3 (by omega)]
        simp only
        by_cases h4 : (List.drop (4 * 3) (List.drop 4 (List.drop 4 (r)))).length < 4 * 3
        · obtain ⟨e, he, hs⟩ := readFloat32s_short (List.drop (4 * 3) (List.drop 4 (List.drop 4 (r)))) 3 h4
          rw [hs]
          exact ⟨_, e, he, rfl⟩
        · rw [readFloat32s_ok (List.drop (4 * 3) (List.drop 4 (List.drop 4 (r)))) 3 (by omega)]
          simp only
          by_cases h5 : (List.drop (4 * 3) (List.drop (4 * 3) (List.drop 4 (List.drop 4 (r))))).length < 24
          · obtain ⟨e, he, hs⟩ := readBytes_short (List.drop (4 * 3) (List.drop (4 * 3) (List.drop 4 (List.drop 4 (r))))) 24 h5
            rw [hs]
            exact ⟨_, e, he, rfl⟩
          · rw [readBytes_ok (List.drop (4 * 3) (List.drop (4 * 3) (List.drop 4 (List.drop 4 (r))))) 24 (by omega)]
            simp only
            by_cases h6 : (List.drop 24 (List.drop (4 * 3) (List.drop (4 * 3) (List.drop 4 (List.drop 4 (r)))))).length < 4
            · obtain ⟨e, he, hs⟩ := readUint32_short (List.drop 24 (List.drop (4 * 3) (List.drop (4 * 3) (List.drop 4 (List.drop 4 (r)))))) h6
              rw [hs]
              exact ⟨_, e, he, rfl⟩
            · rw [readUint32_ok (List.drop 24 (List.drop (4 * 3) (List.drop (4 * 3) (List.drop 4 (List.drop 4 (r)))))) (by omega)]
              simp only
              obtain ⟨e, he, hs⟩ := readByte_short (List.drop 4 (List.drop 24 (List.drop (4 * 3) (List.drop (4 * 3) (List.drop 4 (List.drop 4 (r)))))))
                (by simp only [List.length_drop] at h1 h2 h3 h4 h5 h6 ⊢; omega)
              rw [hs]
              exact ⟨_, e, he, rfl⟩

theorem decodeLightFrame_short (f : LightFrame)
    (r : Reader) (h : r.length < 28) :
    ∃ g e, (e = GoError.EOF ∨ e = GoError.ErrUnexpectedEOF) ∧
      decodeLightFrame f r = (g, some e, []) := by
  unfold decodeLightFrame
  by_cases h1 : (r).length < 4
  · obtain ⟨e, he, hs⟩ := readUint32_short (r) h1
    rw [hs]
    exact ⟨_, e, he, rfl⟩
  · rw [readUint32_ok (r) (by omega)]
    simp only
    by_cases h2 : (List.drop 4 (r)).length < 4 * 3
    · obtain ⟨e, he, hs⟩ := readFloat32s_short (List.drop 4 (r)) 3 h2
      rw [hs]
      exact ⟨_, e, he, rfl⟩
    · rw [readFloat32s_ok (List.drop 4 (r)) 3 (by omega)]
      simp only
      obtain ⟨e, he, hs⟩ := readFloat32s_short (List.drop (4 * 3) (List.drop 4 (r))) 3
        (by simp only [List.length_drop] at h1 h2 ⊢; omega)
      rw [hs]
      exact ⟨_, e, he, rfl⟩

theorem decodeBoneLoop_short (conv : List Byte → Except GoError (List Byte)) :
    ∀ (fs : List BoneFrame) (r : Reader), r.length < 111 * fs.length →
      ∃ gs e, (e = GoError.EOF ∨ e = GoError.ErrUnexpectedEOF) ∧
        decodeBoneLoop conv fs r = (gs, some e, []) := by
  intro fs
  induction fs with
  | nil => intro r h; simp at h
  | cons f fs ih =>
    intro r h
    rw [List.length_cons] at h
    by_cases hr : r.length < 111
    · obtain ⟨g, e, he, hg⟩ := decodeBoneFrame_short conv f r hr
      exact ⟨g :: fs, e, he, by rw [decodeBoneLoop, hg]⟩
    · obtain ⟨g, hg⟩ := decodeBoneFrame_ok conv f r (by omega)
      obtain ⟨gs, e, he, hgs⟩ := ih (r.drop 111) (by rw [List.length_drop]; omega)
      exact ⟨g :: gs, e, he, by rw [decodeBoneLoop, hg]; simp only [hgs]⟩

theorem decodeBoneFrames_short (conv : List Byte → Except GoError (List Byte))
    (c part : List Byte) (hc : c.length = 4) (hpart : part.length < 111 * Uint32 c) :
    ∃ gs e, (e = GoError.EOF ∨ e = GoError.ErrUnexpectedEOF) ∧ ∀ vm : VMD,
      decodeBoneFrames conv vm (c ++ part) = ({ vm with BoneFrames := gs }, some e, []) := by
  have hn : 0 < Uint32 c := by
    rcases Nat.eq_zero_or_pos (Uint32 c) with h0 | h0
    · rw [h0] at hpart; simp at hpart
    · exact h0
  obtain ⟨gs, e, he, hgs⟩ := decodeBoneLoop_short conv (List.replicate (Uint32 c) BoneFrame.zero)
    part (by rw [List.length_replicate]; exact hpart)
  refine ⟨gs, e, he, fun vm => ?_⟩
  unfold decodeBoneFrames
  rw [readUint32_append c _ hc]
  simp only [gt_iff_lt, hn, if_true, hgs]

theorem decodeMorphLoop_short (conv : List Byte → Except GoError (List Byte)) :
    ∀ (fs : List MorphFrame) (r : Reader), r.length < 23 * fs.length →
      ∃ gs e, (e = GoError.EOF ∨ e = GoError.ErrUnexpectedEOF) ∧
        decodeMorphLoop conv fs r = (gs, some e, []) := by
  intro fs
  induction fs with
  | nil => intro r h; simp at h
  | cons f fs ih =>
    intro r h
    rw [List.length_cons] at h
    by_cases hr : r.length < 23
    · obtain ⟨g, e, he, hg⟩ := decodeMorphFrame_short conv f r hr
      exact ⟨g :: fs, e, he, by rw [decodeMorphLoop, hg]⟩
    · obtain ⟨g, hg⟩ := decodeMorphFrame_ok conv f r (by omega)
      obtain ⟨gs, e, he, hgs⟩ := ih (r.drop 23) (by rw [List.length_drop]; omega)
      exact ⟨g :: gs, e, he, by rw [decodeMorphLoop, hg]; simp only [hgs]⟩

theorem decodeMorphFrames_short (conv : List Byte → Except GoError (List Byte))
    (c part : List Byte) (hc : c.length = 4) (hpart : part.length < 23 * Uint32 c) :
    ∃ gs e, (e = GoError.EOF ∨ e = GoError.ErrUnexpectedEOF) ∧ ∀ vm : VMD,
      decodeMorphFrames conv vm (c ++ part) = ({ vm with MorphFrames := gs }, some e, []) := by
  have hn : 0 < Uint32 c := by
    rcases Nat.eq_zero_or_pos (Uint32 c) with h0 | h0
    · rw [h0] at hpart; simp at hpart
    · exact h0
  obtain ⟨gs, e, he, hgs⟩ := decodeMorphLoop_short conv (List.replicate (Uint32 c) MorphFrame.zero)
    part (by rw [List.length_replicate]; exact hpart)
  refine ⟨gs, e, he, fun vm => ?_⟩
  unfold decodeMorphFrames
  rw [readUint32_append c _ hc]
  simp only [gt_iff_lt, hn, if_true, hgs]

theorem decodeCameraLoop_short :
    ∀ (fs : List CameraFrame) (r : Reader), r.length < 61 * fs.length →
      ∃ gs e, (e = GoError.EOF ∨ e = GoError.ErrUnexpectedEOF) ∧
        decodeCameraLoop fs r = (gs, some e, []) := by
  intro fs
  induction fs with
  | nil => intro r h; simp at h
  | cons f fs ih =>
    intro r h
    rw [List.length_cons] at h
    by_cases hr : r.length < 61
    · obtain ⟨g, e, he, hg⟩ := decodeCameraFrame_short f r hr
      exact ⟨g :: fs, e, he, by rw [decodeCameraLoop, hg]⟩
    · obtain ⟨g, hg⟩ := decodeCameraFrame_ok f r (by omega)
      obtain ⟨gs, e, he, hgs⟩ := ih (r.drop 61) (by rw [List.length_drop]; omega)
      exact ⟨g :: gs, e, he, by rw [decodeCameraLoop, hg]; simp only [hgs]⟩

theorem decodeCameraFrames_short 
    (c part : List Byte) (hc : c.length = 4) (hpart : part.length < 61 * Uint32 c) :
    ∃ gs e, (e = GoError.EOF ∨ e = GoError.ErrUnexpectedEOF) ∧ ∀ vm : VMD,
      decodeCameraFrames vm (c ++ part) = ({ vm with CameraFrames := gs }, some e, []) := by
  have hn : 0 < Uint32 c := by
    rcases Nat.eq_zero_or_pos (Uint32 c) with h0 | h0
    · rw [h0] at hpart; simp at hpart
    · exact h0
  obtain ⟨gs, e, he, hgs⟩ := decodeCameraLoop_short (List.replicate (Uint32 c) CameraFrame.zero)
    part (by rw [List.length_replicate]; exact hpart)
  refine ⟨gs, e, he, fun vm => ?_⟩
  unfold decodeCameraFrames
  rw [readUint32_append c _ hc]
  simp only [gt_iff_lt, hn, if_true, hgs]

theorem decodeLightLoop_short :
    ∀ (fs : List LightFrame) (r : Reader), r.length < 28 * fs.length →
      ∃ gs e, (e = GoError.EOF ∨ e = GoError.ErrUnexpectedEOF) ∧
        decodeLightLoop fs r = (gs, some e, []) := by
  intro fs
  induction fs with
  | nil => intro r h; simp at h
  | cons f fs ih =>
    intro r h
    rw [List.length_cons] at h
    by_cases hr : r.length < 28
    · obtain ⟨g, e, he, hg⟩ := decodeLightFrame_short f r hr
      exact ⟨g :: fs, e, he, by rw [decodeLightLoop, hg]⟩
    · obtain ⟨g, hg⟩ := decodeLightFrame_ok f r (by omega)
      obtain ⟨gs, e, he, hgs⟩ := ih (r.drop 28) (by rw [List.length_drop]; omega)
      exact ⟨g :: gs, e, he, by rw [decodeLightLoop, hg]; simp only [hgs]⟩

theorem decodeLightFrames_short 
    (c part : List Byte) (hc : c.length = 4) (hpart : part.length < 28 * Uint32 c) :
    ∃ gs e, (e = GoError.EOF ∨ e = GoError.ErrUnexpectedEOF) ∧ ∀ vm : VMD,
      decodeLightFrames vm (c ++ part) = ({ vm with LightFrames := gs }, some e, []) := by
  have hn : 0 < Uint32 c := by
    rcases Nat.eq_zero_or_pos (Uint32 c) with h0 | h0
    · rw [h0] at hpart; simp at hpart
    · exact h0
  obtain ⟨gs, e, he, hgs⟩ := decodeLightLoop_short (List.replicate (Uint32 c) LightFrame.zero)
    part (by rw [List.length_replicate]; exact hpart)
  refine ⟨gs, e, he, fun vm => ?_⟩
  unfold decodeLightFrames
  rw [readUint32_append c _ hc]
  simp only [gt_iff_lt, hn, if_true, hgs]

/-- C10. After a valid header, when a section declares a count whose records (111, 23,
61 or 28 bytes each) are not all present before the stream ends, the sections before
it being complete, `Decode` returns no document and an end-of-input error (`io.EOF`
when the stream ends on a field boundary, `io.ErrUnexpectedEOF` inside a field)
wrapped with the label of that section's stage. -/
theorem Decode_truncated_section (tbl : List UInt16)
    (m pad model c1 s1 c2 s2 c3 s3 c4 part : List Byte) (v : Nat)
    (hm : (m = ascii "Vocaloid Motion Data file" ∧ v = 1) ∨
      (m = ascii "Vocaloid Motion Data 0002" ∧ v = 2))
    (hpad : pad.length = 5) (hmodel : model.length = 10 * v)
    (hc1 : c1.length = 4) (hc2 : c2.length = 4) (hc3 : c3.length = 4) (hc4 : c4.length = 4) :
    (part.length < 111 * Uint32 c1 →
      ∃ e, (e = GoError.EOF ∨ e = GoError.ErrUnexpectedEOF) ∧
        Decode (shiftJisDecoder tbl) (m ++ pad ++ model ++ c1 ++ part)
          = Run.ret (none, some (Errorf "vmd: error decoding bone frames: " e), [])) ∧
    (s1.length = 111 * Uint32 c1 → part.length < 23 * Uint32 c2 →
      ∃ e, (e = GoError.EOF ∨ e = GoError.ErrUnexpectedEOF) ∧
        Decode (shiftJisDecoder tbl) (m ++ pad ++ model ++ c1 ++ s1 ++ c2 ++ part)
          = Run.ret (none, some (Errorf "vmd: error decoding morph frames: " e), [])) ∧
    (s1.length = 111 * Uint32 c1 → s2.length = 23 * Uint32 c2 →
      part.length < 61 * Uint32 c3 →
      ∃ e, (e = GoError.EOF ∨ e = GoError.ErrUnexpectedEOF) ∧
        Decode (shiftJisDecoder tbl)
            (m ++ pad ++ model ++ c1 ++ s1 ++ c2 ++ s2 ++ c3 ++ part)
          = Run.ret (none, some (Errorf "vmd: error decoding camera frames: " e), [])) ∧
    (s1.length = 111 * Uint32 c1 → s2.length = 23 * Uint32 c2 →
      s3.length = 61 * Uint32 c3 → part.length < 28 * Uint32 c4 →
      ∃ e, (e = GoError.EOF ∨ e = GoError.ErrUnexpectedEOF) ∧
        Decode (shiftJisDecoder tbl)
            (m ++ pad ++ model ++ c1 ++ s1 ++ c2 ++ s2 ++ c3 ++ s3 ++ c4 ++ part)
          = Run.ret (none, some (Errorf "vmd: error decoding light frames: " e), [])) := by
  simp only [List.append_assoc]
  refine ⟨?_, ?_, ?_, ?_⟩
  · intro hp
    have hh := decodeHeader_valid tbl VMD.new m pad model (c1 ++ part) v hm hpad hmodel
    obtain ⟨gs, e, he, hs⟩ := decodeBoneFrames_short (shiftJisDecoder tbl) c1 part hc1 hp
    refine ⟨e, he, ?_⟩
    unfold Decode
    rw [hh]
    simp only
    rw [hs]
    simp only [returns_some]
  · intro hs1 hp
    have hh := decodeHeader_valid tbl VMD.new m pad model (c1 ++ (s1 ++ (c2 ++ part))) v hm
      hpad hmodel
    obtain ⟨g1, _, hg1⟩ := decodeBoneFrames_ok (shiftJisDecoder tbl) c1 s1 (c2 ++ part) hc1 hs1
    obtain ⟨gs, e, he, hs⟩ := decodeMorphFrames_short (shiftJisDecoder tbl) c2 part hc2 hp
    refine ⟨e, he, ?_⟩
    unfold Decode
    rw [hh]
    simp only
    rw [hg1]
    simp only
    rw [hs]
    simp only [returns_some]
  · intro hs1 hs2 hp
    have hh := decodeHeader_valid tbl VMD.new m pad model
      (c1 ++ (s1 ++ (c2 ++ (s2 ++ (c3 ++ part))))) v hm hpad hmodel
    obtain ⟨g1, _, hg1⟩ := decodeBoneFrames_ok (shiftJisDecoder tbl) c1 s1
      (c2 ++ (s2 ++ (c3 ++ part))) hc1 hs1
    obtain ⟨g2, _, hg2⟩ := decodeMorphFrames_ok (shiftJisDecoder tbl) c2 s2 (c3 ++ part) hc2 hs2
    obtain ⟨gs, e, he, hs⟩ := decodeCameraFrames_short c3 part hc3 hp
    refine ⟨e, he, ?_⟩
    unfold Decode
    rw [hh]
    simp only
    rw [hg1]
    simp only
    rw [hg2]
    simp only
    rw [hs]
    simp only [returns_some]
  · intro hs1 hs2 hs3 hp
    have hh := decodeHeader_valid tbl VMD.new m pad model
      (c1 ++ (s1 ++ (c2 ++ (s2 ++ (c3 ++ (s3 ++ (c4 ++ part))))))) v hm hpad hmodel
    obtain ⟨g1, _, hg1⟩ := decodeBoneFrames_ok (shiftJisDecoder tbl) c1 s1
      (c2 ++ (s2 ++ (c3 ++ (s3 ++ (c4 ++ part))))) hc1 hs1
    obtain ⟨g2, _, hg2⟩ := decodeMorphFrames_ok (shiftJisDecoder tbl) c2 s2
      (c3 ++ (s3 ++ (c4 ++ part))) hc2 hs2
    obtain ⟨g3, _, hg3⟩ := decodeCameraFrames_ok c3 s3 (c4 ++ part) hc3 hs3
    obtain ⟨gs, e, he, hs⟩ := decodeLightFrames_short c4 part hc4 hp
    refine ⟨e, he, ?_⟩
    unfold Decode
    rw [hh]
    simp only
    rw [hg1]
    simp only
    rw [hg2]
    simp only
    rw [hg3]
    simp only
    rw [hs]
    simp only [returns_some]

/-- Witness of C10, the scenario of the specification: a version-1 header and bone
count 1 followed by only 50 of the 111 record bytes. -/
theorem Decode_truncated_section_witness :
    ∃ e, (e = GoError.EOF ∨ e = GoError.ErrUnexpectedEOF) ∧
      Decode (shiftJisDecoder [])
          (ascii "Vocaloid Motion Data file" ++ List.replicate 5 0 ++ List.replicate 10 0x41
            ++ [1, 0, 0, 0] ++ List.replicate 50 7)
        = Run.ret (none, some (Errorf "vmd: error decoding bone frames: " e), []) :=
  (Decode_truncated_section [] (ascii "Vocaloid Motion Data file") (List.replicate 5 0)
    (List.replicate 10 0x41) [1, 0, 0, 0] [] [0, 0, 0, 0] [] [0, 0, 0, 0] [] [0, 0, 0, 0]
    (List.replicate 50 7) 1 (Or.inl ⟨rfl, rfl⟩) (by decide) (by decide) (by decide) (by decide)
    (by decide) (by decide)).1 (by decide)

/-! ### The decoders against the layout of the specification -/

theorem Uint32_four (b0 b1 b2 b3 : Byte) :
    Uint32 [b0, b1, b2, b3]
      = b0.toNat + 256 * b1.toNat + 65536 * b2.toNat + 16777216 * b3.toNat := by
  have h0 := b0.toNat_lt
  have h1 := b1.toNat_lt
  have h2 := b2.toNat_lt
  have h3 := b3.toNat_lt
  have e1 : b0.toNat ||| b1.toNat <<< 8 = 2 ^ 8 * b1.toNat + b0.toNat := by
    rw [Nat.or_comm, Nat.shiftLeft_eq, Nat.mul_comm]
    exact (Nat.mul_add_lt_is_or h0 _).symm
  have e2 : (2 ^ 8 * b1.toNat + b0.toNat) ||| b2.toNat <<< 16
      = 2 ^ 16 * b2.toNat + (2 ^ 8 * b1.toNat + b0.toNat) := by
    rw [Nat.or_comm, Nat.shiftLeft_eq, Nat.mul_comm]
    exact (Nat.mul_add_lt_is_or (by omega) _).symm
  have e3 : (2 ^ 16 * b2.toNat + (2 ^ 8 * b1.toNat + b0.toNat)) ||| b3.toNat <<< 24
      = 2 ^ 24 * b3.toNat + (2 ^ 16 * b2.toNat + (2 ^ 8 * b1.toNat + b0.toNat)) := by
    rw [Nat.or_comm, Nat.shiftLeft_eq, Nat.mul_comm]
    exact (Nat.mul_add_lt_is_or (by omega) _).symm
  show (b0.toNat ||| b1.toNat <<< 8 ||| b2.toNat <<< 16 ||| b3.toNat <<< 24) % 2 ^ 32 = _
  rw [e1, e2, e3]
  omega

theorem Uint32_eq_le32 (bs : List Byte) : Uint32 bs = le32 bs := by
  match bs with
  | [] => rfl
  | [_] => rfl
  | [_, _] => rfl
  | [_, _, _] => rfl
  | [b0, b1, b2, b3] => rw [Uint32_four]; rfl
  | _ :: _ :: _ :: _ :: _ :: _ => rfl

theorem words32_eq_le32s : ∀ (k : Nat) (bs : List Byte), words32 k bs = le32s k bs := by
  intro k
  induction k with
  | zero => intro bs; rfl
  | succ k ih => intro bs; rw [words32, le32s, ih, Uint32_eq_le32]

theorem fieldAt_take (r : List Byte) (n off len : Nat) (h : off + len ≤ n) :
    fieldAt (r.take n) off len = (r.drop off).take len := by
  unfold fieldAt
  rw [List.drop_take, List.take_take]
  congr 1
  omega

theorem decodeString_eq (conv : List Byte → Except GoError (List Byte)) (r : Reader)
    (n : Nat) (hn : n ≠ 0) (h : n ≤ r.length) :
    decodeString conv r n = (fieldText conv (r.take n), none, r.drop n) := by
  unfold decodeString fieldText
  rw [if_neg hn, ReadFull_ok r n h]
  simp only [truncateAtNull_eq_takeWhile]
  split <;> rename_i h1 <;> simp only [h1]

theorem decodeBoneFrame_eq (conv : List Byte → Except GoError (List Byte)) (f : BoneFrame)
    (r : Reader) (h : 111 ≤ r.length) :
    decodeBoneFrame conv f r = (boneRecord conv (r.take 111), none, r.drop 111) := by
  unfold decodeBoneFrame
  rw [decodeString_eq conv r 15 (by decide) (by omega)]
  simp only
  rw [readUint32_ok _ (by rw [List.length_drop]; omega)]
  simp only [List.drop_drop]
  rw [readFloat32s_ok _ 3 (by rw [List.length_drop]; omega)]
  simp only [List.drop_drop]
  rw [readFloat32s_ok _ 4 (by rw [List.length_drop]; omega)]
  simp only [List.drop_drop]
  rw [readBytes_ok _ 16 (by rw [List.length_drop]; omega)]
  simp only [List.drop_drop]
  rw [readBytes_ok _ 16 (by rw [List.length_drop]; omega)]
  simp only [List.drop_drop]
  rw [readBytes_ok _ 16 (by rw [List.length_drop]; omega)]
  simp only [List.drop_drop]
  rw [readBytes_ok _ 16 (by rw [List.length_drop]; omega)]
  simp only [List.drop_drop]
  simp [boneRecord, fieldAt_take, Uint32_eq_le32]

theorem decodeMorphFrame_eq (conv : List Byte → Except GoError (List Byte)) (f : MorphFrame)
    (r : Reader) (h : 23 ≤ r.length) :
    decodeMorphFrame conv f r = (specMorphFrame conv (r.take 23), none, r.drop 23) := by
  unfold decodeMorphFrame
  rw [decodeString_eq conv r 15 (by decide) (by omega)]
  simp only
  rw [readUint32_ok _ (by rw [List.length_drop]; omega)]
  simp only [List.drop_drop]
  rw [readUint32_ok _ (by rw [List.length_drop]; omega)]
  simp only [List.drop_drop]
  simp [specMorphFrame, fieldAt_take, Uint32_eq_le32]

theorem decodeCameraFrame_eq (f : CameraFrame) (r : Reader) (h : 61 ≤ r.length) :
    decodeCameraFrame f r = (cameraRecord (r.take 61), none, r.drop 61) := by
  unfold decodeCameraFrame
  rw [readUint32_ok _ (by omega)]
  simp only
  rw [readUint32_ok _ (by rw [List.length_drop]; omega)]
  simp only [List.drop_drop]
  rw [readFloat32s_ok _ 3 (by rw [List.length_drop]; omega)]
  simp only [List.drop_drop]
  rw [readFloat32s_ok _ 3 (by rw [List.length_drop]; omega)]
  simp only [List.drop_drop]
  rw [readBytes_ok _ 24 (by rw [List.length_drop]; omega)]
  simp only [List.drop_drop]
  rw [readUint32_ok _ (by rw [List.length_drop]; omega)]
  simp only [List.drop_drop]
  rw [readByte_ok _ (by rw [List.length_drop]; omega)]
  simp only [List.drop_drop]
  simp [cameraRecord, fieldAt_take, Uint32_eq_le32]

theorem decodeLightFrame_eq (f : LightFrame) (r : Reader) (h : 28 ≤ r.length) :
    decodeLightFrame f r = (lightRecord (r.take 28), none, r.drop 28) := by
  unfold decodeLightFrame
  rw [readUint32_ok _ (by omega)]
  simp only
  rw [readFloat32s_ok _ 3 (by rw [List.length_drop]; omega)]
  simp only [List.drop_drop]
  rw [readFloat32s_ok _ 3 (by rw [List.length_drop]; omega)]
  simp only [List.drop_drop]
  simp [lightRecord, fieldAt_take, Uint32_eq_le32]

theorem specFrames_length {α : Type} (frame : List Byte → α) (size : Nat) :
    ∀ (n : Nat) (bs : List Byte), (specFrames frame size n bs).length = n := by
  intro n
  induction n with
  | zero => intro bs; rfl
  | succ n ih => intro bs; rw [specFrames, List.length_cons, ih]

theorem specFrames_get? {α : Type} (frame : List Byte → α) (size : Nat) :
    ∀ (n : Nat) (bs : List Byte) (i : Nat), i < n →
      (specFrames frame size n bs).get? i = some (frame (fieldAt bs (size * i) size)) := by
  intro n
  induction n with
  | zero => intro bs i hi; omega
  | succ n ih =>
    intro bs i hi
    cases i with
    | zero => simp [specFrames, fieldAt]
    | succ i =>
      rw [specFrames, List.get?_cons_succ, ih (bs.drop size) i (by omega)]
      unfold fieldAt
      rw [List.drop_drop, Nat.mul_succ, Nat.add_comm]

theorem specFrames_append {α : Type} (frame : List Byte → α) (size : Nat) :
    ∀ (n : Nat) (bs y : List Byte), size * n ≤ bs.length →
      specFrames frame size n (bs ++ y) = specFrames frame size n bs := by
  intro n
  induction n with
  | zero => intro bs y _; rfl
  | succ n ih =>
    intro bs y h
    rw [Nat.mul_succ] at h
    rw [specFrames, specFrames, List.take_append_of_le_length (by omega),
      List.drop_append_of_le_length (by omega), ih _ y (by rw [List.length_drop]; omega)]

theorem decodeBoneLoop_eq (conv : List Byte → Except GoError (List Byte)) :
    ∀ (fs : List BoneFrame) (r : Reader), 111 * fs.length ≤ r.length →
      decodeBoneLoop conv fs r
        = (specFrames (boneRecord conv) 111 fs.length r, none, r.drop (111 * fs.length)) := by
  intro fs
  induction fs with
  | nil => intro r _; simp [decodeBoneLoop, specFrames]
  | cons f fs ih =>
    intro r h
    rw [List.length_cons] at h
    rw [decodeBoneLoop, decodeBoneFrame_eq conv f r (by omega)]
    simp only
    rw [ih (r.drop 111) (by rw [List.length_drop]; omega)]
    simp only [List.drop_drop, List.length_cons, specFrames]
    congr 3
    omega

theorem decodeBoneFrames_eq (conv : List Byte → Except GoError (List Byte)) (vm : VMD) (r : Reader)
    (h4 : 4 ≤ r.length) (hrec : 111 * Uint32 (r.take 4) ≤ (r.drop 4).length) :
    decodeBoneFrames conv vm r
      = ({ vm with BoneFrames := if 0 < Uint32 (r.take 4)
            then specFrames (boneRecord conv) 111 (Uint32 (r.take 4)) (r.drop 4)
            else vm.BoneFrames }, none, r.drop (4 + 111 * Uint32 (r.take 4))) := by
  unfold decodeBoneFrames
  rw [readUint32_ok r h4]
  simp only
  by_cases hn : 0 < Uint32 (r.take 4)
  · rw [decodeBoneLoop_eq conv _ _ (by rw [List.length_replicate]; exact hrec)]
    simp only [gt_iff_lt, hn, if_true, List.length_replicate, List.drop_drop]
  · have h0 : Uint32 (r.take 4) = 0 := by omega
    simp [h0]

theorem decodeBoneFrames_inv (conv : List Byte → Except GoError (List Byte)) (vm vm1 : VMD) (r r1 : Reader)
    (h : decodeBoneFrames conv vm r = (vm1, none, r1)) :
    4 ≤ r.length ∧ 111 * Uint32 (r.take 4) ≤ (r.drop 4).length := by
  have h4 : 4 ≤ r.length := by
    by_contra hlt
    obtain ⟨e, _, he⟩ := readUint32_short r (by omega)
    unfold decodeBoneFrames at h
    rw [he] at h
    simp at h
  refine ⟨h4, ?_⟩
  by_contra hlt
  obtain ⟨gs, e, _, hs⟩ := decodeBoneFrames_short conv (r.take 4) (r.drop 4)
    (by rw [List.length_take]; omega) (by omega)
  rw [List.take_append_drop] at hs
  rw [hs vm] at h
  simp at h

theorem decodeMorphLoop_eq (conv : List Byte → Except GoError (List Byte)) :
    ∀ (fs : List MorphFrame) (r : Reader), 23 * fs.length ≤ r.length →
      decodeMorphLoop conv fs r
        = (specFrames (specMorphFrame conv) 23 fs.length r, none, r.drop (23 * fs.length)) := by
  intro fs
  induction fs with
  | nil => intro r _; simp [decodeMorphLoop, specFrames]
  | cons f fs ih =>
    intro r h
    rw [List.length_cons] at h
    rw [decodeMorphLoop, decodeMorphFrame_eq conv f r (by omega)]
    simp only
    rw [ih (r.drop 23) (by rw [List.length_drop]; omega)]
    simp only [List.drop_drop, List.length_cons, specFrames]
    congr 3
    omega

theorem decodeMorphFrames_eq (conv : List Byte → Except GoError (List Byte)) (vm : VMD) (r : Reader)
    (h4 : 4 ≤ r.length) (hrec : 23 * Uint32 (r.take 4) ≤ (r.drop 4).length) :
    decodeMorphFrames conv vm r
      = ({ vm with MorphFrames := if 0 < Uint32 (r.take 4)
            then specFrames (specMorphFrame conv) 23 (Uint32 (r.take 4)) (r.drop 4)
            else vm.MorphFrames }, none, r.drop (4 + 23 * Uint32 (r.take 4))) := by
  unfold decodeMorphFrames
  rw [readUint32_ok r h4]
  simp only
  by_cases hn : 0 < Uint32 (r.take 4)
  · rw [decodeMorphLoop_eq conv _ _ (by rw [List.length_replicate]; exact hrec)]
    simp only [gt_iff_lt, hn, if_true, List.length_replicate, List.drop_drop]
  · have h0 : Uint32 (r.take 4) = 0 := by omega
    simp [h0]

theorem decodeMorphFrames_inv (conv : List Byte → Except GoError (List Byte)) (vm vm1 : VMD) (r r1 : Reader)
    (h : decodeMorphFrames conv vm r = (vm1, none, r1)) :
    4 ≤ r.length ∧ 23 * Uint32 (r.take 4) ≤ (r.drop 4).length := by
  have h4 : 4 ≤ r.length := by
    by_contra hlt
    obtain ⟨e, _, he⟩ := readUint32_short r (by omega)
    unfold decodeMorphFrames at h
    rw [he] at h
    simp at h
  refine ⟨h4, ?_⟩
  by_contra hlt
  obtain ⟨gs, e, _, hs⟩ := decodeMorphFrames_short conv (r.take 4) (r.drop 4)
    (by rw [List.length_take]; omega) (by omega)
  rw [List.take_append_drop] at hs
  rw [hs vm] at h
  simp at h

theorem decodeCameraLoop_eq :
    ∀ (fs : List CameraFrame) (r : Reader), 61 * fs.length ≤ r.length →
      decodeCameraLoop fs r
        = (specFrames cameraRecord 61 fs.length r, none, r.drop (61 * fs.length)) := by
  intro fs
  induction fs with
  | nil => intro r _; simp [decodeCameraLoop, specFrames]
  | cons f fs ih =>
    intro r h
    rw [List.length_cons] at h
    rw [decodeCameraLoop, decodeCameraFrame_eq f r (by omega)]
    simp only
    rw [ih (r.drop 61) (by rw [List.length_drop]; omega)]
    simp only [List.drop_drop, List.length_cons, specFrames]
    congr 3
    omega

theorem decodeCameraFrames_eq (vm : VMD) (r : Reader)
    (h4 : 4 ≤ r.length) (hrec : 61 * Uint32 (r.take 4) ≤ (r.drop 4).length) :
    decodeCameraFrames vm r
      = ({ vm with CameraFrames := if 0 < Uint32 (r.take 4)
            then specFrames cameraRecord 61 (Uint32 (r.take 4)) (r.drop 4)
            else vm.CameraFrames }, none, r.drop (4 + 61 * Uint32 (r.take 4))) := by
  unfold decodeCameraFrames
  rw [readUint32_ok r h4]
  simp only
  by_cases hn : 0 < Uint32 (r.take 4)
  · rw [decodeCameraLoop_eq _ _ (by rw [List.length_replicate]; exact hrec)]
    simp only [gt_iff_lt, hn, if_true, List.length_replicate, List.drop_drop]
  · have h0 : Uint32 (r.take 4) = 0 := by omega
    simp [h0]

theorem decodeCameraFrames_inv (vm vm1 : VMD) (r r1 : Reader)
    (h : decodeCameraFrames vm r = (vm1, none, r1)) :
    4 ≤ r.length ∧ 61 * Uint32 (r.take 4) ≤ (r.drop 4).length := by
  have h4 : 4 ≤ r.length := by
    by_contra hlt
    obtain ⟨e, _, he⟩ := readUint32_short r (by omega)
    unfold decodeCameraFrames at h
    rw [he] at h
    simp at h
  refine ⟨h4, ?_⟩
  by_contra hlt
  obtain ⟨gs, e, _, hs⟩ := decodeCameraFrames_short (r.take 4) (r.drop 4)
    (by rw [List.length_take]; omega) (by omega)
  rw [List.take_append_drop] at hs
  rw [hs vm] at h
  simp at h

theorem decodeLightLoop_eq :
    ∀ (fs : List LightFrame) (r : Reader), 28 * fs.length ≤ r.length →
      decodeLightLoop fs r
        = (specFrames lightRecord 28 fs.length r, none, r.drop (28 * fs.length)) := by
  intro fs
  induction fs with
  | nil => intro r _; simp [decodeLightLoop, specFrames]
  | cons f fs ih =>
    intro r h
    rw [List.length_cons] at h
    rw [decodeLightLoop, decodeLightFrame_eq f r (by omega)]
    simp only
    rw [ih (r.drop 28) (by rw [List.length_drop]; omega)]
    simp only [List.drop_drop, List.length_cons, specFrames]
    congr 3
    omega

theorem decodeLightFrames_eq (vm : VMD) (r : Reader)
    (h4 : 4 ≤ r.length) (hrec : 28 * Uint32 (r.take 4) ≤ (r.drop 4).length) :
    decodeLightFrames vm r
      = ({ vm with LightFrames := if 0 < Uint32 (r.take 4)
            then specFrames lightRecord 28 (Uint32 (r.take 4)) (r.drop 4)
            else vm.LightFrames }, none, r.drop (4 + 28 * Uint32 (r.take 4))) := by
  unfold decodeLightFrames
  rw [readUint32_ok r h4]
  simp only
  by_cases hn : 0 < Uint32 (r.take 4)
  · rw [decodeLightLoop_eq _ _ (by rw [List.length_replicate]; exact hrec)]
    simp only [gt_iff_lt, hn, if_true, List.length_replicate, List.drop_drop]
  · have h0 : Uint32 (r.take 4) = 0 := by omega
    simp [h0]

theorem decodeLightFrames_inv (vm vm1 : VMD) (r r1 : Reader)
    (h : decodeLightFrames vm r = (vm1, none, r1)) :
    4 ≤ r.length ∧ 28 * Uint32 (r.take 4) ≤ (r.drop 4).length := by
  have h4 : 4 ≤ r.length := by
    by_contra hlt
    obtain ⟨e, _, he⟩ := readUint32_short r (by omega)
    unfold decodeLightFrames at h
    rw [he] at h
    simp at h
  refine ⟨h4, ?_⟩
  by_contra hlt
  obtain ⟨gs, e, _, hs⟩ := decodeLightFrames_short (r.take 4) (r.drop 4)
    (by rw [List.length_take]; omega) (by omega)
  rw [List.take_append_drop] at hs
  rw [hs vm] at h
  simp at h

/-! ### What a successful run has read -/

theorem decodeModel_inv (conv : List Byte → Except GoError (List Byte)) (vm vm1 : VMD)
    (r r1 : Reader) (hv : vm.Version = 1 ∨ vm.Version = 2)
    (h : decodeModel conv vm r = (vm1, none, r1)) :
    10 * vm.Version ≤ r.length ∧ r1 = r.drop (10 * vm.Version) ∧
      vm1 = { vm with Model := fieldText conv (r.take (10 * vm.Version)) } := by
  unfold decodeModel at h
  by_cases hl : vm.Version * 10 ≤ r.length
  · rw [decodeString_eq conv r _ (by omega) hl] at h
    simp only [Prod.mk.injEq, true_and] at h
    obtain ⟨h1, h2⟩ := h
    rw [Nat.mul_comm] at h1 h2
    exact ⟨by omega, h2.symm, h1.symm⟩
  · obtain ⟨e, _, he⟩ := decodeString_short conv r (vm.Version * 10) (by omega)
    rw [he] at h
    simp at h

theorem decodeHeader_inv (conv : List Byte → Except GoError (List Byte)) (vm vm1 : VMD)
    (r r1 : Reader) (h : decodeHeader conv vm r = Run.ret (vm1, none, r1)) :
    (vm1.Version = 1 ∨ vm1.Version = 2) ∧
    30 + 10 * vm1.Version ≤ r.length ∧ r1 = r.drop (30 + 10 * vm1.Version) ∧
    vm1.Model = fieldText conv (fieldAt r 30 (10 * vm1.Version)) ∧
    (vm1.Version = 1 → (fieldText conv (r.take 30)).take 25 = ascii "Vocaloid Motion Data file") ∧
    (vm1.Version = 2 → (fieldText conv (r.take 30)).take 25 = ascii "Vocaloid Motion Data 0002") ∧
    vm1.BoneFrames = vm.BoneFrames ∧ vm1.MorphFrames = vm.MorphFrames ∧
    vm1.CameraFrames = vm.CameraFrames ∧ vm1.LightFrames = vm.LightFrames := by
  unfold decodeHeader at h
  by_cases h30 : 30 ≤ r.length
  · rw [decodeString_eq conv r 30 (by decide) h30] at h
    simp only at h
    split at h
    · simp at h
    · split at h
      · split at h
        · rename_i hm
          simp only [Run.ret.injEq] at h
          obtain ⟨hl, hr, hvm⟩ := decodeModel_inv conv _ vm1 _ r1 (Or.inl rfl) h
          simp only at hl hr hvm
          subst hvm hr
          refine ⟨Or.inl rfl, ?_, ?_, ?_, fun _ => hm, ?_, rfl, rfl, rfl, rfl⟩
          · rw [List.length_drop] at hl; simp only; omega
          · simp only [List.drop_drop]
          · rfl
          · intro h2; simp at h2
        · split at h
          · rename_i hm1 hm
            simp only [Run.ret.injEq] at h
            obtain ⟨hl, hr, hvm⟩ := decodeModel_inv conv _ vm1 _ r1 (Or.inr rfl) h
            simp only at hl hr hvm
            subst hvm hr
            refine ⟨Or.inr rfl, ?_, ?_, ?_, ?_, fun _ => hm, rfl, rfl, rfl, rfl⟩
            · rw [List.length_drop] at hl; simp only; omega
            · simp only [List.drop_drop]
            · rfl
            · intro h2; simp at h2
          · simp at h
      · simp at h
  · obtain ⟨e, _, he⟩ := decodeString_short conv r 30 (by omega)
    rw [he] at h
    simp at h

theorem ite_specFrames {α : Type} (frame : List Byte → α) (size n : Nat) (bs : List Byte) :
    (if 0 < n then specFrames frame size n bs else []) = specFrames frame size n bs := by
  cases n with
  | zero => rfl
  | succ n => simp

/-- A successful `Decode` has read the header and then four sections laid out back to
back; `r1`, `r2`, `r3`, `r4` are the stream at the start of each section. -/
theorem Decode_ok_layout (conv : List Byte → Except GoError (List Byte)) (r : Reader)
    (d : VMD) (rest : Reader) (h : Decode conv r = Run.ret (some d, none, rest)) :
    ∃ r1 r2 r3 r4 : Reader,
      (d.Version = 1 ∨ d.Version = 2) ∧
      30 + 10 * d.Version ≤ r.length ∧ r1 = r.drop (30 + 10 * d.Version) ∧
      d.Model = fieldText conv (fieldAt r 30 (10 * d.Version)) ∧
      (d.Version = 1 →
        (fieldText conv (r.take 30)).take 25 = ascii "Vocaloid Motion Data file") ∧
      (d.Version = 2 →
        (fieldText conv (r.take 30)).take 25 = ascii "Vocaloid Motion Data 0002") ∧
      (4 + 111 * d.BoneFrames.length ≤ r1.length ∧
        r2 = r1.drop (4 + 111 * d.BoneFrames.length) ∧
        d.BoneFrames.length = Uint32 (r1.take 4) ∧
        d.BoneFrames = specFrames (boneRecord conv) 111 d.BoneFrames.length (r1.drop 4)) ∧
      (4 + 23 * d.MorphFrames.length ≤ r2.length ∧
        r3 = r2.drop (4 + 23 * d.MorphFrames.length) ∧
        d.MorphFrames.length = Uint32 (r2.take 4) ∧
        d.MorphFrames = specFrames (specMorphFrame conv) 23 d.MorphFrames.length (r2.drop 4)) ∧
      (4 + 61 * d.CameraFrames.length ≤ r3.length ∧
        r4 = r3.drop (4 + 61 * d.CameraFrames.length) ∧
        d.CameraFrames.length = Uint32 (r3.take 4) ∧
        d.CameraFrames = specFrames cameraRecord 61 d.CameraFrames.length (r3.drop 4)) ∧
      (4 + 28 * d.LightFrames.length ≤ r4.length ∧
        rest = r4.drop (4 + 28 * d.LightFrames.length) ∧
        d.LightFrames.length = Uint32 (r4.take 4) ∧
        d.LightFrames = specFrames lightRecord 28 d.LightFrames.length (r4.drop 4)) := by
  obtain ⟨vm1, r1, vm2, r2, vm3, r3, vm4, r4, h1, h2, h3, h4, h5⟩ :=
    Decode_ok_inv conv r d rest h
  obtain ⟨hv, hlen, hr1, hmodel, hmag1, hmag2, hb1, hm1, hc1, hl1⟩ :=
    decodeHeader_inv conv VMD.new vm1 r r1 h1
  obtain ⟨a2, b2⟩ := decodeBoneFrames_inv conv vm1 vm2 r1 r2 h2
  obtain ⟨a3, b3⟩ := decodeMorphFrames_inv conv vm2 vm3 r2 r3 h3
  obtain ⟨a4, b4⟩ := decodeCameraFrames_inv vm3 vm4 r3 r4 h4
  obtain ⟨a5, b5⟩ := decodeLightFrames_inv vm4 d r4 rest h5
  rw [decodeBoneFrames_eq conv vm1 r1 a2 b2] at h2
  rw [decodeMorphFrames_eq conv vm2 r2 a3 b3] at h3
  rw [decodeCameraFrames_eq vm3 r3 a4 b4] at h4
  rw [decodeLightFrames_eq vm4 r4 a5 b5] at h5
  simp only [Prod.mk.injEq, true_and] at h2 h3 h4 h5
  obtain ⟨e2, q2⟩ := h2
  obtain ⟨e3, q3⟩ := h3
  obtain ⟨e4, q4⟩ := h4
  obtain ⟨e5, q5⟩ := h5
  have hH : d.toHeader = vm1.toHeader := by rw [← e5, ← e4, ← e3, ← e2]
  have hB : d.BoneFrames = specFrames (boneRecord conv) 111 (Uint32 (r1.take 4))
      (r1.drop 4) := by
    rw [← e5, ← e4, ← e3, ← e2]
    simp only
    rw [hb1]
    exact ite_specFrames _ _ _ _
  have hM : d.MorphFrames = specFrames (specMorphFrame conv) 23 (Uint32 (r2.take 4))
      (r2.drop 4) := by
    rw [← e5, ← e4, ← e3]
    simp only
    rw [← e2]
    simp only
    rw [hm1]
    exact ite_specFrames _ _ _ _
  have hC : d.CameraFrames = specFrames cameraRecord 61 (Uint32 (r3.take 4))
      (r3.drop 4) := by
    rw [← e5, ← e4]
    simp only
    rw [← e3, ← e2]
    simp only
    rw [hc1]
    exact ite_specFrames _ _ _ _
  have hL : d.LightFrames = specFrames lightRecord 28 (Uint32 (r4.take 4))
      (r4.drop 4) := by
    rw [← e5]
    simp only
    rw [← e4, ← e3, ← e2]
    simp only
    rw [hl1]
    exact ite_specFrames _ _ _ _
  have nB : d.BoneFrames.length = Uint32 (r1.take 4) := by rw [hB, specFrames_length]
  have nM : d.MorphFrames.length = Uint32 (r2.take 4) := by rw [hM, specFrames_length]
  have nC : d.CameraFrames.length = Uint32 (r3.take 4) := by rw [hC, specFrames_length]
  have nL : d.LightFrames.length = Uint32 (r4.take 4) := by rw [hL, specFrames_length]
  have hV : d.Version = vm1.Version := congrArg Header.Version hH
  have hMo : d.Model = vm1.Model := congrArg Header.Model hH
  rw [List.length_drop] at b2 b3 b4 b5
  refine ⟨r1, r2, r3, r4, by rw [hV]; exact hv, by rw [hV]; exact hlen, by rw [hV]; exact hr1,
    by rw [hV, hMo]; exact hmodel, by rw [hV]; exact hmag1, by rw [hV]; exact hmag2,
    ⟨by omega, by rw [nB]; exact q2.symm, nB, by rw [nB]; exact hB⟩,
    ⟨by omega, by rw [nM]; exact q3.symm, nM, by rw [nM]; exact hM⟩,
    ⟨by omega, by rw [nC]; exact q4.symm, nC, by rw [nC]; exact hC⟩,
    ⟨by omega, by rw [nL]; exact q5.symm, nL, by rw [nL]; exact hL⟩⟩

/-! ### The text decoder -/

theorem fieldText_eq_convertText (conv : List Byte → Except GoError (List Byte))
    (field : List Byte) :
    fieldText conv field = convertText conv (field.takeWhile (fun b => b != 0)) := rfl

theorem takeWhile_null_append (p x : List Byte) (hp : ∀ b ∈ p, b ≠ 0) :
    (p ++ 0 :: x).takeWhile (fun b => b != 0) = p := by
  rw [List.takeWhile_append_of_pos (by simpa using hp)]
  simp

theorem takeWhile_null_free (p : List Byte) (hp : ∀ b ∈ p, b ≠ 0) :
    p.takeWhile (fun b => b != 0) = p := by
  have h := @List.takeWhile_append_of_pos Byte (fun b : Byte => b != 0) p []
    (by simpa using hp)
  simpa using h

/-- C11. For a field of `n > 0` bytes that the stream holds in full, `decodeString`
returns the conversion of exactly the bytes before the first null byte of the field:
with the field `p ++ 0 :: x`, `p` free of null bytes, the text is the conversion of `p`,
whatever `x` is; with a field free of null bytes it is the conversion of the whole
field. The 15-byte field "Foo", a null byte and eleven arbitrary bytes decodes to
"Foo" (for every conversion table). -/
theorem decodeString_before_first_null (conv : List Byte → Except GoError (List Byte))
    (field rest : List Byte) (n : Nat) (hn : 0 < n) (hfield : field.length = n) :
    (∀ p x : List Byte, (∀ b ∈ p, b ≠ 0) → field = p ++ 0 :: x →
      decodeString conv (field ++ rest) n = (convertText conv p, none, rest)) ∧
    ((∀ b ∈ field, b ≠ 0) →
      decodeString conv (field ++ rest) n = (convertText conv field, none, rest)) ∧
    (∀ (tbl : List UInt16) (x : List Byte), field = ascii "Foo" ++ 0 :: x →
      decodeString (shiftJisDecoder tbl) (field ++ rest) n = (ascii "Foo", none, rest)) := by
  have h := decodeString_eq conv (field ++ rest) n (by omega)
    (by rw [List.length_append]; omega)
  rw [List.take_left' hfield, List.drop_left' hfield, fieldText_eq_convertText] at h
  refine ⟨?_, ?_, ?_⟩
  · intro p x hp hf
    rw [h, hf, takeWhile_null_append p x hp]
  · intro hf
    rw [h, takeWhile_null_free field hf]
  · intro tbl x hf
    have h2 := decodeString_eq (shiftJisDecoder tbl) (field ++ rest) n (by omega)
      (by rw [List.length_append]; omega)
    rw [List.take_left' hfield, List.drop_left' hfield, fieldText_eq_convertText, hf,
      takeWhile_null_append _ x (by decide)] at h2
    rw [hf, h2]
    have e : shiftJISTransform tbl (ascii "Foo") = ascii "Foo" := by
      have := shiftJISTransform_ascii_append tbl (ascii "Foo") [] (by decide)
      simpa [shiftJISTransform] using this
    simp only [convertText, shiftJisDecoder, e]

/-- Witness of C11: the field "Foo", five null bytes and "garbage", followed by two
more bytes of the stream. -/
theorem decodeString_before_first_null_witness :
    decodeString (shiftJisDecoder [])
        ((ascii "Foo" ++ 0 :: (List.replicate 4 0 ++ ascii "garbage")) ++ [1, 2]) 15
      = (ascii "Foo", none, [1, 2]) :=
  (decodeString_before_first_null (shiftJisDecoder [])
    (ascii "Foo" ++ 0 :: (List.replicate 4 0 ++ ascii "garbage")) [1, 2] 15 (by decide)
    (by decide)).1 (ascii "Foo") (List.replicate 4 0 ++ ascii "garbage") (by decide) rfl

/-- C12. `decodeString(r, n)` consumes by the byte count alone: for `n = 0` it returns
the empty text and nil and leaves the stream untouched; for `n > 0` and a stream of at
least `n` bytes it returns nil and leaves the stream exactly `n` bytes further, wherever
a null byte stands in the field; for `n > 0` and a shorter stream it fails with an
end-of-input error. -/
theorem decodeString_consumption (conv : List Byte → Except GoError (List Byte))
    (r : Reader) (n : Nat) :
    (n = 0 → decodeString conv r n = ([], none, r)) ∧
    (0 < n → n ≤ r.length →
      ∃ s, decodeString conv r n = (s, none, r.drop n) ∧
        (r.drop n).length + n = r.length) ∧
    (0 < n → r.length < n →
      ∃ e, (e = GoError.EOF ∨ e = GoError.ErrUnexpectedEOF) ∧
        decodeString conv r n = ([], some e, [])) := by
  refine ⟨?_, ?_, ?_⟩
  · intro h0
    rw [h0]
    exact decodeString_zero conv r
  · intro _ hlen
    obtain ⟨s, hs⟩ := decodeString_ok conv r n hlen
    exact ⟨s, hs, by rw [List.length_drop]; omega⟩
  · intro _ hlt
    exact decodeString_short conv r n hlt

/-- Witness of C12: a 3-byte field whose first byte is null, read from a 5-byte stream,
and the same read from a 2-byte stream. -/
theorem decodeString_consumption_witness :
    (∃ s, decodeString (shiftJisDecoder []) [0, 65, 66, 7, 8] 3 = (s, none, [7, 8]) ∧
        ([7, 8] : List Byte).length + 3 = 5) ∧
    (∃ e, (e = GoError.EOF ∨ e = GoError.ErrUnexpectedEOF) ∧
        decodeString (shiftJisDecoder []) [0, 65] 3 = ([], some e, [])) :=
  ⟨(decodeString_consumption (shiftJisDecoder []) [0, 65, 66, 7, 8] 3).2.1
      (by decide) (by decide),
    (decodeString_consumption (shiftJisDecoder []) [0, 65] 3).2.2 (by decide) (by decide)⟩

/-! ### The model-name field -/

/-- The header stage on a valid magic block: the version is set and the model field is
read from the byte after the block. -/
theorem decodeHeader_magic (tbl : List UInt16) (vm : VMD) (m pad rest : List Byte) (v : Nat)
    (hm : (m = ascii "Vocaloid Motion Data file" ∧ v = 1) ∨
      (m = ascii "Vocaloid Motion Data 0002" ∧ v = 2))
    (hpad : pad.length = 5) :
    decodeHeader (shiftJisDecoder tbl) vm (m ++ (pad ++ rest))
      = Run.ret (decodeModel (shiftJisDecoder tbl) { vm with Version := v } rest) := by
  have hmlen : m.length = 25 := by
    rcases hm with ⟨rfl, _⟩ | ⟨rfl, _⟩ <;> rfl
  have hnull : ∀ b ∈ m, b ≠ 0 := by
    rcases hm with ⟨rfl, _⟩ | ⟨rfl, _⟩ <;> decide
  have hasc : ∀ b ∈ m, b.toNat < 0x80 := by
    rcases hm with ⟨rfl, _⟩ | ⟨rfl, _⟩ <;> decide
  have h30 : (m ++ pad).length = 30 := by rw [List.length_append, hmlen, hpad]
  have hin : m ++ (pad ++ rest) = (m ++ pad) ++ rest := by rw [List.append_assoc]
  rw [decodeHeader_shiftJis tbl vm _ (by rw [hin, List.length_append, h30]; omega), hin,
    List.take_left' h30, List.drop_left' h30, truncateAtNull_append m pad hnull,
    shiftJISTransform_ascii_append tbl m _ hasc, List.take_left' hmlen,
    if_neg (by rw [List.length_append, hmlen]; omega)]
  rcases hm with ⟨rfl, rfl⟩ | ⟨rfl, rfl⟩
  · rw [if_pos (by decide), if_pos rfl]
  · rw [if_pos (by decide), if_neg (by decide), if_pos rfl]

/-- C13. When the header decoder succeeds, the model-name field it has read is 10 times
the version bytes long: for version 1 it leaves the stream 40 bytes further and the
model is the text of bytes 30..39, for version 2 it leaves the stream 50 bytes further
and the model is the text of bytes 30..49 (the text being the bytes before the first
null byte, converted). On a valid magic block followed by fewer than 10 times the
version bytes it returns the end-of-input error of that read. -/
theorem decodeHeader_model_field :
    (∀ (conv : List Byte → Except GoError (List Byte)) (vm vm1 : VMD) (r r1 : Reader),
      decodeHeader conv vm r = Run.ret (vm1, none, r1) →
      (vm1.Version = 1 ∧ 40 ≤ r.length ∧ r1 = r.drop 40 ∧
        vm1.Model = fieldText conv (fieldAt r 30 10)) ∨
      (vm1.Version = 2 ∧ 50 ≤ r.length ∧ r1 = r.drop 50 ∧
        vm1.Model = fieldText conv (fieldAt r 30 20))) ∧
    (∀ (tbl : List UInt16) (vm : VMD) (m pad rest : List Byte) (v : Nat),
      ((m = ascii "Vocaloid Motion Data file" ∧ v = 1) ∨
        (m = ascii "Vocaloid Motion Data 0002" ∧ v = 2)) →
      pad.length = 5 → rest.length < 10 * v →
      ∃ vm1 e, (e = GoError.EOF ∨ e = GoError.ErrUnexpectedEOF) ∧
        decodeHeader (shiftJisDecoder tbl) vm (m ++ pad ++ rest)
          = Run.ret (vm1, some e, [])) := by
  constructor
  · intro conv vm vm1 r r1 h
    obtain ⟨hv, hlen, hr1, hmodel, _⟩ := decodeHeader_inv conv vm vm1 r r1 h
    rcases hv with hv | hv
    · rw [hv] at hlen hr1 hmodel
      exact Or.inl ⟨hv, hlen, hr1, hmodel⟩
    · rw [hv] at hlen hr1 hmodel
      exact Or.inr ⟨hv, hlen, hr1, hmodel⟩
  · intro tbl vm m pad rest v hm hpad hrest
    rw [List.append_assoc, decodeHeader_magic tbl vm m pad rest v hm hpad]
    obtain ⟨e, he, hs⟩ := decodeString_short (shiftJisDecoder tbl) rest (v * 10) (by omega)
    refine ⟨{ vm with Version := v, Model := [] }, e, he, ?_⟩
    unfold decodeModel
    simp only [hs]

/-- Witness of C13: a version-2 header with the model field "AB" and null bytes, and a
version-1 magic block followed by only 4 bytes. -/
theorem decodeHeader_model_field_witness :
    (((⟨⟨2, ascii "AB"⟩, [], [], [], []⟩ : VMD).Version = 1 ∧
        40 ≤ (ascii "Vocaloid Motion Data 0002" ++ List.replicate 5 0 ++ ascii "AB"
          ++ List.replicate 18 0 ++ [9, 9, 9, 9]).length ∧
        [9, 9, 9, 9] = (ascii "Vocaloid Motion Data 0002" ++ List.replicate 5 0 ++ ascii "AB"
          ++ List.replicate 18 0 ++ [9, 9, 9, 9]).drop 40 ∧
        (⟨⟨2, ascii "AB"⟩, [], [], [], []⟩ : VMD).Model
          = fieldText (shiftJisDecoder []) (fieldAt (ascii "Vocaloid Motion Data 0002" ++ List.replicate 5 0 ++ ascii "AB"
          ++ List.replicate 18 0 ++ [9, 9, 9, 9]) 30 10)) ∨
      ((⟨⟨2, ascii "AB"⟩, [], [], [], []⟩ : VMD).Version = 2 ∧
        50 ≤ (ascii "Vocaloid Motion Data 0002" ++ List.replicate 5 0 ++ ascii "AB"
          ++ List.replicate 18 0 ++ [9, 9, 9, 9]).length ∧
        [9, 9, 9, 9] = (ascii "Vocaloid Motion Data 0002" ++ List.replicate 5 0 ++ ascii "AB"
          ++ List.replicate 18 0 ++ [9, 9, 9, 9]).drop 50 ∧
        (⟨⟨2, ascii "AB"⟩, [], [], [], []⟩ : VMD).Model
          = fieldText (shiftJisDecoder []) (fieldAt (ascii "Vocaloid Motion Data 0002" ++ List.replicate 5 0 ++ ascii "AB"
          ++ List.replicate 18 0 ++ [9, 9, 9, 9]) 30 20))) ∧
    (∃ vm1 e, (e = GoError.EOF ∨ e = GoError.ErrUnexpectedEOF) ∧
      decodeHeader (shiftJisDecoder []) VMD.new
          (ascii "Vocaloid Motion Data file" ++ List.replicate 5 0 ++ [1, 2, 3, 4])
        = Run.ret (vm1, some e, [])) :=
  ⟨decodeHeader_model_field.1 (shiftJisDecoder []) VMD.new ⟨⟨2, ascii "AB"⟩, [], [], [], []⟩
      (ascii "Vocaloid Motion Data 0002" ++ List.replicate 5 0 ++ ascii "AB"
          ++ List.replicate 18 0 ++ [9, 9, 9, 9]) [9, 9, 9, 9] (by decide),
    decodeHeader_model_field.2 [] VMD.new (ascii "Vocaloid Motion Data file")
      (List.replicate 5 0) [1, 2, 3, 4] 1 (Or.inl ⟨rfl, rfl⟩) (by decide) (by decide)⟩

/-- C17. For `n > 0` and a stream of at least `n` bytes, `decodeString` returns nil
whatever the conversion does; when the conversion of the null-truncated bytes reports
an error, the text is those bytes unchanged. Hence, for every converter, a bone or
morph record present in full and a model field present in full decode without error. -/
theorem decodeString_conversion_fallback (conv : List Byte → Except GoError (List Byte))
    (r : Reader) (n : Nat) (hn : 0 < n) (hlen : n ≤ r.length) :
    (decodeString conv r n).2.1 = none ∧
    (∀ e, conv (truncateAtNull (r.take n)) = Except.error e →
      decodeString conv r n = (truncateAtNull (r.take n), none, r.drop n)) ∧
    (∀ f : BoneFrame, 111 ≤ r.length → (decodeBoneFrame conv f r).2.1 = none) ∧
    (∀ f : MorphFrame, 23 ≤ r.length → (decodeMorphFrame conv f r).2.1 = none) ∧
    (∀ vm : VMD, vm.Version * 10 ≤ r.length → (decodeModel conv vm r).2.1 = none) := by
  refine ⟨?_, ?_, ?_, ?_, ?_⟩
  · obtain ⟨s, hs⟩ := decodeString_ok conv r n hlen
    rw [hs]
  · intro e he
    unfold decodeString
    rw [if_neg (by omega), ReadFull_ok r n hlen]
    simp only [he]
  · intro f h
    rw [decodeBoneFrame_eq conv f r h]
  · intro f h
    rw [decodeMorphFrame_eq conv f r h]
  · intro vm h
    obtain ⟨s, hs⟩ := decodeString_ok conv r (vm.Version * 10) h
    unfold decodeModel
    rw [hs]

/-- Witness of C17: a converter that rejects every input, on the 3-byte field
0x82 0x41 0x00; the text is the two bytes before the null byte. -/
theorem decodeString_conversion_fallback_witness :
    decodeString (fun _ => Except.error (errorsNew "invalid")) [0x82, 0x41, 0, 7] 3
      = ([0x82, 0x41], none, [7]) :=
  (decodeString_conversion_fallback (fun _ => Except.error (errorsNew "invalid"))
    [0x82, 0x41, 0, 7] 3 (by decide) (by decide)).2.1 (errorsNew "invalid") rfl

/-! ### Layout of a stream that decodes -/

/-- C18. When `Decode` succeeds, the bytes it has consumed are the 30-byte block, the
model field of 10 times the version bytes, and four sections back to back in the order
bone, morph, camera, light, each a 4-byte count followed by records of 111, 23, 61 and
28 bytes; the counts, read at the start of each section, are the lengths of the
decoded sequences, and what is left of the stream starts right after the last light
record. -/
theorem Decode_bytes_consumed (conv : List Byte → Except GoError (List Byte)) (r : Reader)
    (d : VMD) (rest : Reader) (h : Decode conv r = Run.ret (some d, none, rest)) :
    r.length = 30 + 10 * d.Version + 4 + 111 * d.BoneFrames.length
        + 4 + 23 * d.MorphFrames.length + 4 + 61 * d.CameraFrames.length
        + 4 + 28 * d.LightFrames.length + rest.length ∧
    rest = r.drop (30 + 10 * d.Version + 4 + 111 * d.BoneFrames.length
        + 4 + 23 * d.MorphFrames.length + 4 + 61 * d.CameraFrames.length
        + 4 + 28 * d.LightFrames.length) ∧
    d.BoneFrames.length = le32 (fieldAt r (30 + 10 * d.Version) 4) ∧
    d.MorphFrames.length
      = le32 (fieldAt r (30 + 10 * d.Version + 4 + 111 * d.BoneFrames.length) 4) ∧
    d.CameraFrames.length
      = le32 (fieldAt r (30 + 10 * d.Version + 4 + 111 * d.BoneFrames.length
          + 4 + 23 * d.MorphFrames.length) 4) ∧
    d.LightFrames.length
      = le32 (fieldAt r (30 + 10 * d.Version + 4 + 111 * d.BoneFrames.length
          + 4 + 23 * d.MorphFrames.length + 4 + 61 * d.CameraFrames.length) 4) := by
  obtain ⟨r1, r2, r3, r4, _, hlen, hr1, _, _, _, ⟨lb, hr2, nb, _⟩, ⟨lm, hr3, nm, _⟩,
    ⟨lc, hr4, nc, _⟩, ⟨ll, hr5, nl, _⟩⟩ := Decode_ok_layout conv r d rest h
  rw [Uint32_eq_le32] at nb nm nc nl
  subst hr1
  rw [List.drop_drop] at hr2
  subst hr2
  rw [List.drop_drop] at hr3
  subst hr3
  rw [List.drop_drop] at hr4
  subst hr4
  rw [List.drop_drop] at hr5
  subst hr5
  simp only [List.length_drop] at lb lm lc ll ⊢
  refine ⟨by omega, ?_, ?_, ?_, ?_, ?_⟩
  · congr 1
    omega
  · rw [nb]; rfl
  · rw [nm]; unfold fieldAt; congr 2; congr 1; omega
  · rw [nc]; unfold fieldAt; congr 2; congr 1; omega
  · rw [nl]; unfold fieldAt; congr 2; congr 1; omega

set_option maxRecDepth 8000 in
/-- Witness of C18: a version-1 header, one bone record, two morph records, no camera
and light records, and three bytes that are left. -/
theorem Decode_bytes_consumed_witness :
    ∃ d, Decode (shiftJisDecoder [])
        (ascii "Vocaloid Motion Data file" ++ List.replicate 15 0 ++ [1, 0, 0, 0]
          ++ List.replicate 111 0 ++ [2, 0, 0, 0] ++ List.replicate 46 0
          ++ List.replicate 8 0 ++ [5, 6, 7]) = Run.ret (some d, none, [5, 6, 7]) ∧
      (ascii "Vocaloid Motion Data file" ++ List.replicate 15 0 ++ [1, 0, 0, 0]
          ++ List.replicate 111 0 ++ [2, 0, 0, 0] ++ List.replicate 46 0
          ++ List.replicate 8 0 ++ [5, 6, 7]).length
        = 30 + 10 * d.Version + 4 + 111 * d.BoneFrames.length
          + 4 + 23 * d.MorphFrames.length + 4 + 61 * d.CameraFrames.length
          + 4 + 28 * d.LightFrames.length + ([5, 6, 7] : List Byte).length :=
  ⟨⟨⟨1, []⟩, List.replicate 1 (specBoneFrame (shiftJisDecoder []) (List.replicate 111 0)),
      List.replicate 2 (specMorphFrame (shiftJisDecoder []) (List.replicate 23 0)), [], []⟩,
    by decide,
    (Decode_bytes_consumed (shiftJisDecoder []) _ _ [5, 6, 7] (by decide)).1⟩

theorem float32Array_eq_map (k : Nat) (bs : List Byte) :
    float32Array k bs = (le32s k bs).map float32RoundTrip := by
  unfold float32Array
  rw [words32_eq_le32s]

set_option maxRecDepth 8000 in
/-- Counterexample to C15 as stated: in a bone record whose bytes 19..22 are
01 00 80 7F (a signalling NaN), the first element of the decoded translation has the
bit pattern 0x7FC00001, not the 0x7F800001 of those bytes. -/
theorem Decode_bone_frame_layout_counterexample :
    Decode (shiftJisDecoder []) (ascii "Vocaloid Motion Data file" ++ List.replicate 15 0 ++ [1, 0, 0, 0]
          ++ (List.replicate 19 0 ++ [1, 0, 0x80, 0x7F] ++ List.replicate 88 0)
          ++ List.replicate 12 0)
      = Run.ret (some ⟨⟨1, []⟩,
          [⟨[], 0, [0x7FC00001, 0, 0], [0, 0, 0, 0], List.replicate 16 0, List.replicate 16 0,
            List.replicate 16 0, List.replicate 16 0⟩], [], [], []⟩, none, []) ∧
    le32s 3 (fieldAt (fieldAt (ascii "Vocaloid Motion Data file" ++ List.replicate 15 0 ++ [1, 0, 0, 0]
          ++ (List.replicate 19 0 ++ [1, 0, 0x80, 0x7F] ++ List.replicate 88 0)
          ++ List.replicate 12 0) (30 + 10 * 1 + 4 + 111 * 0) 111) 19 12) = [0x7F800001, 0, 0] ∧
    ([0x7FC00001, 0, 0] : List Nat) ≠ [0x7F800001, 0, 0] ∧
    (⟨[], 0, [0x7FC00001, 0, 0], [0, 0, 0, 0], List.replicate 16 0, List.replicate 16 0,
        List.replicate 16 0, List.replicate 16 0⟩ : BoneFrame)
      ≠ specBoneFrame (shiftJisDecoder [])
          (List.replicate 19 0 ++ [1, 0, 0x80, 0x7F] ++ List.replicate 88 0) := by
  decide

/-- C15, amended. When `Decode` succeeds, bone frame `i` (for every `i` below the bone
count) is decoded from the `i`-th consecutive 111-byte record after the bone count,
with the fixed layout: the name is the text of record bytes 0..14, the time the
little-endian value of bytes 15..18, the translation the three float32 values of bytes
19..30 and the quaternion the four float32 values of bytes 31..46, each the
little-endian 32-bit word through the `float64` round trip (a NaN is stored with its
quiet bit set, every other word keeps its bits), and the four curves are bytes 47..62,
63..78, 79..94 and 95..110, byte for byte. -/
theorem Decode_bone_frame_layout (conv : List Byte → Except GoError (List Byte))
    (r : Reader) (d : VMD) (rest : Reader)
    (h : Decode conv r = Run.ret (some d, none, rest)) (i : Nat)
    (hi : i < d.BoneFrames.length) :
    ∃ g record,
      record = fieldAt r (30 + 10 * d.Version + 4 + 111 * i) 111 ∧ record.length = 111 ∧
      d.BoneFrames.get? i = some g ∧
      g.Bone = fieldText conv (fieldAt record 0 15) ∧
      g.Time = le32 (fieldAt record 15 4) ∧
      g.Translate = (le32s 3 (fieldAt record 19 12)).map float32RoundTrip ∧
      g.RotateQuat = (le32s 4 (fieldAt record 31 16)).map float32RoundTrip ∧
      g.XCurve = fieldAt record 47 16 ∧ g.YCurve = fieldAt record 63 16 ∧
      g.ZCurve = fieldAt record 79 16 ∧ g.RCurve = fieldAt record 95 16 := by
  obtain ⟨r1, r2, r3, r4, _, hlen, hr1, _, _, _, ⟨lb, _, _, hB⟩, _⟩ :=
    Decode_ok_layout conv r d rest h
  subst hr1
  have hrec : fieldAt ((r.drop (30 + 10 * d.Version)).drop 4) (111 * i) 111
      = fieldAt r (30 + 10 * d.Version + 4 + 111 * i) 111 := by
    unfold fieldAt
    rw [List.drop_drop, List.drop_drop]
    congr 2
    omega
  have hget := specFrames_get? (boneRecord conv) 111 d.BoneFrames.length
    ((r.drop (30 + 10 * d.Version)).drop 4) i hi
  rw [← hB, hrec] at hget
  refine ⟨_, _, rfl, ?_, hget, rfl, rfl, float32Array_eq_map _ _, float32Array_eq_map _ _,
    rfl, rfl, rfl, rfl⟩
  unfold fieldAt
  rw [List.length_take, List.length_drop]
  rw [List.length_drop] at lb
  have : 111 * (i + 1) ≤ 111 * d.BoneFrames.length := Nat.mul_le_mul_left 111 hi
  omega

set_option maxRecDepth 8000 in
/-- Witness of the amended C15: one bone record with the name "arm", time 5, float
bytes 1 and curve bytes 9. -/
theorem Decode_bone_frame_layout_witness :
    ∃ g record,
      record = fieldAt (ascii "Vocaloid Motion Data file" ++ List.replicate 15 0
          ++ [1, 0, 0, 0] ++ (ascii "arm" ++ List.replicate 12 0 ++ [5, 0, 0, 0]
          ++ List.replicate 28 1 ++ List.replicate 64 9) ++ List.replicate 12 0)
        (30 + 10 * 1 + 4 + 111 * 0) 111 ∧ record.length = 111 ∧
      [boneRecord (shiftJisDecoder []) (ascii "arm" ++ List.replicate 12 0 ++ [5, 0, 0, 0]
          ++ List.replicate 28 1 ++ List.replicate 64 9)].get? 0 = some g ∧
      g.Bone = fieldText (shiftJisDecoder []) (fieldAt record 0 15) ∧
      g.Time = le32 (fieldAt record 15 4) ∧
      g.Translate = (le32s 3 (fieldAt record 19 12)).map float32RoundTrip ∧
      g.RotateQuat = (le32s 4 (fieldAt record 31 16)).map float32RoundTrip ∧
      g.XCurve = fieldAt record 47 16 ∧ g.YCurve = fieldAt record 63 16 ∧
      g.ZCurve = fieldAt record 79 16 ∧ g.RCurve = fieldAt record 95 16 :=
  Decode_bone_frame_layout (shiftJisDecoder [])
    (ascii "Vocaloid Motion Data file" ++ List.replicate 15 0
      ++ [1, 0, 0, 0] ++ (ascii "arm" ++ List.replicate 12 0 ++ [5, 0, 0, 0]
      ++ List.replicate 28 1 ++ List.replicate 64 9) ++ List.replicate 12 0)
    ⟨⟨1, []⟩, [boneRecord (shiftJisDecoder []) (ascii "arm" ++ List.replicate 12 0
      ++ [5, 0, 0, 0] ++ List.replicate 28 1 ++ List.replicate 64 9)], [], [], []⟩
    [] (by decide) 0 (by decide)

/-- C19. With the Shift-JIS decoder (its table without ASCII entry), when `Decode`
succeeds with version 1 the raw bytes 0-24 of the stream are exactly
"Vocaloid Motion Data file", and with version 2 they are exactly
"Vocaloid Motion Data 0002": a stream that decodes starts with one of the two magic
strings, and no other 25 bytes become a magic string by null-truncation or
conversion. -/
theorem Decode_version_exact_magic (tbl : List UInt16)
    (htbl : ∀ x ∈ tbl, x.toNat = 0 ∨ 0x80 ≤ x.toNat) (r : Reader) (d : VMD) (rest : Reader)
    (h : Decode (shiftJisDecoder tbl) r = Run.ret (some d, none, rest)) :
    (d.Version = 1 → r.take 25 = ascii "Vocaloid Motion Data file") ∧
    (d.Version = 2 → r.take 25 = ascii "Vocaloid Motion Data 0002") ∧
    (r.take 25 = ascii "Vocaloid Motion Data file" ∨
      r.take 25 = ascii "Vocaloid Motion Data 0002") := by
  obtain ⟨_, _, _, _, hv, _, _, _, hm1, hm2, _⟩ :=
    Decode_ok_layout (shiftJisDecoder tbl) r d rest h
  have hft : fieldText (shiftJisDecoder tbl) (r.take 30)
      = shiftJISTransform tbl (truncateAtNull (r.take 30)) := by
    rw [truncateAtNull_eq_takeWhile]
    rfl
  rw [hft] at hm1 hm2
  have key : ∀ m : List Byte, m.length = 25 → (∀ b ∈ m, b.toNat < 0x80) →
      (shiftJISTransform tbl (truncateAtNull (r.take 30))).take 25 = m → r.take 25 = m := by
    intro m hml hma hm
    have hk : 25 ≤ (shiftJISTransform tbl (truncateAtNull (r.take 30))).length := by
      have := congrArg List.length hm
      rw [List.length_take, hml] at this
      omega
    rw [take_eq_of_ascii_text tbl htbl r 30 25 hk (by rw [hm]; exact hma), hm]
  have g1 : d.Version = 1 → r.take 25 = ascii "Vocaloid Motion Data file" :=
    fun hv1 => key _ (by decide) (by decide) (hm1 hv1)
  have g2 : d.Version = 2 → r.take 25 = ascii "Vocaloid Motion Data 0002" :=
    fun hv2 => key _ (by decide) (by decide) (hm2 hv2)
  exact ⟨g1, g2, hv.imp g1 g2⟩

/-- Witness of C19: the smallest version-2 stream, magic string and 41 null bytes. -/
theorem Decode_version_exact_magic_witness :
    (ascii "Vocaloid Motion Data 0002" ++ List.replicate 41 0).take 25
      = ascii "Vocaloid Motion Data 0002" :=
  (Decode_version_exact_magic [] (by simp)
    (ascii "Vocaloid Motion Data 0002" ++ List.replicate 41 0) ⟨⟨2, []⟩, [], [], [], []⟩ []
    (by decide)).2.1 rfl

theorem fieldAt_take_self (r : List Byte) (n off len : Nat) (h : off + len ≤ n) :
    fieldAt (r.take n) off len = fieldAt r off len :=
  fieldAt_take r n off len h

/-- Counterexample to C16 as stated: in a light record whose bytes 4..7 are
01 00 80 7F, the little-endian combination of those bytes is 0x7F800001 (a signalling
NaN), and the first element of the decoded color has the bit pattern 0x7FC00001. -/
theorem little_endian_fields_counterexample :
    (decodeLightFrame LightFrame.zero
        ([0, 0, 0, 0] ++ [1, 0, 0x80, 0x7F] ++ List.replicate 20 0)).1.Color
      = [0x7FC00001, 0, 0] ∧
    le32 [1, 0, 0x80, 0x7F] = 0x7F800001 ∧
    le32s 3 (fieldAt ([0, 0, 0, 0] ++ [1, 0, 0x80, 0x7F] ++ List.replicate 20 0) 4 12)
      = [0x7F800001, 0, 0] ∧
    (decodeLightFrame LightFrame.zero
        ([0, 0, 0, 0] ++ [1, 0, 0x80, 0x7F] ++ List.replicate 20 0)).1.Color
      ≠ le32s 3 (fieldAt ([0, 0, 0, 0] ++ [1, 0, 0x80, 0x7F] ++ List.replicate 20 0) 4 12) ∧
    (decodeLightFrame LightFrame.zero
        ([0, 0, 0, 0] ++ [1, 0, 0x80, 0x7F] ++ List.replicate 20 0)).1
      ≠ specLightFrame ([0, 0, 0, 0] ++ [1, 0, 0x80, 0x7F] ++ List.replicate 20 0) := by
  decide

/-- C16, amended. Every 32-bit field is read little-endian. The function that decodes
four bytes gives `b0 + 256*b1 + 65536*b2 + 16777216*b3` for the bytes in stream order.
The count of each of the four frame-array decoders is that value of the first four
bytes of its section; in a record the time and every scalar float field (weight,
distance, view angle; kept as bit patterns) are that value of the four bytes at the
field's offset. Every element of a float array (translate, quaternion, rotation, color,
direction) is that value through the `float64` round trip: unchanged unless it is a
NaN pattern, which is stored with its quiet bit 0x00400000 set. -/
theorem little_endian_fields :
    (∀ b0 b1 b2 b3 : Byte,
      Uint32 [b0, b1, b2, b3]
        = b0.toNat + 256 * b1.toNat + 65536 * b2.toNat + 16777216 * b3.toNat) ∧
    (∀ (b0 b1 b2 b3 : Byte) (rest : List Byte),
      readUint32 (b0 :: b1 :: b2 :: b3 :: rest)
        = (Except.ok (b0.toNat + 256 * b1.toNat + 65536 * b2.toNat + 16777216 * b3.toNat),
            rest)) ∧
    (∀ (k : Nat) (b0 b1 b2 b3 : Byte) (bs : List Byte),
      float32Array (k + 1) (b0 :: b1 :: b2 :: b3 :: bs)
        = float32RoundTrip
            (b0.toNat + 256 * b1.toNat + 65536 * b2.toNat + 16777216 * b3.toNat)
            :: float32Array k bs) ∧
    (∀ u : Nat, (u / 0x800000 % 0x100 ≠ 0xFF ∨ u % 0x800000 = 0) → float32RoundTrip u = u) ∧
    (∀ u : Nat, u / 0x800000 % 0x100 = 0xFF → u % 0x800000 ≠ 0 →
      float32RoundTrip u = u ||| 0x400000) ∧
    (∀ (conv : List Byte → Except GoError (List Byte)) (vm : VMD) (r : Reader),
      4 ≤ r.length → 0 < le32 (r.take 4) →
      (111 * le32 (r.take 4) ≤ (r.drop 4).length →
        (decodeBoneFrames conv vm r).1.BoneFrames.length = le32 (r.take 4)) ∧
      (23 * le32 (r.take 4) ≤ (r.drop 4).length →
        (decodeMorphFrames conv vm r).1.MorphFrames.length = le32 (r.take 4)) ∧
      (61 * le32 (r.take 4) ≤ (r.drop 4).length →
        (decodeCameraFrames vm r).1.CameraFrames.length = le32 (r.take 4)) ∧
      (28 * le32 (r.take 4) ≤ (r.drop 4).length →
        (decodeLightFrames vm r).1.LightFrames.length = le32 (r.take 4))) ∧
    (∀ (conv : List Byte → Except GoError (List Byte)) (f : BoneFrame) (r : Reader),
      111 ≤ r.length →
      (decodeBoneFrame conv f r).1.Time = le32 (fieldAt r 15 4) ∧
      (decodeBoneFrame conv f r).1.Translate
        = (le32s 3 (fieldAt r 19 12)).map float32RoundTrip ∧
      (decodeBoneFrame conv f r).1.RotateQuat
        = (le32s 4 (fieldAt r 31 16)).map float32RoundTrip) ∧
    (∀ (conv : List Byte → Except GoError (List Byte)) (f : MorphFrame) (r : Reader),
      23 ≤ r.length →
      (decodeMorphFrame conv f r).1.Time = le32 (fieldAt r 15 4) ∧
      (decodeMorphFrame conv f r).1.Weight = le32 (fieldAt r 19 4)) ∧
    (∀ (f : CameraFrame) (r : Reader), 61 ≤ r.length →
      (decodeCameraFrame f r).1.Time = le32 (fieldAt r 0 4) ∧
      (decodeCameraFrame f r).1.Distance = le32 (fieldAt r 4 4) ∧
      (decodeCameraFrame f r).1.Translate
        = (le32s 3 (fieldAt r 8 12)).map float32RoundTrip ∧
      (decodeCameraFrame f r).1.RotateXyz
        = (le32s 3 (fieldAt r 20 12)).map float32RoundTrip ∧
      (decodeCameraFrame f r).1.ViewAngle = le32 (fieldAt r 56 4)) ∧
    (∀ (f : LightFrame) (r : Reader), 28 ≤ r.length →
      (decodeLightFrame f r).1.Time = le32 (fieldAt r 0 4) ∧
      (decodeLightFrame f r).1.Color = (le32s 3 (fieldAt r 4 12)).map float32RoundTrip ∧
      (decodeLightFrame f r).1.Direction
        = (le32s 3 (fieldAt r 16 12)).map float32RoundTrip) := by
  refine ⟨Uint32_four, ?_, ?_, ?_, ?_, ?_, ?_, ?_, ?_, ?_⟩
  · intro b0 b1 b2 b3 rest
    have h := readUint32_append [b0, b1, b2, b3] rest rfl
    rw [Uint32_four] at h
    exact h
  · intro k b0 b1 b2 b3 bs
    unfold float32Array
    rw [words32]
    simp only [List.take_succ_cons, List.take_zero, List.drop_succ_cons, List.drop_zero,
      List.map_cons]
    rw [Uint32_four]
  · intro u hu
    unfold float32RoundTrip
    rw [if_neg]
    intro hc
    rcases hu with h1 | h2
    · exact h1 hc.1
    · exact hc.2 h2
  · intro u h1 h2
    unfold float32RoundTrip
    rw [if_pos ⟨h1, h2⟩]
  · intro conv vm r h4 hpos
    rw [← Uint32_eq_le32] at hpos ⊢
    refine ⟨?_, ?_, ?_, ?_⟩
    · intro hrec
      rw [decodeBoneFrames_eq conv vm r h4 hrec]
      simp only [hpos, if_true, specFrames_length]
    · intro hrec
      rw [decodeMorphFrames_eq conv vm r h4 hrec]
      simp only [hpos, if_true, specFrames_length]
    · intro hrec
      rw [decodeCameraFrames_eq vm r h4 hrec]
      simp only [hpos, if_true, specFrames_length]
    · intro hrec
      rw [decodeLightFrames_eq vm r h4 hrec]
      simp only [hpos, if_true, specFrames_length]
  · intro conv f r h
    rw [decodeBoneFrame_eq conv f r h]
    simp only [boneRecord]
    rw [fieldAt_take_self r 111 15 4 (by decide), fieldAt_take_self r 111 19 12 (by decide),
      fieldAt_take_self r 111 31 16 (by decide)]
    exact ⟨rfl, float32Array_eq_map _ _, float32Array_eq_map _ _⟩
  · intro conv f r h
    rw [decodeMorphFrame_eq conv f r h]
    simp only [specMorphFrame]
    rw [fieldAt_take_self r 23 15 4 (by decide), fieldAt_take_self r 23 19 4 (by decide)]
    exact ⟨rfl, rfl⟩
  · intro f r h
    rw [decodeCameraFrame_eq f r h]
    simp only [cameraRecord]
    rw [fieldAt_take_self r 61 0 4 (by decide), fieldAt_take_self r 61 4 4 (by decide),
      fieldAt_take_self r 61 8 12 (by decide), fieldAt_take_self r 61 20 12 (by decide),
      fieldAt_take_self r 61 56 4 (by decide)]
    exact ⟨rfl, rfl, float32Array_eq_map _ _, float32Array_eq_map _ _, rfl⟩
  · intro f r h
    rw [decodeLightFrame_eq f r h]
    simp only [lightRecord]
    rw [fieldAt_take_self r 28 0 4 (by decide), fieldAt_take_self r 28 4 12 (by decide),
      fieldAt_take_self r 28 16 12 (by decide)]
    exact ⟨rfl, float32Array_eq_map _ _, float32Array_eq_map _ _⟩

/-- Witness of the amended C16: a light section with the count bytes 2 0 0 0 and two
records; the first record starts with the time bytes 1 2 0 0, that is 513. -/
theorem little_endian_fields_witness :
    (decodeLightFrames VMD.new
        ([2, 0, 0, 0] ++ ([1, 2, 0, 0] ++ List.replicate 52 0))).1.LightFrames.length = 2 ∧
    (decodeLightFrame LightFrame.zero ([1, 2, 0, 0] ++ List.replicate 52 0)).1.Time = 513 :=
  ⟨(little_endian_fields.2.2.2.2.2.1 (shiftJisDecoder []) VMD.new
      ([2, 0, 0, 0] ++ ([1, 2, 0, 0] ++ List.replicate 52 0)) (by decide) (by decide)).2.2.2
      (by decide),
    (little_endian_fields.2.2.2.2.2.2.2.2.2 LightFrame.zero
      ([1, 2, 0, 0] ++ List.replicate 52 0) (by decide)).1⟩

/-! ### Bytes after the last section -/

theorem decodeString_append (conv : List Byte → Except GoError (List Byte)) (r y : Reader)
    (n : Nat) (s : List Byte) (r1 : Reader) (h : decodeString conv r n = (s, none, r1)) :
    decodeString conv (r ++ y) n = (s, none, r1 ++ y) := by
  by_cases hn : n = 0
  · subst hn
    rw [decodeString_zero] at h ⊢
    simp only [Prod.mk.injEq, true_and] at h
    rw [← h.1, ← h.2]
  · by_cases hl : n ≤ r.length
    · rw [decodeString_eq conv r n hn hl] at h
      rw [decodeString_eq conv (r ++ y) n hn (by rw [List.length_append]; omega),
        List.take_append_of_le_length hl, List.drop_append_of_le_length hl]
      simp only [Prod.mk.injEq, true_and] at h
      rw [← h.1, ← h.2]
    · obtain ⟨e, _, he⟩ := decodeString_short conv r n (by omega)
      rw [he] at h
      simp at h

theorem decodeModel_append (conv : List Byte → Except GoError (List Byte)) (vm vm1 : VMD)
    (r y r1 : Reader) (h : decodeModel conv vm r = (vm1, none, r1)) :
    decodeModel conv vm (r ++ y) = (vm1, none, r1 ++ y) := by
  unfold decodeModel at h ⊢
  cases hds : decodeString conv r (vm.Version * 10) with
  | mk s p =>
    cases p with
    | mk e r2 =>
      rw [hds] at h
      simp only [Prod.mk.injEq] at h
      obtain ⟨h1, h2, h3⟩ := h
      subst h2
      rw [decodeString_append conv r y _ s r2 hds]
      simp only [h1, h3]

theorem decodeHeader_append (conv : List Byte → Except GoError (List Byte)) (vm vm1 : VMD)
    (r y r1 : Reader) (h : decodeHeader conv vm r = Run.ret (vm1, none, r1)) :
    decodeHeader conv vm (r ++ y) = Run.ret (vm1, none, r1 ++ y) := by
  have h30 : 30 ≤ r.length := by
    have := (decodeHeader_inv conv vm vm1 r r1 h).2.1
    omega
  unfold decodeHeader at h ⊢
  rw [decodeString_eq conv r 30 (by decide) h30] at h
  rw [decodeString_eq conv (r ++ y) 30 (by decide) (by rw [List.length_append]; omega),
    List.take_append_of_le_length h30, List.drop_append_of_le_length h30]
  simp only at h ⊢
  split at h
  · simp at h
  · rename_i hlen
    rw [if_neg hlen]
    split at h
    · rename_i hpre
      rw [if_pos hpre]
      split at h
      · rename_i hm
        rw [if_pos hm]
        simp only [Run.ret.injEq] at h
        rw [decodeModel_append conv _ vm1 _ y r1 h]
      · rename_i hm
        rw [if_neg hm]
        split at h
        · rename_i hm2
          rw [if_pos hm2]
          simp only [Run.ret.injEq] at h
          rw [decodeModel_append conv _ vm1 _ y r1 h]
        · simp at h
    · simp at h

theorem decodeBoneFrames_append (conv : List Byte → Except GoError (List Byte)) (vm vm1 : VMD)
    (r y r1 : Reader) (h : decodeBoneFrames conv vm r = (vm1, none, r1)) :
    decodeBoneFrames conv vm (r ++ y) = (vm1, none, r1 ++ y) := by
  obtain ⟨h4, hrec⟩ := decodeBoneFrames_inv conv vm vm1 r r1 h
  rw [decodeBoneFrames_eq conv vm r h4 hrec] at h
  have ht : (r ++ y).take 4 = r.take 4 := List.take_append_of_le_length h4
  have hd : (r ++ y).drop 4 = r.drop 4 ++ y := List.drop_append_of_le_length h4
  rw [List.length_drop] at hrec
  rw [decodeBoneFrames_eq conv vm (r ++ y) (by rw [List.length_append]; omega)
    (by rw [ht, hd, List.length_append, List.length_drop]; omega), ht, hd,
    specFrames_append _ _ _ _ y (by rw [List.length_drop]; omega),
    List.drop_append_of_le_length (by omega)]
  simp only [Prod.mk.injEq, true_and] at h
  rw [← h.1, ← h.2]

theorem decodeMorphFrames_append (conv : List Byte → Except GoError (List Byte)) (vm vm1 : VMD)
    (r y r1 : Reader) (h : decodeMorphFrames conv vm r = (vm1, none, r1)) :
    decodeMorphFrames conv vm (r ++ y) = (vm1, none, r1 ++ y) := by
  obtain ⟨h4, hrec⟩ := decodeMorphFrames_inv conv vm vm1 r r1 h
  rw [decodeMorphFrames_eq conv vm r h4 hrec] at h
  have ht : (r ++ y).take 4 = r.take 4 := List.take_append_of_le_length h4
  have hd : (r ++ y).drop 4 = r.drop 4 ++ y := List.drop_append_of_le_length h4
  rw [List.length_drop] at hrec
  rw [decodeMorphFrames_eq conv vm (r ++ y) (by rw [List.length_append]; omega)
    (by rw [ht, hd, List.length_append, List.length_drop]; omega), ht, hd,
    specFrames_append _ _ _ _ y (by rw [List.length_drop]; omega),
    List.drop_append_of_le_length (by omega)]
  simp only [Prod.mk.injEq, true_and] at h
  rw [← h.1, ← h.2]

theorem decodeCameraFrames_append (vm vm1 : VMD)
    (r y r1 : Reader) (h : decodeCameraFrames vm r = (vm1, none, r1)) :
    decodeCameraFrames vm (r ++ y) = (vm1, none, r1 ++ y) := by
  obtain ⟨h4, hrec⟩ := decodeCameraFrames_inv vm vm1 r r1 h
  rw [decodeCameraFrames_eq vm r h4 hrec] at h
  have ht : (r ++ y).take 4 = r.take 4 := List.take_append_of_le_length h4
  have hd : (r ++ y).drop 4 = r.drop 4 ++ y := List.drop_append_of_le_length h4
  rw [List.length_drop] at hrec
  rw [decodeCameraFrames_eq vm (r ++ y) (by rw [List.length_append]; omega)
    (by rw [ht, hd, List.length_append, List.length_drop]; omega), ht, hd,
    specFrames_append _ _ _ _ y (by rw [List.length_drop]; omega),
    List.drop_append_of_le_length (by omega)]
  simp only [Prod.mk.injEq, true_and] at h
  rw [← h.1, ← h.2]

theorem decodeLightFrames_append (vm vm1 : VMD)
    (r y r1 : Reader) (h : decodeLightFrames vm r = (vm1, none, r1)) :
    decodeLightFrames vm (r ++ y) = (vm1, none, r1 ++ y) := by
  obtain ⟨h4, hrec⟩ := decodeLightFrames_inv vm vm1 r r1 h
  rw [decodeLightFrames_eq vm r h4 hrec] at h
  have ht : (r ++ y).take 4 = r.take 4 := List.take_append_of_le_length h4
  have hd : (r ++ y).drop 4 = r.drop 4 ++ y := List.drop_append_of_le_length h4
  rw [List.length_drop] at hrec
  rw [decodeLightFrames_eq vm (r ++ y) (by rw [List.length_append]; omega)
    (by rw [ht, hd, List.length_append, List.length_drop]; omega), ht, hd,
    specFrames_append _ _ _ _ y (by rw [List.length_drop]; omega),
    List.drop_append_of_le_length (by omega)]
  simp only [Prod.mk.injEq, true_and] at h
  rw [← h.1, ← h.2]

/-- C20. When `Decode` succeeds on a stream `x`, it succeeds on `x` followed by any
bytes `y` with the same document, and leaves all of `y` unread (after what it left of
`x`). -/
theorem Decode_ignores_trailing_bytes (conv : List Byte → Except GoError (List Byte))
    (x y : List Byte) (d : VMD) (rest : Reader)
    (h : Decode conv x = Run.ret (some d, none, rest)) :
    Decode conv (x ++ y) = Run.ret (some d, none, rest ++ y) := by
  obtain ⟨vm1, r1, vm2, r2, vm3, r3, vm4, r4, h1, h2, h3, h4, h5⟩ :=
    Decode_ok_inv conv x d rest h
  unfold Decode
  rw [decodeHeader_append conv VMD.new vm1 x y r1 h1]
  simp only
  rw [decodeBoneFrames_append conv vm1 vm2 r1 y r2 h2]
  simp only
  rw [decodeMorphFrames_append conv vm2 vm3 r2 y r3 h3]
  simp only
  rw [decodeCameraFrames_append vm3 vm4 r3 y r4 h4]
  simp only
  rw [decodeLightFrames_append vm4 d r4 y rest h5]
  simp only [returns_none]

/-- Witness of C20: the smallest version-1 stream followed by three bytes. -/
theorem Decode_ignores_trailing_bytes_witness :
    Decode (shiftJisDecoder [])
        ((ascii "Vocaloid Motion Data file" ++ List.replicate 31 0) ++ [1, 2, 3])
      = Run.ret (some ⟨⟨1, []⟩, [], [], [], []⟩, none, [] ++ [1, 2, 3]) :=
  Decode_ignores_trailing_bytes (shiftJisDecoder [])
    (ascii "Vocaloid Motion Data file" ++ List.replicate 31 0) [1, 2, 3]
    ⟨⟨1, []⟩, [], [], [], []⟩ [] (by decide)

/-! ### The padding bytes of the magic block -/

theorem EncodeRune_length_pos (r : Nat) : 1 ≤ (EncodeRune r).length := by
  unfold EncodeRune
  repeat' split
  all_goals simp

theorem EncodeRune_length_two (r : Nat) (h : 0x80 ≤ r) : 2 ≤ (EncodeRune r).length := by
  unfold EncodeRune
  rw [if_neg (by omega)]
  repeat' split
  all_goals simp

/-- The converted text is at least as long as its source. -/
theorem shiftJISTransform_length_ge (tbl : List UInt16)
    (htbl : ∀ x ∈ tbl, x.toNat = 0 ∨ 0x80 ≤ x.toNat) :
    ∀ (n : Nat) (s : List Byte), s.length ≤ n → s.length ≤ (shiftJISTransform tbl s).length := by
  intro n
  induction n with
  | zero =>
    intro s hs
    have : s = [] := List.eq_nil_of_length_eq_zero (by omega)
    subst this
    simp
  | succ n ih =>
    intro s hs
    match s, hs with
    | [], _ => simp
    | [b], _ =>
      rw [shiftJISTransform]
      exact EncodeRune_length_pos _
    | b0 :: b1 :: rest, hs =>
      simp only [List.length_cons] at hs
      have ih1 := ih (b1 :: rest) (by simp only [List.length_cons]; omega)
      have ih2 := ih rest (by omega)
      simp only [List.length_cons] at ih1
      rw [shiftJISTransform]
      split
      · split
        · have := EncodeRune_length_pos (sjisDouble tbl b0.toNat b1.toNat).1
          simp only [List.length_append, List.length_cons]
          omega
        · have := EncodeRune_length_two _ (sjisDouble_ge tbl htbl b0.toNat b1.toNat)
          simp only [List.length_append, List.length_cons]
          omega
      · have := EncodeRune_length_pos (sjisSingle b0.toNat)
        simp only [List.length_append, List.length_cons]
        omega

theorem truncateAtNull_append_of_mem (a x : List Byte) (h : (0 : Byte) ∈ a) :
    truncateAtNull (a ++ x) = truncateAtNull a := by
  rw [truncateAtNull_eq_takeWhile, truncateAtNull_eq_takeWhile]
  induction a with
  | nil => simp at h
  | cons b a ih =>
    by_cases hb : b = 0
    · subst hb
      simp [List.takeWhile_cons]
    · have ha : (0 : Byte) ∈ a := by
        rcases List.mem_cons.mp h with h0 | h0
        · exact absurd h0.symm hb
        · exact h0
      simp [List.takeWhile_cons, hb, ih ha]

/-- The header stage on a 30-byte block whose first 25 bytes hold no null byte: the
outcome is decided by those 25 bytes, compared as they stand. -/
theorem decodeHeader_null_free (tbl : List UInt16)
    (htbl : ∀ x ∈ tbl, x.toNat = 0 ∨ 0x80 ≤ x.toNat) (vm : VMD) (a p rest : List Byte)
    (ha : a.length = 25) (hp : p.length = 5) (hnull : ∀ b ∈ a, b ≠ 0) :
    decodeHeader (shiftJisDecoder tbl) vm (a ++ (p ++ rest)) =
      if a.take 20 = ascii "Vocaloid Motion Data" then
        if a = ascii "Vocaloid Motion Data file" then
          Run.ret (decodeModel (shiftJisDecoder tbl) { vm with Version := 1 } rest)
        else if a = ascii "Vocaloid Motion Data 0002" then
          Run.ret (decodeModel (shiftJisDecoder tbl) { vm with Version := 2 } rest)
        else Run.ret (vm, some (errorsNew "unsupported vmd version"), rest)
      else Run.ret (vm, some (errorsNew "not a vmd format file"), rest) := by
  have h30 : (a ++ p).length = 30 := by rw [List.length_append, ha, hp]
  have hin : a ++ (p ++ rest) = (a ++ p) ++ rest := by rw [List.append_assoc]
  have hlen : 25 ≤ (shiftJISTransform tbl (a ++ truncateAtNull p)).length := by
    have := shiftJISTransform_length_ge tbl htbl _ (a ++ truncateAtNull p) (Nat.le_refl _)
    rw [List.length_append, ha] at this
    omega
  have key : ∀ (k : Nat) (m : List Byte), k ≤ 25 → m.length = k → (∀ b ∈ m, b.toNat < 0x80) →
      ((shiftJISTransform tbl (a ++ truncateAtNull p)).take k = m ↔ a.take k = m) := by
    intro k m hk hml hma
    constructor
    · intro hm
      have e := shiftJISTransform_take_ascii tbl htbl k (a ++ truncateAtNull p) (by omega)
        (by rw [hm]; exact hma)
      rw [List.take_append_of_le_length (by omega)] at e
      rw [e, hm]
    · intro hm
      have hsplit : a = m ++ a.drop k := by
        rw [← hm]
        exact (List.take_append_drop k a).symm
      rw [hsplit, List.append_assoc, shiftJISTransform_ascii_append tbl m _ hma,
        List.take_left' hml]
  have hpre : HasPrefix ((shiftJISTransform tbl (a ++ truncateAtNull p)).take 25)
      (ascii "Vocaloid Motion Data") = true ↔ a.take 20 = ascii "Vocaloid Motion Data" := by
    rw [HasPrefix, List.isPrefixOf_iff_prefix, List.prefix_take_iff,
      ← key 20 (ascii "Vocaloid Motion Data") (by decide) rfl (by decide)]
    constructor
    · intro hh
      exact (List.prefix_iff_eq_take.mp hh.1).symm
    · intro hh
      refine ⟨?_, by decide⟩
      rw [← hh]
      exact List.take_prefix _ _
  have hm1 := key 25 (ascii "Vocaloid Motion Data file") (by decide) rfl (by decide)
  have hm2 := key 25 (ascii "Vocaloid Motion Data 0002") (by decide) rfl (by decide)
  have ha25 : a.take 25 = a := List.take_of_length_le (by omega)
  rw [ha25] at hm1 hm2
  rw [decodeHeader_shiftJis tbl vm _ (by rw [hin, List.length_append, h30]; omega), hin,
    List.take_left' h30, List.drop_left' h30, truncateAtNull_append a p hnull,
    if_neg (by omega)]
  by_cases c0 : a.take 20 = ascii "Vocaloid Motion Data"
  · rw [if_pos (hpre.mpr c0), if_pos c0]
    by_cases c1 : a = ascii "Vocaloid Motion Data file"
    · rw [if_pos (hm1.mpr c1), if_pos c1]
    · rw [if_neg (fun hh => c1 (hm1.mp hh)), if_neg c1]
      by_cases c2 : a = ascii "Vocaloid Motion Data 0002"
      · rw [if_pos (hm2.mpr c2), if_pos c2]
      · rw [if_neg (fun hh => c2 (hm2.mp hh)), if_neg c2]
  · rw [if_neg (fun hh => c0 (hpre.mp hh)), if_neg c0]

/-- The header stage on a 30-byte block with a null byte among its first 25 bytes: the
bytes after the null byte are cut off, bytes 25 to 29 among them. -/
theorem decodeHeader_null (tbl : List UInt16) (vm : VMD) (a p q rest : List Byte)
    (ha : a.length = 25) (hp : p.length = 5) (hq : q.length = 5) (hnull : (0 : Byte) ∈ a) :
    decodeHeader (shiftJisDecoder tbl) vm (a ++ (p ++ rest))
      = decodeHeader (shiftJisDecoder tbl) vm (a ++ (q ++ rest)) := by
  have hpl : (a ++ p).length = 30 := by rw [List.length_append, ha, hp]
  have hql : (a ++ q).length = 30 := by rw [List.length_append, ha, hq]
  rw [decodeHeader_shiftJis tbl vm _ (by simp only [List.length_append]; omega),
    decodeHeader_shiftJis tbl vm _ (by simp only [List.length_append]; omega),
    ← List.append_assoc, ← List.append_assoc, List.take_left' hpl, List.take_left' hql,
    List.drop_left' hpl, List.drop_left' hql, truncateAtNull_append_of_mem a p hnull,
    truncateAtNull_append_of_mem a q hnull]

/-- C14. With the Shift-JIS decoder (its table without ASCII entry), two streams that
agree on bytes 0-24 and on everything from byte 30 on, and differ at most in bytes
25-29, have the same outcome of `Decode`: the same document (version, model name,
frames), or the same error, or both the panic of the header stage; the stream is left
at the same place. -/
theorem Decode_ignores_padding (tbl : List UInt16)
    (htbl : ∀ x ∈ tbl, x.toNat = 0 ∨ 0x80 ≤ x.toNat) (a p q rest : List Byte)
    (ha : a.length = 25) (hp : p.length = 5) (hq : q.length = 5) :
    Decode (shiftJisDecoder tbl) (a ++ p ++ rest)
      = Decode (shiftJisDecoder tbl) (a ++ q ++ rest) := by
  have hh : decodeHeader (shiftJisDecoder tbl) VMD.new (a ++ (p ++ rest))
      = decodeHeader (shiftJisDecoder tbl) VMD.new (a ++ (q ++ rest)) := by
    by_cases hnull : (0 : Byte) ∈ a
    · exact decodeHeader_null tbl VMD.new a p q rest ha hp hq hnull
    · have hn : ∀ b ∈ a, b ≠ 0 := fun b hb h0 => hnull (h0 ▸ hb)
      rw [decodeHeader_null_free tbl htbl VMD.new a p rest ha hp hn,
        decodeHeader_null_free tbl htbl VMD.new a q rest ha hq hn]
  simp only [List.append_assoc]
  unfold Decode
  rw [hh]

/-- Witness of C14: the version-2 magic string with null padding and with the padding
"ABCDE". -/
theorem Decode_ignores_padding_witness :
    Decode (shiftJisDecoder [])
        (ascii "Vocaloid Motion Data 0002" ++ List.replicate 5 0 ++ List.replicate 36 0)
      = Decode (shiftJisDecoder [])
        (ascii "Vocaloid Motion Data 0002" ++ ascii "ABCDE" ++ List.replicate 36 0) :=
  Decode_ignores_padding [] (by simp) (ascii "Vocaloid Motion Data 0002")
    (List.replicate 5 0) (ascii "ABCDE") (List.replicate 36 0) (by decide) (by decide)
    (by decide)

end Vmd
